import Mathlib

/-!
# Castro set-up: boundary-condition tables, field registry, derived catalogue, MOL tableau

A shallow embedding of `Source/Castro_setup.cpp`.

* Integers of the program (`int`) are `Int`; loop counters that only run upwards from `0`
  are `Nat`. The counter `cnt` of the first pass, which adds the counts of the network, is
  taken in 32 bits (`wrapInt`).
* A subscript outside an array and a call of `amrex::Error` end a run without a result; both
  are results of type `Except Abort _`.
* Preprocessor switches (`#ifdef HYBRID_MOMENTUM`, `BL_SPACEDIM`, ...) are fields of the
  configuration record, so that one definition covers every build of the file.
-/

namespace CastroSetup

/-! ## Results of a run -/

/-- How a run of the set-up code ends when it does not produce a value.
`Error` is a call of `amrex::Error`, `Assertion` a `BL_ASSERT` that does not hold in a build
that compiles assertions in, and `OutOfRange` a subscript outside the array that is
subscripted: the program contains no check there and its behaviour is not defined. -/
inductive Abort where
  | Error (msg : String)
  | Assertion (cond : String)
  | OutOfRange
  deriving DecidableEq, Repr

/-! ## Boundary types and fill codes -/

/-- Physical boundary types, the subscripts of the three tables
(`Components are: Interior, Inflow, Outflow, Symmetry, SlipWall, NoSlipWall`). -/
def Interior : Int := 0
/-- Boundary type 1. -/
def Inflow : Int := 1
/-- Boundary type 2. -/
def Outflow : Int := 2
/-- Boundary type 3. -/
def Symmetry : Int := 3
/-- Boundary type 4. -/
def SlipWall : Int := 4
/-- Boundary type 5. -/
def NoSlipWall : Int := 5

/-- The mathematical boundary codes the tables hold. `BOGUS_BC` is what a face of a `BCRec`
holds before anything is stored in it. -/
inductive FillCode where
  | BOGUS_BC
  | REFLECT_ODD
  | INT_DIR
  | REFLECT_EVEN
  | FOEXTRAP
  | EXT_DIR
  deriving DecidableEq, Repr

open FillCode

/-- Table `scalar_bc`. -/
def scalar_bc : List FillCode :=
  [INT_DIR, EXT_DIR, FOEXTRAP, REFLECT_EVEN, REFLECT_EVEN, REFLECT_EVEN]

/-- Table `norm_vel_bc`. -/
def norm_vel_bc : List FillCode :=
  [INT_DIR, EXT_DIR, FOEXTRAP, REFLECT_ODD, REFLECT_ODD, REFLECT_ODD]

/-- Table `tang_vel_bc`. -/
def tang_vel_bc : List FillCode :=
  [INT_DIR, EXT_DIR, FOEXTRAP, REFLECT_EVEN, REFLECT_EVEN, REFLECT_EVEN]

/-- The subscript `t[i]` of a C array by an `int`. -/
def subscript {α : Type} (t : List α) (i : Int) : Except Abort α :=
  if i < 0 then Except.error Abort.OutOfRange
  else
    match t[i.toNat]? with
    | some v => Except.ok v
    | none => Except.error Abort.OutOfRange

/-- A boundary record: one value for the low and one for the high face of every axis.
The program uses the same record type for the physical boundary types of the domain
(`phys_bc`, values `0..5`) and for the fill codes of a field. -/
structure BCRec (α : Type) where
  lo : List α
  hi : List α
  deriving DecidableEq, Repr

/-- The call `bc.setLo(dir, v)`. -/
def BCRec.setLo {α : Type} (bc : BCRec α) (dir : Nat) (v : α) : BCRec α :=
  { bc with lo := bc.lo.set dir v }

/-- The call `bc.setHi(dir, v)`. -/
def BCRec.setHi {α : Type} (bc : BCRec α) (dir : Nat) (v : α) : BCRec α :=
  { bc with hi := bc.hi.set dir v }

/-- The statement pair `bc.setLo(i, table[lo_bc[i]]); bc.setHi(i, table[hi_bc[i]]);`. -/
def setFaces (table : List FillCode) (i : Nat) (bc : BCRec FillCode) (phys_bc : BCRec Int) :
    Except Abort (BCRec FillCode) := do
  let l ← subscript phys_bc.lo i
  let a ← subscript table l
  let bc := bc.setLo i a
  let h ← subscript phys_bc.hi i
  let b ← subscript table h
  pure (bc.setHi i b)

/-- Function `set_scalar_bc`: the loop `for (int i = 0; i < BL_SPACEDIM; i++)`. -/
def set_scalar_bc (dim : Nat) (bc : BCRec FillCode) (phys_bc : BCRec Int) :
    Except Abort (BCRec FillCode) :=
  (List.range dim).foldlM (fun bc i => setFaces scalar_bc i bc phys_bc) bc

/-- Function `set_x_vel_bc`. -/
def set_x_vel_bc (dim : Nat) (bc : BCRec FillCode) (phys_bc : BCRec Int) :
    Except Abort (BCRec FillCode) := do
  let bc ← setFaces norm_vel_bc 0 bc phys_bc
  let bc ← if 2 ≤ dim then setFaces tang_vel_bc 1 bc phys_bc else pure bc
  let bc ← if dim = 3 then setFaces tang_vel_bc 2 bc phys_bc else pure bc
  pure bc

/-- Function `set_y_vel_bc`. -/
def set_y_vel_bc (dim : Nat) (bc : BCRec FillCode) (phys_bc : BCRec Int) :
    Except Abort (BCRec FillCode) := do
  let bc ← setFaces tang_vel_bc 0 bc phys_bc
  let bc ← if 2 ≤ dim then setFaces norm_vel_bc 1 bc phys_bc else pure bc
  let bc ← if dim = 3 then setFaces tang_vel_bc 2 bc phys_bc else pure bc
  pure bc

/-- Function `set_z_vel_bc`. -/
def set_z_vel_bc (dim : Nat) (bc : BCRec FillCode) (phys_bc : BCRec Int) :
    Except Abort (BCRec FillCode) := do
  let bc ← setFaces tang_vel_bc 0 bc phys_bc
  let bc ← if 2 ≤ dim then setFaces tang_vel_bc 1 bc phys_bc else pure bc
  let bc ← if dim = 3 then setFaces norm_vel_bc 2 bc phys_bc else pure bc
  pure bc

/-- A boundary record has one low and one high entry per axis of the domain. -/
def BCRec.sized {α : Type} (bc : BCRec α) (dim : Nat) : Prop :=
  bc.lo.length = dim ∧ bc.hi.length = dim

/-- Every face of the domain carries one of the six boundary types. -/
def validPhys (dim : Nat) (phys_bc : BCRec Int) : Prop :=
  phys_bc.sized dim ∧ (∀ v ∈ phys_bc.lo, 0 ≤ v ∧ v ≤ 5) ∧ (∀ v ∈ phys_bc.hi, 0 ≤ v ∧ v ≤ 5)

/-- The code a table holds for boundary type `v` (`BOGUS_BC` outside the table): the closed
form of `subscript` used to describe results. -/
def lookup (table : List FillCode) (v : Int) : FillCode :=
  if v < 0 then BOGUS_BC else table.getD v.toNat BOGUS_BC

/-- Closed form of the record `set_scalar_bc` returns. -/
def scalarRec (phys_bc : BCRec Int) : BCRec FillCode :=
  ⟨phys_bc.lo.map (lookup scalar_bc), phys_bc.hi.map (lookup scalar_bc)⟩

/-- The table a velocity component with principal axis `P` uses on axis `i`. -/
def velTable (P i : Nat) : List FillCode :=
  if i = P then norm_vel_bc else tang_vel_bc

/-- Closed form of the record the velocity assembler with principal axis `P` returns. -/
def velRec (P : Nat) (phys_bc : BCRec Int) : BCRec FillCode :=
  ⟨phys_bc.lo.enum.map (fun p => lookup (velTable P p.1) p.2),
   phys_bc.hi.enum.map (fun p => lookup (velTable P p.1) p.2)⟩

/-- Axis `i` of the record `r` holds, on both faces, what `table` gives for the boundary
types of the two faces of axis `i` of `phys_bc`. -/
def rowOn (table : List FillCode) (r : BCRec FillCode) (phys_bc : BCRec Int) (i : Nat) : Prop :=
  ∃ l h a b, phys_bc.lo[i]? = some l ∧ phys_bc.hi[i]? = some h ∧
    subscript table l = Except.ok a ∧ subscript table h = Except.ok b ∧
    r.lo[i]? = some a ∧ r.hi[i]? = some b


/-! ## Method-of-lines Butcher tableau -/

/-- The static members `MOL_STAGES`, `a_mol`, `b_mol`, `c_mol`. The coefficients of the
source (`0.5`, `0.25`, `1./6.`, `2./3.`) are read as exact rationals. -/
structure MolTableau where
  MOL_STAGES : Nat
  a_mol : List (List ℚ)
  b_mol : List ℚ
  c_mol : List ℚ
  deriving DecidableEq, Repr

/-- The five preprocessor names that guard a tableau block, in the order of the source. -/
inductive TableauKind where
  | THIRDORDER
  | THIRDORDER_TVD
  | SECONDORDER
  | SECONDORDER_TVD
  | FIRSTORDER
  deriving DecidableEq, Repr

/-- What the block guarded by `#ifdef kind` assigns. -/
def molBlock : TableauKind → MolTableau
  | TableauKind.THIRDORDER =>
      { MOL_STAGES := 3
        a_mol := [[0, 0, 0], [1/2, 0, 0], [-1, 2, 0]]
        b_mol := [1/6, 2/3, 1/6]
        c_mol := [0, 1/2, 1] }
  | TableauKind.THIRDORDER_TVD =>
      { MOL_STAGES := 3
        a_mol := [[0, 0, 0], [1, 0, 0], [1/4, 1/4, 0]]
        b_mol := [1/6, 1/6, 2/3]
        c_mol := [0, 1, 1/2] }
  | TableauKind.SECONDORDER =>
      { MOL_STAGES := 2
        a_mol := [[0, 0], [1/2, 0]]
        b_mol := [0, 1]
        c_mol := [0, 1/2] }
  | TableauKind.SECONDORDER_TVD =>
      { MOL_STAGES := 2
        a_mol := [[0, 0], [1, 0]]
        b_mol := [1/2, 1/2]
        c_mol := [0, 1] }
  | TableauKind.FIRSTORDER =>
      { MOL_STAGES := 1
        a_mol := [[1]]
        b_mol := [1]
        c_mol := [0] }

/-- The line `#define THIRDORDER_TVD`: the only one of the five names that is defined. -/
def molDefined (kind : TableauKind) : Bool :=
  kind = TableauKind.THIRDORDER_TVD

/-- The five `#ifdef` blocks in the order of the source; a block whose name is defined
overwrites the tableau. -/
def setTableau (defined : TableauKind → Bool) (t : MolTableau) : MolTableau :=
  [TableauKind.THIRDORDER, TableauKind.THIRDORDER_TVD, TableauKind.SECONDORDER,
    TableauKind.SECONDORDER_TVD, TableauKind.FIRSTORDER].foldl
    (fun t kind => if defined kind then molBlock kind else t) t

/-- The entry `a[i][j]` of a matrix stored as rows (`0` where no entry is stored). -/
def entry (a : List (List ℚ)) (i j : Nat) : ℚ :=
  (a.getD i []).getD j 0

/-- A stage-coupling matrix is strictly lower-triangular: `a[i][j] = 0` for every `j ≥ i`
among its `n` rows and columns. -/
def strictlyLower (n : Nat) (a : List (List ℚ)) : Prop :=
  ∀ i < n, ∀ j < n, i ≤ j → entry a i j = 0

instance (n : Nat) (a : List (List ℚ)) : Decidable (strictlyLower n a) := by
  unfold strictlyLower; infer_instance

/-! ## State descriptors and the derived catalogue

`DescriptorList` and `DeriveList` are classes of the AMReX library. The embedding keeps what
the calls of this file store: `addDescriptor` adds a descriptor with `ncomp` unnamed
components, `setComponent` stores a name and a boundary record in one of them,
`DeriveList::add` appends a record, and `DeriveList::addComponent` appends a dependency range
to the first record that carries the name it is given and raises an error when no record
carries it. Neither list compares the names it is given with the names it holds. -/

/-- The state types of the program. -/
inductive StateType where
  | State_Type
  | PhiGrav_Type
  | Gravity_Type
  | Source_Type
  | PhiRot_Type
  | Rotation_Type
  | Reactions_Type
  | SDC_Source_Type
  | SDC_React_Type
  | Rad_Type
  | Knapsack_Weight_Type
  deriving DecidableEq, Repr

/-- The interpolaters the program chooses from. -/
inductive Interpolater where
  | pc_interp
  | lincc_interp
  | cell_cons_interp
  deriving DecidableEq, Repr

/-- The two box maps of the file, `the_same_box` and `grow_box_by_one`. -/
inductive DeriveBoxMap where
  | the_same_box
  | grow_box_by_one
  deriving DecidableEq, Repr

/-- A default-constructed `BCRec`: no face is set. -/
def BCRec.unset (dim : Nat) : BCRec FillCode :=
  ⟨List.replicate dim BOGUS_BC, List.replicate dim BOGUS_BC⟩

/-- The assignment `a[i] = v` to an array element. -/
def assign {α : Type} (a : List α) (i : Int) (v : α) : Except Abort (List α) :=
  if 0 ≤ i ∧ i.toNat < a.length then Except.ok (a.set i.toNat v)
  else Except.error Abort.OutOfRange

/-- One state descriptor: what `addDescriptor` is given, and the names and boundary records
of its components. -/
structure StateDescriptor where
  typ : StateType
  ngrow : Int
  ncomp : Int
  interp : Interpolater
  extrap : Bool
  store_in_checkpoint : Bool
  names : List String
  bc : List (BCRec FillCode)
  deriving DecidableEq, Repr

/-- A descriptor as `addDescriptor` defines it: `ncomp` components without a name and
without boundary codes. -/
def StateDescriptor.define (dim : Nat) (typ : StateType) (ngrow ncomp : Int)
    (interp : Interpolater) (extrap : Bool) (store_in_checkpoint : Bool) : StateDescriptor :=
  { typ := typ, ngrow := ngrow, ncomp := ncomp, interp := interp,
    extrap := extrap, store_in_checkpoint := store_in_checkpoint,
    names := List.replicate ncomp.toNat "",
    bc := List.replicate ncomp.toNat (BCRec.unset dim) }

/-- The call `desc_lst.addDescriptor(typ, IndexType::TheCellType(), StateDescriptor::Point,
ngrow, ncomp, interp, extrap, store_in_checkpoint)`. -/
def addDescriptor (dim : Nat) (desc_lst : List StateDescriptor) (typ : StateType)
    (ngrow ncomp : Int) (interp : Interpolater) (extrap : Bool) (store_in_checkpoint : Bool) :
    List StateDescriptor :=
  desc_lst ++ [StateDescriptor.define dim typ ngrow ncomp interp extrap store_in_checkpoint]

/-- The call `desc_lst.setComponent(typ, comp, name, bc, func)` for one component. -/
def setComponent : List StateDescriptor → StateType → Int → String → BCRec FillCode →
    Except Abort (List StateDescriptor)
  | [], _, _, _, _ => Except.error Abort.OutOfRange
  | d :: ds, typ, comp, nm, bc =>
      if d.typ = typ then do
        let names ← assign d.names comp nm
        let bcs ← assign d.bc comp bc
        pure ({ d with names := names, bc := bcs } :: ds)
      else do
        let ds ← setComponent ds typ comp nm bc
        pure (d :: ds)

/-- The call `desc_lst.setComponent(typ, comp, names, bcs, func)` for an array of
components: component `comp + i` receives `names[i]` and `bcs[i]`. -/
def setComponents (desc_lst : List StateDescriptor) (typ : StateType) (comp : Int)
    (names : List String) (bcs : List (BCRec FillCode)) : Except Abort (List StateDescriptor) :=
  (List.range names.length).foldlM
    (fun lst (i : Nat) => do
      let nm ← subscript names i
      let bc ← subscript bcs i
      setComponent lst typ (comp + i) nm bc)
    desc_lst

/-- A dependency range of a derived quantity: state type, first component, number of
components. -/
structure StateRange where
  typ : StateType
  sc : Int
  nc : Int
  deriving DecidableEq, Repr

/-- One record of the derived catalogue. -/
structure DeriveRec where
  derive_name : String
  n_derive : Int
  bx_map : DeriveBoxMap
  rng : List StateRange
  deriving DecidableEq, Repr

/-- The call `derive_lst.add(name, IndexType::TheCellType(), nvar, func, bx_map)`. -/
def add (derive_lst : List DeriveRec) (name : String) (nvar : Int) (bx_map : DeriveBoxMap) :
    List DeriveRec :=
  derive_lst ++ [{ derive_name := name, n_derive := nvar, bx_map := bx_map, rng := [] }]

/-- The call `derive_lst.addComponent(name, desc_lst, typ, s_comp, n_comp)`. -/
def addComponent : List DeriveRec → String → StateType → Int → Int →
    Except Abort (List DeriveRec)
  | [], _, _, _, _ => Except.error (Abort.Error "DeriveList::addComponent(): unknown name")
  | r :: rs, name, typ, s_comp, n_comp =>
      if r.derive_name = name then
        Except.ok ({ r with rng := r.rng ++ [⟨typ, s_comp, n_comp⟩] } :: rs)
      else do
        let rs ← addComponent rs name typ s_comp n_comp
        pure (r :: rs)

/-- A call of `derive_lst.add` followed by the calls of `derive_lst.addComponent` for the
same name. -/
structure DeriveBlock where
  name : String
  nvar : Int
  bx_map : DeriveBoxMap
  comps : List StateRange
  deriving DecidableEq, Repr

/-- Runs one block: `add`, then `addComponent` for every range of the block. -/
def DeriveBlock.run (derive_lst : List DeriveRec) (b : DeriveBlock) :
    Except Abort (List DeriveRec) :=
  b.comps.foldlM (fun lst r => addComponent lst b.name r.typ r.sc r.nc)
    (add derive_lst b.name b.nvar b.bx_map)

/-- Runs blocks one after the other. -/
def runBlocks (derive_lst : List DeriveRec) (blocks : List DeriveBlock) :
    Except Abort (List DeriveRec) :=
  blocks.foldlM DeriveBlock.run derive_lst

/-- A `sprintf` into a `char` buffer of `cap` bytes: the text and its terminating zero have
to fit. -/
def sprintf (cap : Nat) (text : String) : Except Abort String :=
  if text.length < cap then Except.ok text else Except.error Abort.OutOfRange

/-- The statement `BL_ASSERT(cond)`: checked only in a build that compiles assertions in. -/
def BL_ASSERT (debug : Bool) (cond : Prop) [Decidable cond] (text : String) :
    Except Abort Unit :=
  if debug = true ∧ ¬ cond then Except.error (Abort.Assertion text) else Except.ok ()

/-- The statement `if (cond) amrex::Error(msg);`. -/
def errorIf (cond : Prop) [Decidable cond] (msg : String) : Except Abort Unit :=
  if cond then Except.error (Abort.Error msg) else Except.ok ()

/-! ## Configuration and static members -/

/-- What the file takes from outside: preprocessor switches, run-time parameters, and the
answers of the network, radiation and geometry modules. -/
structure Config where
  /-- `#ifdef` switches. -/
  HYBRID_MOMENTUM : Bool
  SHOCK_VAR : Bool
  SELF_GRAVITY : Bool
  ROTATION : Bool
  REACTIONS : Bool
  SDC : Bool
  RADIATION : Bool
  NEUTRINO : Bool
  DIFFUSION : Bool
  PARTICLES : Bool
  /-- `BL_ASSERT` is compiled in. -/
  DEBUG : Bool
  /-- The value of `NUM_ADV` when it is defined. -/
  NUM_ADV : Option Int
  BL_SPACEDIM : Nat
  /-- `ParallelDescriptor::IOProcessor()`. -/
  IOProcessor : Bool
  /-- Results of `ca_get_num_spec`, `ca_get_num_aux`, `ca_get_spec_names`,
  `ca_get_aux_names`, `ca_get_method_params`, `ca_get_qvar`, `ca_get_nqaux`. -/
  ca_get_num_spec : Int
  ca_get_num_aux : Int
  ca_get_spec_names : Nat → String
  ca_get_aux_names : Nat → String
  ca_get_method_params : Int
  ca_get_qvar : Int
  ca_get_nqaux : Int
  /-- Run-time parameters read by `read_params`. -/
  phys_bc : BCRec Int
  state_interp_order : Int
  lin_limit_state_interp : Int
  state_nghost : Int
  use_custom_knapsack_weights : Bool
  diffuse_temp : Bool
  /-- `Geometry::IsSPHERICAL()`. -/
  IsSPHERICAL : Bool
  /-- Members of `Radiation` and the component index `Rad`. -/
  nGroups : Int
  nNeutrinoSpecies : Int
  nNeutrinoGroups : List Int
  do_multigroup : Bool
  plot_neutrino_group_energies_per_MeV : Bool
  Rad : Int

/-- The static members of `Castro` that `variableSetUp` reads or assigns. -/
structure Castro where
  Density : Int
  Xmom : Int
  Ymom : Int
  Zmom : Int
  Rmom : Int
  Lmom : Int
  Pmom : Int
  Eden : Int
  Eint : Int
  Temp : Int
  NumAdv : Int
  FirstAdv : Int
  NumSpec : Int
  FirstSpec : Int
  NumAux : Int
  FirstAux : Int
  Shock : Int
  NUM_STATE : Int
  NUM_GROW : Int
  QVAR : Int
  NQAUX : Int
  Knapsack_Weight_Type : Int
  num_state_type : Int
  desc_lst : List StateDescriptor
  derive_lst : List DeriveRec
  mol : MolTableau

/-! ## `Castro::variableSetUp` -/

/-- The value of an `int`: 32 bits in two's complement. A sum that leaves the range
`-2147483648 .. 2147483647` comes back into it by a multiple of `2^32`, as on the targets the
code is built for. -/
def wrapInt (x : Int) : Int :=
  (x + 2147483648) % 4294967296 - 2147483648

/-- Lines 168-218: `Set number of state variables and pointers to components`. The counter
`cnt` is an `int`: the sums `cnt += NumAdv`, `cnt += NumSpec`, `cnt += NumAux` and the last
`cnt++` are taken in `int`; the increments before them act on values below 10. -/
def assignIndices (cfg : Config) (s : Castro) : Castro :=
  let cnt : Int := 0
  let s := { s with Density := cnt }
  let cnt := cnt + 1
  let s := { s with Xmom := cnt }
  let cnt := cnt + 1
  let s := { s with Ymom := cnt }
  let cnt := cnt + 1
  let s := { s with Zmom := cnt }
  let cnt := cnt + 1
  let (s, cnt) :=
    if cfg.HYBRID_MOMENTUM then
      ({ s with Rmom := cnt, Lmom := cnt + 1, Pmom := cnt + 2 }, cnt + 3)
    else (s, cnt)
  let s := { s with Eden := cnt }
  let cnt := cnt + 1
  let s := { s with Eint := cnt }
  let cnt := cnt + 1
  let s := { s with Temp := cnt }
  let cnt := cnt + 1
  let s := { s with NumAdv := match cfg.NUM_ADV with | some n => n | none => 0 }
  let (s, cnt) :=
    if s.NumAdv > 0 then ({ s with FirstAdv := cnt }, wrapInt (cnt + s.NumAdv)) else (s, cnt)
  let s := { s with NumSpec := cfg.ca_get_num_spec }
  let (s, cnt) :=
    if s.NumSpec > 0 then ({ s with FirstSpec := cnt }, wrapInt (cnt + s.NumSpec)) else (s, cnt)
  let s := { s with NumAux := cfg.ca_get_num_aux }
  let (s, cnt) :=
    if s.NumAux > 0 then ({ s with FirstAux := cnt }, wrapInt (cnt + s.NumAux)) else (s, cnt)
  let (s, cnt) :=
    if cfg.SHOCK_VAR then ({ s with Shock := cnt }, wrapInt (cnt + 1)) else (s, cnt)
  let s := { s with NUM_STATE := cnt }
  { s with NUM_GROW := cfg.ca_get_method_params, QVAR := cfg.ca_get_qvar,
           NQAUX := cfg.ca_get_nqaux }

/-- Lines 293-314: the interpolater of the state data. -/
def chooseInterp (cfg : Config) : Interpolater :=
  let interp :=
    if cfg.state_interp_order = 0 then Interpolater.pc_interp
    else if cfg.lin_limit_state_interp = 1 then Interpolater.lincc_interp
    else Interpolater.cell_cons_interp
  if cfg.RADIATION && (cfg.IsSPHERICAL && decide (cfg.nNeutrinoSpecies > 0)) then
    Interpolater.pc_interp
  else interp

/-- Lines 323-328: the ghost width `ngrow_state`. -/
def ngrow_state (cfg : Config) : Int :=
  if cfg.RADIATION then max 1 cfg.state_nghost else cfg.state_nghost

/-- Lines 332-397: the calls of `addDescriptor` that do not depend on the naming pass. -/
def addDescriptors (cfg : Config) (s : Castro) (interp : Interpolater)
    (desc_lst : List StateDescriptor) : List StateDescriptor :=
  let dim := cfg.BL_SPACEDIM
  let state_data_extrap := false
  let desc_lst := addDescriptor dim desc_lst StateType.State_Type (ngrow_state cfg)
    s.NUM_STATE interp state_data_extrap true
  let desc_lst :=
    if cfg.SELF_GRAVITY then
      let desc_lst := addDescriptor dim desc_lst StateType.PhiGrav_Type 1 1
        Interpolater.cell_cons_interp state_data_extrap true
      addDescriptor dim desc_lst StateType.Gravity_Type s.NUM_GROW 3
        Interpolater.cell_cons_interp state_data_extrap false
    else desc_lst
  let desc_lst := addDescriptor dim desc_lst StateType.Source_Type s.NUM_GROW s.NUM_STATE
    Interpolater.cell_cons_interp state_data_extrap true
  let desc_lst :=
    if cfg.ROTATION then
      let desc_lst := addDescriptor dim desc_lst StateType.PhiRot_Type 1 1
        Interpolater.cell_cons_interp state_data_extrap false
      addDescriptor dim desc_lst StateType.Rotation_Type s.NUM_GROW 3
        Interpolater.cell_cons_interp state_data_extrap false
    else desc_lst
  let desc_lst :=
    if cfg.REACTIONS then
      addDescriptor dim desc_lst StateType.Reactions_Type 0 (s.NumSpec + 2)
        Interpolater.cell_cons_interp state_data_extrap true
    else desc_lst
  let desc_lst :=
    if cfg.SDC then
      let desc_lst := addDescriptor dim desc_lst StateType.SDC_Source_Type s.NUM_GROW
        s.NUM_STATE Interpolater.cell_cons_interp state_data_extrap true
      if cfg.REACTIONS then
        addDescriptor dim desc_lst StateType.SDC_React_Type s.NUM_GROW s.QVAR
          Interpolater.cell_cons_interp state_data_extrap true
      else desc_lst
    else desc_lst
  desc_lst

/-- The local variables of the naming pass (lines 399-486): the counter `cnt`, the record
`bc`, and the arrays `bcs` and `name`. The field `written` is not a variable of the program:
it records, in order, the subscripts at which the pass has stored an entry. -/
structure Naming where
  cnt : Int
  bc : BCRec FillCode
  bcs : List (BCRec FillCode)
  name : List String
  written : List Int
  deriving DecidableEq, Repr

/-- The statements `set_..._bc(bc,phys_bc); bcs[cnt] = bc; name[cnt] = nm;`. -/
def Naming.put (set_bc : BCRec FillCode → Except Abort (BCRec FillCode)) (nm : String)
    (st : Naming) : Except Abort Naming := do
  let bc ← set_bc st.bc
  let bcs ← assign st.bcs st.cnt bc
  let name ← assign st.name st.cnt nm
  pure { st with bc := bc, bcs := bcs, name := name, written := st.written ++ [st.cnt] }

/-- The statements `cnt++; set_..._bc(bc,phys_bc); bcs[cnt] = bc; name[cnt] = nm;`. -/
def Naming.next (set_bc : BCRec FillCode → Except Abort (BCRec FillCode)) (nm : String)
    (st : Naming) : Except Abort Naming :=
  Naming.put set_bc nm { st with cnt := st.cnt + 1 }

/-- The vector `spec_names`: one call of `ca_get_spec_names` per species. -/
def spec_names (cfg : Config) (s : Castro) : List String :=
  (List.range s.NumSpec.toNat).map cfg.ca_get_spec_names

/-- The vector `aux_names`: one call of `ca_get_aux_names` per auxiliary quantity. -/
def aux_names (cfg : Config) (s : Castro) : List String :=
  (List.range s.NumAux.toNat).map cfg.ca_get_aux_names

/-- Lines 408-412: the components of the hybrid momenta. -/
def nameHybrid (cfg : Config) (st : Naming) : Except Abort Naming :=
  if cfg.HYBRID_MOMENTUM then do
    let scalar := fun bc => set_scalar_bc cfg.BL_SPACEDIM bc cfg.phys_bc
    let st ← st.next scalar "rmom"
    let st ← st.next scalar "lmom"
    st.next scalar "pmom"
  else pure st

/-- Lines 417-422: the advected quantities. -/
def nameAdv (cfg : Config) (s : Castro) (st : Naming) : Except Abort Naming :=
  (List.range s.NumAdv.toNat).foldlM
    (fun st (i : Nat) =>
      st.next (fun bc => set_scalar_bc cfg.BL_SPACEDIM bc cfg.phys_bc) ("adv_" ++ toString i))
    st

/-- Lines 446-452: the species. -/
def nameSpecies (cfg : Config) (s : Castro) (st : Naming) : Except Abort Naming :=
  (List.range s.NumSpec.toNat).foldlM
    (fun st (i : Nat) => do
      let nm ← subscript (spec_names cfg s) i
      st.next (fun bc => set_scalar_bc cfg.BL_SPACEDIM bc cfg.phys_bc) ("rho_" ++ nm))
    st

/-- Lines 476-482: the auxiliary quantities. -/
def nameAux (cfg : Config) (s : Castro) (st : Naming) : Except Abort Naming :=
  (List.range s.NumAux.toNat).foldlM
    (fun st (i : Nat) => do
      let nm ← subscript (aux_names cfg s) i
      st.next (fun bc => set_scalar_bc cfg.BL_SPACEDIM bc cfg.phys_bc) ("rho_" ++ nm))
    st

/-- Lines 484-486: the shock variable. -/
def nameShock (cfg : Config) (st : Naming) : Except Abort Naming :=
  if cfg.SHOCK_VAR then
    st.next (fun bc => set_scalar_bc cfg.BL_SPACEDIM bc cfg.phys_bc) "Shock"
  else pure st

/-- Lines 399-486: names and boundary records of the components of `State_Type`. -/
def nameState (cfg : Config) (s : Castro) (bc : BCRec FillCode) : Except Abort Naming := do
  let dim := cfg.BL_SPACEDIM
  let scalar := fun bc => set_scalar_bc dim bc cfg.phys_bc
  let st : Naming :=
    { cnt := 0, bc := bc,
      bcs := List.replicate s.NUM_STATE.toNat (BCRec.unset dim),
      name := List.replicate s.NUM_STATE.toNat "",
      written := [] }
  let st ← st.put scalar "density"
  let st ← st.next (fun bc => set_x_vel_bc dim bc cfg.phys_bc) "xmom"
  let st ← st.next (fun bc => set_y_vel_bc dim bc cfg.phys_bc) "ymom"
  let st ← st.next (fun bc => set_z_vel_bc dim bc cfg.phys_bc) "zmom"
  let st ← nameHybrid cfg st
  let st ← st.next scalar "rho_E"
  let st ← st.next scalar "rho_e"
  let st ← st.next scalar "Temp"
  let st ← nameAdv cfg s st
  let st ← nameSpecies cfg s st
  let st ← nameAux cfg s st
  nameShock cfg st

/-- Lines 494-503: components of the gravity types. Returns the descriptor list and the
record `bc` as the last call left it. -/
def nameGravity (cfg : Config) (bc : BCRec FillCode) (desc_lst : List StateDescriptor) :
    Except Abort (List StateDescriptor × BCRec FillCode) :=
  if cfg.SELF_GRAVITY then do
    let dim := cfg.BL_SPACEDIM
    let bc ← set_scalar_bc dim bc cfg.phys_bc
    let desc_lst ← setComponent desc_lst StateType.PhiGrav_Type 0 "phiGrav" bc
    let bc ← set_x_vel_bc dim bc cfg.phys_bc
    let desc_lst ← setComponent desc_lst StateType.Gravity_Type 0 "grav_x" bc
    let bc ← set_y_vel_bc dim bc cfg.phys_bc
    let desc_lst ← setComponent desc_lst StateType.Gravity_Type 1 "grav_y" bc
    let bc ← set_z_vel_bc dim bc cfg.phys_bc
    let desc_lst ← setComponent desc_lst StateType.Gravity_Type 2 "grav_z" bc
    pure (desc_lst, bc)
  else pure (desc_lst, bc)

/-- Lines 505-514: components of the rotation types. Returns the descriptor list and the
record `bc` as the last call left it. -/
def nameRotation (cfg : Config) (bc : BCRec FillCode) (desc_lst : List StateDescriptor) :
    Except Abort (List StateDescriptor × BCRec FillCode) :=
  if cfg.ROTATION then do
    let dim := cfg.BL_SPACEDIM
    let bc ← set_scalar_bc dim bc cfg.phys_bc
    let desc_lst ← setComponent desc_lst StateType.PhiRot_Type 0 "phiRot" bc
    let bc ← set_x_vel_bc dim bc cfg.phys_bc
    let desc_lst ← setComponent desc_lst StateType.Rotation_Type 0 "rot_x" bc
    let bc ← set_y_vel_bc dim bc cfg.phys_bc
    let desc_lst ← setComponent desc_lst StateType.Rotation_Type 1 "rot_y" bc
    let bc ← set_z_vel_bc dim bc cfg.phys_bc
    let desc_lst ← setComponent desc_lst StateType.Rotation_Type 2 "rot_z" bc
    pure (desc_lst, bc)
  else pure (desc_lst, bc)

/-- Lines 516-523: the array `state_type_source_names` and the components of
`Source_Type`. -/
def nameSource (s : Castro) (name : List String) (bcs : List (BCRec FillCode))
    (desc_lst : List StateDescriptor) :
    Except Abort (List StateDescriptor × List String) := do
  let state_type_source_names ← (List.range s.NUM_STATE.toNat).foldlM
    (fun arr (i : Nat) => do
      let nm ← subscript name i
      assign arr i (nm ++ "_source"))
    (List.replicate s.NUM_STATE.toNat "")
  let desc_lst ← setComponents desc_lst StateType.Source_Type s.Density
    state_type_source_names bcs
  pure (desc_lst, state_type_source_names)

/-- Lines 525-535: components of `Reactions_Type`. -/
def nameReactions (cfg : Config) (s : Castro) (bc : BCRec FillCode)
    (desc_lst : List StateDescriptor) :
    Except Abort (List StateDescriptor × BCRec FillCode) := do
  if cfg.REACTIONS then do
    let (desc_lst, bc) ← (List.range s.NumSpec.toNat).foldlM
      (fun (p : List StateDescriptor × BCRec FillCode) (i : Nat) => do
        let bc ← set_scalar_bc cfg.BL_SPACEDIM p.2 cfg.phys_bc
        let nm ← subscript (spec_names cfg s) i
        let name_react := "omegadot_" ++ nm
        let desc_lst ← setComponent p.1 StateType.Reactions_Type i name_react bc
        pure (desc_lst, bc))
      (desc_lst, bc)
    let desc_lst ← setComponent desc_lst StateType.Reactions_Type s.NumSpec "enuc" bc
    let desc_lst ← setComponent desc_lst StateType.Reactions_Type (s.NumSpec + 1) "rho_enuc" bc
    pure (desc_lst, bc)
  else pure (desc_lst, bc)

/-- Lines 537-549: components of the SDC types. -/
def nameSDC (cfg : Config) (s : Castro) (bc : BCRec FillCode) (name : List String)
    (bcs : List (BCRec FillCode)) (state_type_source_names : List String)
    (desc_lst : List StateDescriptor) :
    Except Abort (List StateDescriptor × BCRec FillCode) := do
  if cfg.SDC then do
    let state_type_source_names ← (List.range s.NUM_STATE.toNat).foldlM
      (fun arr (i : Nat) => do
        let nm ← subscript name i
        assign arr i ("sdc_sources_" ++ nm))
      state_type_source_names
    let desc_lst ← setComponents desc_lst StateType.SDC_Source_Type s.Density
      state_type_source_names bcs
    if cfg.REACTIONS then
      (List.range s.QVAR.toNat).foldlM
        (fun (p : List StateDescriptor × BCRec FillCode) (i : Nat) => do
          let bc ← set_scalar_bc cfg.BL_SPACEDIM p.2 cfg.phys_bc
          let desc_lst ← setComponent p.1 StateType.SDC_React_Type i
            ("sdc_react_source_" ++ toString i) bc
          pure (desc_lst, bc))
        (desc_lst, bc)
    else pure (desc_lst, bc)
  else pure (desc_lst, bc)

/-- Lines 559-578: the checks made on the I/O processor. -/
def checkNeutrino (cfg : Config) (s : Castro) : Except Abort Unit :=
  if cfg.IOProcessor = true ∧ cfg.nNeutrinoSpecies > 0 then do
    let _ ← (List.range cfg.nNeutrinoSpecies.toNat).foldlM
      (fun (_ : Unit) (n : Nat) => do
        let _ ← subscript cfg.nNeutrinoGroups n
        pure ()) ()
    let g0 ← subscript cfg.nNeutrinoGroups 0
    errorIf (g0 > 0 ∧ s.NumAdv ≠ 0) "Neutrino solver assumes NumAdv == 0"
    let g0 ← subscript cfg.nNeutrinoGroups 0
    errorIf (g0 > 0 ∧ (s.NumSpec ≠ 1 ∨ s.NumAux ≠ 1))
      "Neutrino solver assumes NumSpec == NumAux == 1"
  else pure ()

/-- The loop nest over neutrino species `j` and groups `i` with its running index `indx`,
used for the components `rads%dg%d` and for the derived quantities `Neuts%dg%d`. -/
def neutrinoLoop {σ : Type} (cfg : Config) (body : σ → Nat → Nat → Int → Except Abort σ)
    (init : σ) : Except Abort σ := do
  let (st, _) ← (List.range cfg.nNeutrinoSpecies.toNat).foldlM
    (fun (p : σ × Int) (j : Nat) => do
      let nj ← subscript cfg.nNeutrinoGroups j
      (List.range nj.toNat).foldlM
        (fun (q : σ × Int) (i : Nat) => do
          let st ← body q.1 j i q.2
          pure (st, q.2 + 1))
        p)
    (init, (0 : Int))
  pure st

/-- The condition `Radiation::nNeutrinoSpecies == 0 || Radiation::nNeutrinoGroups[0] == 0`
of line 587; the second operand is evaluated only when the first is false. -/
def photonGroups (cfg : Config) : Except Abort Bool :=
  if cfg.nNeutrinoSpecies = 0 then pure true
  else do
    let g0 ← subscript cfg.nNeutrinoGroups 0
    pure (decide (g0 = 0))

/-- Lines 580-606: the names of the components of `Rad_Type`. -/
def nameRadComponents (cfg : Config) (bc : BCRec FillCode) (desc_lst : List StateDescriptor) :
    Except Abort (List StateDescriptor) :=
  if ¬ cfg.do_multigroup then
    setComponent desc_lst StateType.Rad_Type cfg.Rad "rad" bc
  else do
    let photons ← photonGroups cfg
    if photons then
      (List.range cfg.nGroups.toNat).foldlM
        (fun lst (i : Nat) => do
          let rad_name ← sprintf 10 ("rad" ++ toString i)
          setComponent lst StateType.Rad_Type i rad_name bc)
        desc_lst
    else
      neutrinoLoop cfg
        (fun lst j i indx => do
          let rad_name ← sprintf 10 ("rads" ++ toString j ++ "g" ++ toString i)
          setComponent lst StateType.Rad_Type indx rad_name bc)
        desc_lst

/-- Lines 551-607: the descriptor and the components of `Rad_Type`. -/
def nameRadiation (cfg : Config) (s : Castro) (interp : Interpolater) (bc : BCRec FillCode)
    (desc_lst : List StateDescriptor) :
    Except Abort (List StateDescriptor × BCRec FillCode) :=
  if cfg.RADIATION then do
    let ngrow : Int := 1
    let ncomp := cfg.nGroups
    let desc_lst := addDescriptor cfg.BL_SPACEDIM desc_lst StateType.Rad_Type ngrow ncomp
      interp false true
    let bc ← set_scalar_bc cfg.BL_SPACEDIM bc cfg.phys_bc
    checkNeutrino cfg s
    let desc_lst ← nameRadComponents cfg bc desc_lst
    pure (desc_lst, bc)
  else pure (desc_lst, bc)

/-- Lines 609-616: the knapsack weight. Returns the descriptor list and the value of
`Knapsack_Weight_Type`. -/
def nameKnapsack (cfg : Config) (s : Castro) (bc : BCRec FillCode)
    (desc_lst : List StateDescriptor) : Except Abort (List StateDescriptor × Int) := do
  if cfg.use_custom_knapsack_weights then do
    let knapsack : Int := desc_lst.length
    let desc_lst := addDescriptor cfg.BL_SPACEDIM desc_lst StateType.Knapsack_Weight_Type 0 1
      Interpolater.pc_interp false true
    let desc_lst ← setComponent desc_lst StateType.Knapsack_Weight_Type 0 "KnapsackWeight" bc
    pure (desc_lst, knapsack)
  else pure (desc_lst, s.Knapsack_Weight_Type)

/-- A range of `State_Type`. -/
def stateRange (sc nc : Int) : StateRange :=
  ⟨StateType.State_Type, sc, nc⟩

/-- A block with one output component, the box map `the_same_box` and the single range
`(State_Type, Density, NUM_STATE)`. -/
def wholeState (s : Castro) (name : String) : DeriveBlock :=
  ⟨name, 1, DeriveBoxMap.the_same_box, [stateRange s.Density s.NUM_STATE]⟩

/-- A block with one output component, the box map `the_same_box` and the ranges
`(State_Type, Density, 1)` and `(State_Type, Xmom, 3)`. -/
def densityMomentum (s : Castro) (name : String) : DeriveBlock :=
  ⟨name, 1, DeriveBoxMap.the_same_box, [stateRange s.Density 1, stateRange s.Xmom 3]⟩

/-- Lines 625-701: the derived quantities registered before the vorticity. -/
def derivesBeforeVorticity (cfg : Config) (s : Castro) : List DeriveBlock :=
  [wholeState s "pressure", densityMomentum s "kineng", wholeState s "soundspeed",
    wholeState s "MachNumber"]
  ++ (if cfg.BL_SPACEDIM = 1 then [wholeState s "uplusc", wholeState s "uminusc"] else [])
  ++ [wholeState s "entropy"]
  ++ (if cfg.DIFFUSION && cfg.diffuse_temp then
        [wholeState s "thermal_cond", wholeState s "diff_coeff",
          ⟨"diff_term", 1, DeriveBoxMap.grow_box_by_one, [stateRange s.Density s.NUM_STATE]⟩]
      else [])

/-- Lines 746-751: one block per species, `X from rhoX`. -/
def speciesBlocks (cfg : Config) (s : Castro) : List DeriveBlock :=
  (List.range s.NumSpec.toNat).map (fun (i : Nat) =>
    ⟨"X(" ++ (spec_names cfg s).getD i "" ++ ")", 1, DeriveBoxMap.the_same_box,
      [stateRange s.Density 1, stateRange (s.FirstSpec + i) 1]⟩)

/-- Lines 885-889: one block per auxiliary quantity. -/
def auxBlocks (cfg : Config) (s : Castro) : List DeriveBlock :=
  (List.range s.NumAux.toNat).map (fun (i : Nat) =>
    ⟨(aux_names cfg s).getD i "", 1, DeriveBoxMap.the_same_box,
      [stateRange s.Density 1, stateRange (s.FirstAux + i) 1]⟩)

/-- Lines 713-825: the derived quantities registered after the vorticity and before the
neutrino quantities. -/
def derivesAfterVorticity (cfg : Config) (s : Castro) : List DeriveBlock :=
  [⟨"divu", 1, DeriveBoxMap.grow_box_by_one, [stateRange s.Density 1, stateRange s.Xmom 3]⟩,
    wholeState s "eint_E", wholeState s "eint_e", wholeState s "logden",
    ⟨"StateErr", 3, DeriveBoxMap.grow_box_by_one,
      [stateRange s.Density 1, stateRange s.Temp 1, stateRange s.FirstSpec 1]⟩]
  ++ speciesBlocks cfg s
  ++ [⟨"x_velocity", 1, DeriveBoxMap.the_same_box,
        [stateRange s.Density 1, stateRange s.Xmom 1]⟩,
      ⟨"y_velocity", 1, DeriveBoxMap.the_same_box,
        [stateRange s.Density 1, stateRange s.Ymom 1]⟩,
      ⟨"z_velocity", 1, DeriveBoxMap.the_same_box,
        [stateRange s.Density 1, stateRange s.Zmom 1]⟩]
  ++ (if cfg.REACTIONS then
        [⟨"t_sound_t_enuc", 1, DeriveBoxMap.the_same_box,
          [stateRange s.Density s.NUM_STATE, ⟨StateType.Reactions_Type, s.NumSpec, 1⟩]⟩]
      else [])
  ++ [densityMomentum s "magvel", densityMomentum s "radvel",
      ⟨"magmom", 1, DeriveBoxMap.the_same_box, [stateRange s.Xmom 3]⟩,
      densityMomentum s "angular_momentum_x", densityMomentum s "angular_momentum_y",
      densityMomentum s "angular_momentum_z"]
  ++ (if cfg.SELF_GRAVITY then
        [⟨"maggrav", 1, DeriveBoxMap.the_same_box, [⟨StateType.Gravity_Type, 0, 3⟩]⟩]
      else [])
  ++ (if cfg.PARTICLES then
        [⟨"particle_count", 1, DeriveBoxMap.the_same_box, [stateRange s.Density 1]⟩,
          ⟨"total_particle_count", 1, DeriveBoxMap.the_same_box, [stateRange s.Density 1]⟩]
      else [])
  ++ (if cfg.RADIATION && cfg.do_multigroup then
        [⟨"Ertot", 1, DeriveBoxMap.the_same_box, [⟨StateType.Rad_Type, 0, cfg.nGroups⟩]⟩]
      else [])

/-- A block of the neutrino quantities that reads density, `FirstAux` and all radiation
groups. -/
def leptonBlock (cfg : Config) (s : Castro) (name : String) : DeriveBlock :=
  ⟨name, 1, DeriveBoxMap.the_same_box,
    [stateRange s.Density 1, stateRange s.FirstAux 1, ⟨StateType.Rad_Type, 0, cfg.nGroups⟩]⟩

/-- Lines 828-840: one derived quantity per neutrino species and group. -/
def deriveNeutrinoGroups (cfg : Config) (derive_lst : List DeriveRec) :
    Except Abort (List DeriveRec) :=
  if cfg.nNeutrinoSpecies > 0 ∧ cfg.plot_neutrino_group_energies_per_MeV = true then
    neutrinoLoop cfg
      (fun lst (j i : Nat) (indx : Int) => do
        let rad_name ← sprintf 10 ("Neuts" ++ toString j ++ "g" ++ toString i)
        let lst := add lst rad_name 1 DeriveBoxMap.the_same_box
        addComponent lst rad_name StateType.Rad_Type indx 1)
      derive_lst
  else pure derive_lst

/-- The condition `Radiation::nNeutrinoSpecies > 0 && Radiation::nNeutrinoGroups[0] > 0`
of line 842; the second operand is evaluated only when the first is true. -/
def leptonsEnabled (cfg : Config) : Except Abort Bool :=
  if cfg.nNeutrinoSpecies > 0 then do
    let g0 ← subscript cfg.nNeutrinoGroups 0
    pure (decide (g0 > 0))
  else pure false

/-- Lines 842-881: the lepton quantities. -/
def leptonBlocks (cfg : Config) (s : Castro) : List DeriveBlock :=
  [⟨"Enue", 1, DeriveBoxMap.the_same_box, [⟨StateType.Rad_Type, 0, cfg.nGroups⟩]⟩,
    ⟨"Enuae", 1, DeriveBoxMap.the_same_box, [⟨StateType.Rad_Type, 0, cfg.nGroups⟩]⟩,
    leptonBlock cfg s "rho_Yl", leptonBlock cfg s "Yl", leptonBlock cfg s "Ynue",
    leptonBlock cfg s "Ynuae"]

/-- Lines 827-882: the derived quantities of the neutrino solver. -/
def deriveNeutrino (cfg : Config) (s : Castro) (derive_lst : List DeriveRec) :
    Except Abort (List DeriveRec) :=
  if cfg.NEUTRINO then do
    let derive_lst ← deriveNeutrinoGroups cfg derive_lst
    let enabled ← leptonsEnabled cfg
    runBlocks derive_lst (if enabled then leptonBlocks cfg s else [])
  else pure derive_lst

/-- Lines 620-889: `DEFINE DERIVED QUANTITIES`. The include of `Problem_Derives.H`, a file
of the problem set-up, is not part of the embedding. -/
def defineDerived (cfg : Config) (s : Castro) (derive_lst : List DeriveRec) :
    Except Abort (List DeriveRec) := do
  let derive_lst ← runBlocks derive_lst (derivesBeforeVorticity cfg s)
  let derive_lst := add derive_lst "magvort" 1 DeriveBoxMap.grow_box_by_one
  errorIf (s.Xmom ≠ s.Density + 1) "We are assuming Xmom = Density + 1 in Castro_setup.cpp"
  let derive_lst ← addComponent derive_lst "magvort" StateType.State_Type s.Density 4
  let derive_lst ← runBlocks derive_lst (derivesAfterVorticity cfg s)
  let derive_lst ← deriveNeutrino cfg s derive_lst
  runBlocks derive_lst (auxBlocks cfg s)

/-- The static members once the state descriptors are complete: `desc_lst`,
`Knapsack_Weight_Type` and `num_state_type = desc_lst.size()`. -/
def Castro.withDescriptors (s : Castro) (desc_lst : List StateDescriptor) (knapsack : Int) :
    Castro :=
  { s with desc_lst := desc_lst, Knapsack_Weight_Type := knapsack,
           num_state_type := desc_lst.length }

/-- The static members at the end of the function: the derived catalogue and the tableau. -/
def Castro.withDerived (s : Castro) (derive_lst : List DeriveRec) : Castro :=
  { s with derive_lst := derive_lst, mol := setTableau molDefined s.mol }

/-- The function `Castro::variableSetUp`: from the static members before the call to the
static members after it. The output of messages, the calls that hand values to the Fortran
modules, `ErrorSetUp` and the array `source_names` are not part of the embedding. -/
def Castro.variableSetUp (cfg : Config) (s : Castro) : Except Abort Castro := do
  BL_ASSERT cfg.DEBUG (s.desc_lst.length = 0) "desc_lst.size() == 0"
  let s := assignIndices cfg s
  let interp := chooseInterp cfg
  BL_ASSERT cfg.DEBUG (ngrow_state cfg ≥ 0) "ngrow_state >= 0"
  let desc_lst := addDescriptors cfg s interp s.desc_lst
  let bc := BCRec.unset cfg.BL_SPACEDIM
  let st ← nameState cfg s bc
  let desc_lst ← setComponents desc_lst StateType.State_Type s.Density st.name st.bcs
  let (desc_lst, bc) ← nameGravity cfg st.bc desc_lst
  let (desc_lst, bc) ← nameRotation cfg bc desc_lst
  let (desc_lst, state_type_source_names) ← nameSource s st.name st.bcs desc_lst
  let (desc_lst, bc) ← nameReactions cfg s bc desc_lst
  let (desc_lst, bc) ← nameSDC cfg s bc st.name st.bcs state_type_source_names desc_lst
  let (desc_lst, bc) ← nameRadiation cfg s interp bc desc_lst
  let (desc_lst, knapsack) ← nameKnapsack cfg s bc desc_lst
  let s := s.withDescriptors desc_lst knapsack
  let derive_lst ← defineDerived cfg s s.derive_lst
  pure (s.withDerived derive_lst)

/-- The descriptor of a state type in a descriptor list. -/
def descOf (desc_lst : List StateDescriptor) (typ : StateType) : Option StateDescriptor :=
  desc_lst.find? (fun d => d.typ = typ)

/-- The names of all derived quantities, in the order of the list. -/
def derivedNames (derive_lst : List DeriveRec) : List String :=
  derive_lst.map (fun r => r.derive_name)

/-- The static members before the first call of `variableSetUp`: the lists are empty; the
index members hold the value `unassigned`. -/
def Castro.initial (unassigned : Int) : Castro :=
  { Density := unassigned, Xmom := unassigned, Ymom := unassigned, Zmom := unassigned,
    Rmom := unassigned, Lmom := unassigned, Pmom := unassigned, Eden := unassigned,
    Eint := unassigned, Temp := unassigned, NumAdv := 0, FirstAdv := unassigned,
    NumSpec := 0, FirstSpec := unassigned, NumAux := 0, FirstAux := unassigned,
    Shock := unassigned, NUM_STATE := unassigned, NUM_GROW := unassigned,
    QVAR := unassigned, NQAUX := unassigned, Knapsack_Weight_Type := unassigned,
    num_state_type := 0, desc_lst := [], derive_lst := [],
    mol := ⟨0, [], [], []⟩ }

/-- A configuration with no optional capability, no species, no auxiliary and no advected
quantity, in three dimensions with `SlipWall` on all six faces. -/
def plainConfig : Config :=
  { HYBRID_MOMENTUM := false, SHOCK_VAR := false, SELF_GRAVITY := false, ROTATION := false,
    REACTIONS := false, SDC := false, RADIATION := false, NEUTRINO := false,
    DIFFUSION := false, PARTICLES := false, DEBUG := false, NUM_ADV := none,
    BL_SPACEDIM := 3, IOProcessor := true,
    ca_get_num_spec := 0, ca_get_num_aux := 0,
    ca_get_spec_names := fun _ => "", ca_get_aux_names := fun _ => "",
    ca_get_method_params := 4, ca_get_qvar := 8, ca_get_nqaux := 5,
    phys_bc := ⟨[SlipWall, SlipWall, SlipWall], [SlipWall, SlipWall, SlipWall]⟩,
    state_interp_order := 1, lin_limit_state_interp := 0, state_nghost := 0,
    use_custom_knapsack_weights := false, diffuse_temp := false, IsSPHERICAL := false,
    nGroups := 0, nNeutrinoSpecies := 0, nNeutrinoGroups := [], do_multigroup := false,
    plot_neutrino_group_energies_per_MeV := false, Rad := 0 }

/-- Boundary types used by the examples: every one of the six types occurs. -/
def samplePhys : BCRec Int :=
  ⟨[Symmetry, Inflow, Symmetry], [Outflow, SlipWall, NoSlipWall]⟩


/-- A configuration with hybrid momentum and shock variable, two advected quantities, the
species `H` and `He` and the auxiliary quantity `Ye`, in two dimensions. -/
def richConfig : Config :=
  { plainConfig with
    HYBRID_MOMENTUM := true, SHOCK_VAR := true, NUM_ADV := some 2, BL_SPACEDIM := 2,
    ca_get_num_spec := 2, ca_get_num_aux := 1,
    ca_get_spec_names := fun i => if i = 0 then "H" else "He",
    ca_get_aux_names := fun _ => "Ye",
    phys_bc := ⟨[Symmetry, Inflow], [Outflow, NoSlipWall]⟩ }

/-! ## Closed forms used to describe the results of `variableSetUp` -/

/-- The number of components a positive count adds (`if (n > 0) cnt += n`). -/
def added (n : Int) : Int :=
  if n > 0 then n else 0

/-- The components of the hybrid momenta. -/
def hybridCount (cfg : Config) : Int :=
  if cfg.HYBRID_MOMENTUM then 3 else 0

/-- The value `NumAdv` receives. -/
def numAdv (cfg : Config) : Int :=
  match cfg.NUM_ADV with
  | some n => n
  | none => 0

/-- The largest value of the type `int`. -/
def INT_MAX : Int :=
  2147483647

/-- The number of components of `State_Type` that the configuration asks for, as an integer
without bound: seven, the hybrid momenta, the advected, species and auxiliary quantities and
the shock variable. -/
def stateCount (cfg : Config) : Int :=
  7 + hybridCount cfg + added (numAdv cfg) + added cfg.ca_get_num_spec
    + added cfg.ca_get_num_aux + (if cfg.SHOCK_VAR then 1 else 0)

/-- The naming pass after it has stored the entries `names` and `bcs` at the subscripts
`0 .. names.length - 1`, with `k` entries of the arrays still untouched. -/
def Naming.filled (dim : Nat) (names : List String) (bcs : List (BCRec FillCode)) (k : Nat)
    (bc : BCRec FillCode) : Naming :=
  { cnt := (names.length : Int) - 1
    bc := bc
    bcs := bcs ++ List.replicate k (BCRec.unset dim)
    name := names ++ List.replicate k ""
    written := (List.range names.length).map (fun (i : Nat) => (i : Int)) }

/-- The names of the components of `State_Type`, in the order of the naming pass. -/
def stateNameList (cfg : Config) (s : Castro) : List String :=
  ["density", "xmom", "ymom", "zmom"]
  ++ (if cfg.HYBRID_MOMENTUM then ["rmom", "lmom", "pmom"] else [])
  ++ ["rho_E", "rho_e", "Temp"]
  ++ (List.range s.NumAdv.toNat).map (fun i => "adv_" ++ toString i)
  ++ (List.range s.NumSpec.toNat).map (fun i => "rho_" ++ cfg.ca_get_spec_names i)
  ++ (List.range s.NumAux.toNat).map (fun i => "rho_" ++ cfg.ca_get_aux_names i)
  ++ (if cfg.SHOCK_VAR then ["Shock"] else [])

/-- The boundary records of the components of `State_Type`: the three momenta carry the
records of the velocity assemblers, every other component the record of `set_scalar_bc`. -/
def stateBcList (cfg : Config) (s : Castro) : List (BCRec FillCode) :=
  [scalarRec cfg.phys_bc, velRec 0 cfg.phys_bc, velRec 1 cfg.phys_bc, velRec 2 cfg.phys_bc]
  ++ List.replicate ((stateNameList cfg s).length - 4) (scalarRec cfg.phys_bc)

/-- The descriptor of `State_Type` at the end of `variableSetUp`. -/
def stateDescriptor (cfg : Config) (s : Castro) : StateDescriptor :=
  { typ := StateType.State_Type
    ngrow := ngrow_state cfg
    ncomp := s.NUM_STATE
    interp := chooseInterp cfg
    extrap := false
    store_in_checkpoint := true
    names := stateNameList cfg s
    bc := stateBcList cfg s }

/-- The descriptors `addDescriptors` appends, in closed form. -/
def descriptorsAdded (cfg : Config) (s : Castro) (interp : Interpolater) :
    List StateDescriptor :=
  [StateDescriptor.define cfg.BL_SPACEDIM StateType.State_Type (ngrow_state cfg) s.NUM_STATE
    interp false true]
  ++ (if cfg.SELF_GRAVITY then
        [StateDescriptor.define cfg.BL_SPACEDIM StateType.PhiGrav_Type 1 1
          Interpolater.cell_cons_interp false true,
         StateDescriptor.define cfg.BL_SPACEDIM StateType.Gravity_Type s.NUM_GROW 3
          Interpolater.cell_cons_interp false false]
      else [])
  ++ [StateDescriptor.define cfg.BL_SPACEDIM StateType.Source_Type s.NUM_GROW s.NUM_STATE
        Interpolater.cell_cons_interp false true]
  ++ (if cfg.ROTATION then
        [StateDescriptor.define cfg.BL_SPACEDIM StateType.PhiRot_Type 1 1
          Interpolater.cell_cons_interp false false,
         StateDescriptor.define cfg.BL_SPACEDIM StateType.Rotation_Type s.NUM_GROW 3
          Interpolater.cell_cons_interp false false]
      else [])
  ++ (if cfg.REACTIONS then
        [StateDescriptor.define cfg.BL_SPACEDIM StateType.Reactions_Type 0 (s.NumSpec + 2)
          Interpolater.cell_cons_interp false true]
      else [])
  ++ (if cfg.SDC then
        [StateDescriptor.define cfg.BL_SPACEDIM StateType.SDC_Source_Type s.NUM_GROW s.NUM_STATE
          Interpolater.cell_cons_interp false true]
        ++ (if cfg.REACTIONS then
              [StateDescriptor.define cfg.BL_SPACEDIM StateType.SDC_React_Type s.NUM_GROW s.QVAR
                Interpolater.cell_cons_interp false true]
            else [])
      else [])

/-- The descriptor `d` after `setComponent` has stored a name and a record in component
`comp` of the descriptor of type `typ`. -/
def upd (typ : StateType) (comp : Nat) (nm : String) (bc : BCRec FillCode)
    (d : StateDescriptor) : StateDescriptor :=
  if d.typ = typ then { d with names := d.names.set comp nm, bc := d.bc.set comp bc } else d

/-- The descriptor `d` after all components of the descriptor of type `typ` have received
the names `names` and the records `bcs`. -/
def fill (typ : StateType) (names : List String) (bcs : List (BCRec FillCode))
    (d : StateDescriptor) : StateDescriptor :=
  if d.typ = typ then { d with names := names, bc := bcs } else d

/-- The descriptor `d` after the first `n` components of the descriptor of type `typ` have
received the names `f 0 .. f (n-1)` and the record `bc`. -/
def fillFirst (typ : StateType) (n : Nat) (f : Nat → String) (bc : BCRec FillCode)
    (d : StateDescriptor) : StateDescriptor :=
  if d.typ = typ then
    { d with names := (List.range n).map f ++ d.names.drop n,
             bc := List.replicate n bc ++ d.bc.drop n }
  else d

/-- A map on descriptors changes neither the type nor the number of components of the
descriptors of the list `B`. -/
def gentleOn (B : List StateDescriptor) (G : StateDescriptor → StateDescriptor) : Prop :=
  ∀ d ∈ B, (G d).typ = d.typ ∧ (G d).names.length = d.names.length ∧
    (G d).bc.length = d.bc.length

/-- The effect of lines 494-503 on a descriptor. -/
def gravityMap (cfg : Config) : StateDescriptor → StateDescriptor :=
  if cfg.SELF_GRAVITY then
    upd StateType.Gravity_Type 2 "grav_z" (velRec 2 cfg.phys_bc) ∘
    upd StateType.Gravity_Type 1 "grav_y" (velRec 1 cfg.phys_bc) ∘
    upd StateType.Gravity_Type 0 "grav_x" (velRec 0 cfg.phys_bc) ∘
    upd StateType.PhiGrav_Type 0 "phiGrav" (scalarRec cfg.phys_bc)
  else id

/-- The effect of lines 505-514 on a descriptor. -/
def rotationMap (cfg : Config) : StateDescriptor → StateDescriptor :=
  if cfg.ROTATION then
    upd StateType.Rotation_Type 2 "rot_z" (velRec 2 cfg.phys_bc) ∘
    upd StateType.Rotation_Type 1 "rot_y" (velRec 1 cfg.phys_bc) ∘
    upd StateType.Rotation_Type 0 "rot_x" (velRec 0 cfg.phys_bc) ∘
    upd StateType.PhiRot_Type 0 "phiRot" (scalarRec cfg.phys_bc)
  else id

/-- The record `bc` after lines 494-514, which start with the record of `set_scalar_bc`. -/
def bcAfterRotation (cfg : Config) : BCRec FillCode :=
  if cfg.ROTATION || cfg.SELF_GRAVITY then velRec 2 cfg.phys_bc else scalarRec cfg.phys_bc

/-- The effect of lines 516-523 on a descriptor. -/
def sourceMap (cfg : Config) (s : Castro) : StateDescriptor → StateDescriptor :=
  fill StateType.Source_Type ((stateNameList cfg s).map (fun nm => nm ++ "_source"))
    (stateBcList cfg s)

/-- The record `bc` at the two components `enuc` and `rho_enuc`: the record of the last
call of a `set_..._bc` function before line 533. -/
def bcAtEnuc (cfg : Config) (s : Castro) : BCRec FillCode :=
  if s.NumSpec.toNat = 0 then bcAfterRotation cfg else scalarRec cfg.phys_bc

/-- The effect of lines 525-535 on a descriptor. -/
def reactionsMap (cfg : Config) (s : Castro) : StateDescriptor → StateDescriptor :=
  if cfg.REACTIONS then
    upd StateType.Reactions_Type (s.NumSpec.toNat + 1) "rho_enuc" (bcAtEnuc cfg s) ∘
    upd StateType.Reactions_Type s.NumSpec.toNat "enuc" (bcAtEnuc cfg s) ∘
    fillFirst StateType.Reactions_Type s.NumSpec.toNat
      (fun i => "omegadot_" ++ cfg.ca_get_spec_names i) (scalarRec cfg.phys_bc)
  else id

/-- The record `bc` after lines 525-535. -/
def bcAfterReactions (cfg : Config) (s : Castro) : BCRec FillCode :=
  if cfg.REACTIONS then bcAtEnuc cfg s else bcAfterRotation cfg

/-- The effect of lines 537-549 on a descriptor. -/
def sdcMap (cfg : Config) (s : Castro) : StateDescriptor → StateDescriptor :=
  if cfg.SDC then
    (if cfg.REACTIONS then
      fillFirst StateType.SDC_React_Type s.QVAR.toNat
        (fun i => "sdc_react_source_" ++ toString i) (scalarRec cfg.phys_bc)
     else id) ∘
    fill StateType.SDC_Source_Type ((stateNameList cfg s).map (fun nm => "sdc_sources_" ++ nm))
      (stateBcList cfg s)
  else id

/-- The record `bc` after lines 537-549. -/
def bcAfterSDC (cfg : Config) (s : Castro) : BCRec FillCode :=
  if cfg.SDC && cfg.REACTIONS && decide (s.QVAR.toNat ≠ 0) then scalarRec cfg.phys_bc
  else bcAfterReactions cfg s

/-- The catalogue after the ranges `comps` have been appended to the first record that
carries the name `name`. -/
def attach : List DeriveRec → String → List StateRange → List DeriveRec
  | [], _, _ => []
  | r :: rs, name, comps =>
      if r.derive_name = name then { r with rng := r.rng ++ comps } :: rs
      else r :: attach rs name comps

/-- The catalogue after one block, in closed form. -/
def runPure (derive_lst : List DeriveRec) (b : DeriveBlock) : List DeriveRec :=
  attach (add derive_lst b.name b.nvar b.bx_map) b.name b.comps

/-- The block of the vorticity (lines 706-711). -/
def magvortBlock (s : Castro) : DeriveBlock :=
  ⟨"magvort", 1, DeriveBoxMap.grow_box_by_one, [stateRange s.Density 4]⟩

/-- A block as the loop of lines 832-839 registers it. -/
def neutrinoBlock (b : DeriveBlock) : Prop :=
  b.nvar = 1 ∧ b.bx_map = DeriveBoxMap.the_same_box ∧
    ∃ (j i : Nat) (indx : Int),
      b.name = "Neuts" ++ toString j ++ "g" ++ toString i ∧
      b.comps = [⟨StateType.Rad_Type, indx, 1⟩]

/-- The blocks of `defineDerived` in the order of the source, with the blocks `nb` of the
neutrino solver in their place. -/
def allBlocks (cfg : Config) (s : Castro) (nb : List DeriveBlock) : List DeriveBlock :=
  derivesBeforeVorticity cfg s ++ [magvortBlock s] ++ derivesAfterVorticity cfg s ++ nb
    ++ auxBlocks cfg s

/-- The descriptor of the knapsack weight after line 615. -/
def knapsackDescriptor (dim : Nat) (bc : BCRec FillCode) : StateDescriptor :=
  { StateDescriptor.define dim StateType.Knapsack_Weight_Type 0 1 Interpolater.pc_interp
      false true with
    names := ["KnapsackWeight"], bc := [bc] }

/-- What the phases up to line 549 do to a descriptor added at the start. -/
def phasesMap (cfg : Config) (s : Castro) : StateDescriptor → StateDescriptor :=
  sdcMap cfg s ∘ reactionsMap cfg s ∘ sourceMap cfg s ∘ rotationMap cfg ∘ gravityMap cfg ∘
    fill StateType.State_Type (stateNameList cfg s) (stateBcList cfg s)

/-- The descriptor list at the end of a run without radiation, in closed form. -/
def finalDescriptors (cfg : Config) (s : Castro) : List StateDescriptor :=
  (descriptorsAdded cfg s (chooseInterp cfg)).map (phasesMap cfg s)
  ++ (if cfg.use_custom_knapsack_weights then
        [knapsackDescriptor cfg.BL_SPACEDIM (bcAfterSDC cfg s)]
      else [])

/-- The value of `Knapsack_Weight_Type` at the end of a run without radiation. -/
def finalKnapsack (cfg : Config) (s : Castro) : Int :=
  if cfg.use_custom_knapsack_weights then
    ((descriptorsAdded cfg s (chooseInterp cfg)).length : Int)
  else s.Knapsack_Weight_Type

/-- The static members at the end of a run without radiation, in closed form. -/
def finalState (cfg : Config) (s : Castro) : Castro :=
  ((assignIndices cfg s).withDescriptors (finalDescriptors cfg (assignIndices cfg s))
      (finalKnapsack cfg (assignIndices cfg s))).withDerived
    ((allBlocks cfg (assignIndices cfg s) []).foldl runPure s.derive_lst)

/-- The preconditions of a run: one to three dimensions, a boundary type `0..5` on every
face, no descriptor defined before the call, and a number of components of `State_Type`
that the counter `cnt`, an `int`, can hold. -/
def Config.ready (cfg : Config) (s : Castro) : Prop :=
  (1 ≤ cfg.BL_SPACEDIM ∧ cfg.BL_SPACEDIM ≤ 3) ∧ validPhys cfg.BL_SPACEDIM cfg.phys_bc ∧
    s.desc_lst = [] ∧ stateCount cfg ≤ INT_MAX

/-! ## Order conditions of a Butcher tableau -/

/-- The sum `Σ_i x_i y_i` of two coefficient vectors. -/
def dot (x y : List ℚ) : ℚ :=
  (List.zipWith (fun u v => u * v) x y).sum

/-- The row sums `Σ_j a_ij` of the coupling matrix. -/
def rowSums (t : MolTableau) : List ℚ :=
  t.a_mol.map List.sum

/-- First-order condition `Σ_i b_i = 1`. -/
def orderOne (t : MolTableau) : Prop :=
  t.b_mol.sum = 1

/-- Second-order condition `Σ_i b_i c_i = 1/2`. -/
def orderTwo (t : MolTableau) : Prop :=
  dot t.b_mol t.c_mol = 1 / 2

/-- Third-order conditions `Σ_i b_i c_i² = 1/3` and `Σ_{i,j} b_i a_ij c_j = 1/6`. -/
def orderThree (t : MolTableau) : Prop :=
  dot t.b_mol (t.c_mol.map (fun c => c * c)) = 1 / 3 ∧
    dot t.b_mol (t.a_mol.map (fun row => dot row t.c_mol)) = 1 / 6

/-- The order the name of a tableau block states. -/
def statedOrder : TableauKind → Nat
  | TableauKind.THIRDORDER => 3
  | TableauKind.THIRDORDER_TVD => 3
  | TableauKind.SECONDORDER => 2
  | TableauKind.SECONDORDER_TVD => 2
  | TableauKind.FIRSTORDER => 1

/-! ## The assemblers as sequences of table look-ups -/

/-- A sequence of statement pairs `bc.setLo(i, table[lo_bc[i]]); bc.setHi(i, table[hi_bc[i]]);`,
each given by its table and its axis. -/
def runFaces (steps : List (List FillCode × Nat)) (bc : BCRec FillCode) (phys_bc : BCRec Int) :
    Except Abort (BCRec FillCode) :=
  steps.foldlM (fun bc st => setFaces st.1 st.2 bc phys_bc) bc

/-- The statement pairs of `set_scalar_bc`. -/
def scalarSteps (dim : Nat) : List (List FillCode × Nat) :=
  (List.range dim).map (fun i => (scalar_bc, i))

/-- The statement pairs of the velocity assembler with principal axis `P`. -/
def velSteps (P dim : Nat) : List (List FillCode × Nat) :=
  (List.range dim).map (fun i => (velTable P i, i))

/-- The velocity assembler with principal axis `P`: `set_x_vel_bc` for `0`, `set_y_vel_bc`
for `1`, `set_z_vel_bc` otherwise. -/
def set_vel_bc (P : Nat) (dim : Nat) (bc : BCRec FillCode) (phys_bc : BCRec Int) :
    Except Abort (BCRec FillCode) :=
  match P with
  | 0 => set_x_vel_bc dim bc phys_bc
  | 1 => set_y_vel_bc dim bc phys_bc
  | _ => set_z_vel_bc dim bc phys_bc

/-- Both faces of axis `i` carry one of the six boundary types. -/
def facesInTable (phys_bc : BCRec Int) (i : Nat) : Prop :=
  ∀ l h, phys_bc.lo[i]? = some l → phys_bc.hi[i]? = some h →
    (0 ≤ l ∧ l ≤ 5) ∧ (0 ≤ h ∧ h ≤ 5)

/-- A boundary type without reflection: `Interior`, `Inflow` or `Outflow`. -/
def nonReflecting (v : Int) : Prop :=
  v = Interior ∨ v = Inflow ∨ v = Outflow

/-- A boundary type with reflection: `Symmetry`, `SlipWall` or `NoSlipWall`. -/
def reflecting (v : Int) : Prop :=
  v = Symmetry ∨ v = SlipWall ∨ v = NoSlipWall

/-! ## Further configurations used by the examples -/

/-- The configuration `plainConfig` with the run-time parameter `state_nghost = -1`, in a
build without assertions. -/
def negativeGhostConfig : Config :=
  { plainConfig with state_nghost := -1 }

/-! ## The names of the derived catalogue -/

/-- The name of a block. -/
def blockName (b : DeriveBlock) : String :=
  b.name

/-- The record a block leaves in the catalogue when no other call touches its name. -/
def recordOf (b : DeriveBlock) : DeriveRec :=
  ⟨b.name, b.nvar, b.bx_map, b.comps⟩

/-- The names of the blocks of lines 625-701 in the order of the source. -/
def namesBefore (cfg : Config) : List String :=
  ["pressure", "kineng", "soundspeed", "MachNumber"]
  ++ (if cfg.BL_SPACEDIM = 1 then ["uplusc", "uminusc"] else [])
  ++ ["entropy"]
  ++ (if cfg.DIFFUSION && cfg.diffuse_temp then ["thermal_cond", "diff_coeff", "diff_term"]
      else [])

/-- The names of the species blocks, `X(` species name `)`. -/
def speciesDerived (cfg : Config) (s : Castro) : List String :=
  (List.range s.NumSpec.toNat).map (fun i => "X(" ++ cfg.ca_get_spec_names i ++ ")")

/-- The names of the blocks of the auxiliary quantities: the auxiliary names themselves. -/
def auxDerived (cfg : Config) (s : Castro) : List String :=
  (List.range s.NumAux.toNat).map cfg.ca_get_aux_names

/-- The names of the blocks of lines 753-825 in the order of the source. -/
def namesAfter (cfg : Config) : List String :=
  ["x_velocity", "y_velocity", "z_velocity"]
  ++ (if cfg.REACTIONS then ["t_sound_t_enuc"] else [])
  ++ ["magvel", "radvel", "magmom", "angular_momentum_x", "angular_momentum_y",
      "angular_momentum_z"]
  ++ (if cfg.SELF_GRAVITY then ["maggrav"] else [])
  ++ (if cfg.PARTICLES then ["particle_count", "total_particle_count"] else [])
  ++ (if cfg.RADIATION && cfg.do_multigroup then ["Ertot"] else [])

/-- Every name the source writes out for a derived quantity, apart from the names built from
species, auxiliary quantities and neutrino groups. -/
def fixedDerived : List String :=
  ["pressure", "kineng", "soundspeed", "MachNumber", "uplusc", "uminusc", "entropy",
    "thermal_cond", "diff_coeff", "diff_term", "magvort", "divu", "eint_E", "eint_e", "logden",
    "StateErr", "x_velocity", "y_velocity", "z_velocity", "t_sound_t_enuc", "magvel", "radvel",
    "magmom", "angular_momentum_x", "angular_momentum_y", "angular_momentum_z", "maggrav",
    "particle_count", "total_particle_count", "Ertot", "Enue", "Enuae", "rho_Yl", "Yl", "Ynue",
    "Ynuae"]

/-- The configuration `plainConfig` with thermal diffusion. -/
def diffusionConfig : Config :=
  { plainConfig with DIFFUSION := true, diffuse_temp := true }

/-- Every component of the descriptor `d` either carries the boundary record `S` or has
never been given a name and a record (`setComponent` was not called for it). -/
def registeredWith (S : BCRec FillCode) (dim : Nat) (d : StateDescriptor) : Prop :=
  ∀ (i : Nat) (nm : String) (b : BCRec FillCode),
    d.names[i]? = some nm → d.bc[i]? = some b → b = S ∨ (nm = "" ∧ b = BCRec.unset dim)

/-- The record `bc` holds when `KnapsackWeight` is registered (line 615): the record of the
last assembler called before. -/
def bcAtKnapsack (cfg : Config) (s : Castro) : BCRec FillCode :=
  if cfg.RADIATION then scalarRec cfg.phys_bc else bcAfterSDC cfg s

/-- The configuration `plainConfig` with self-gravity and the knapsack weight. -/
def gravityKnapsackConfig : Config :=
  { plainConfig with SELF_GRAVITY := true, use_custom_knapsack_weights := true }

/-- The assembler `f` makes no check on the domain `phys_bc`: it returns a record when every
face carries a value `0..5`, it subscripts a table outside its bounds otherwise, and it
neither calls `amrex::Error` nor fails an assertion. -/
def makesNoCheck (f : Nat → BCRec FillCode → BCRec Int → Except Abort (BCRec FillCode))
    (dim : Nat) (bc : BCRec FillCode) (phys_bc : BCRec Int) : Prop :=
  (validPhys dim phys_bc → ∃ r, f dim bc phys_bc = Except.ok r) ∧
  (¬ validPhys dim phys_bc → f dim bc phys_bc = Except.error Abort.OutOfRange) ∧
  (∀ msg, f dim bc phys_bc ≠ Except.error (Abort.Error msg) ∧
    f dim bc phys_bc ≠ Except.error (Abort.Assertion msg))

/-- The records that a run of `variableSetUp` appends to the derived catalogue:
`DeriveList::add` appends, so they are the records behind those that the catalogue held
before the run. -/
def registeredIn (s s' : Castro) : List DeriveRec :=
  s'.derive_lst.drop s.derive_lst.length

/-- Whether a record of the catalogue carries the box map `grow_box_by_one`. -/
def usesGrow (r : DeriveRec) : Bool :=
  decide (r.bx_map = DeriveBoxMap.grow_box_by_one)

/-- Whether a block registers its quantity with the box map `grow_box_by_one`. -/
def growBlock (b : DeriveBlock) : Bool :=
  decide (b.bx_map = DeriveBoxMap.grow_box_by_one)

/-- The name and the box map of a record. -/
def ruleOf (r : DeriveRec) : String × DeriveBoxMap :=
  (r.derive_name, r.bx_map)

/-- The name and the box map that a block hands to `DeriveList::add`. -/
def blockRule (b : DeriveBlock) : String × DeriveBoxMap :=
  (b.name, b.bx_map)

/-- The names that the source registers with `grow_box_by_one`, in the order of the source:
`diff_term` (line 696, under `DIFFUSION` and `diffuse_temp`), `magvort` (line 706), `divu`
(line 716) and `StateErr` (line 738). -/
def growNames (cfg : Config) : List String :=
  (if cfg.DIFFUSION && cfg.diffuse_temp then ["diff_term"] else [])
  ++ ["magvort", "divu", "StateErr"]

/-- The configuration `diffusionConfig` with one auxiliary quantity that the network names
`divu`. -/
def auxDivuConfig : Config :=
  { diffusionConfig with ca_get_num_aux := 1, ca_get_aux_names := fun _ => "divu" }

/-- The configuration `plainConfig` with `2147483647` species, the largest count an `int`
holds. -/
def overflowConfig : Config :=
  { plainConfig with ca_get_num_spec := 2147483647 }

/-- The text that `sprintf(rad_name, "rads%dg%d", j, i)` prints. -/
def radsName (j i : Nat) : String :=
  "rads" ++ toString j ++ "g" ++ toString i

/-- The naming pass has stored `w` entries in arrays of `n` elements: the counter stands at
the subscript of the last entry. -/
def Naming.wrote (n w : Nat) (st : Naming) : Prop :=
  st.name.length = n ∧ st.cnt + 1 = (w : Int) ∧ w ≤ n
/-! ## Lemmas on the tables and the assemblers -/

theorem subscript_of_get? {α : Type} {t : List α} {i : Nat} {v : α} (h : t[i]? = some v) :
    subscript t (i : Int) = Except.ok v := by
  simp [subscript, h]

theorem subscript_table {t : List FillCode} (ht : t.length = 6) {v : Int}
    (hv : 0 ≤ v ∧ v ≤ 5) : subscript t v = Except.ok (lookup t v) := by
  obtain ⟨h0, h5⟩ := hv
  have hlt : v.toNat < t.length := by omega
  have hn : ¬ v < 0 := by omega
  simp [subscript, lookup, hn, List.getD, List.getElem?_eq_getElem hlt]

theorem setFaces_eq {table : List FillCode} (ht : table.length = 6) {i : Nat}
    {bc : BCRec FillCode} {phys_bc : BCRec Int} {l h : Int}
    (hl : phys_bc.lo[i]? = some l) (hh : phys_bc.hi[i]? = some h)
    (hlv : 0 ≤ l ∧ l ≤ 5) (hhv : 0 ≤ h ∧ h ≤ 5) :
    setFaces table i bc phys_bc
      = Except.ok ((bc.setLo i (lookup table l)).setHi i (lookup table h)) := by
  simp [setFaces, subscript_of_get? hl, subscript_of_get? hh, subscript_table ht hlv,
    subscript_table ht hhv, bind, Except.bind, pure, Except.pure]

/-- The shape of a sized record and of valid boundary types in one dimension. -/
theorem shape1 {bc : BCRec FillCode} (hbc : bc.sized 1) {phys_bc : BCRec Int}
    (hp : validPhys 1 phys_bc) :
    ∃ a d x u, phys_bc = ⟨[a], [d]⟩ ∧ bc = ⟨[x], [u]⟩ ∧
      (0 ≤ a ∧ a ≤ 5) ∧ (0 ≤ d ∧ d ≤ 5) := by
  obtain ⟨blo, bhi⟩ := bc
  obtain ⟨plo, phi⟩ := phys_bc
  obtain ⟨⟨hpl, hph⟩, hlo, hhi⟩ := hp
  obtain ⟨hbl, hbh⟩ := hbc
  simp only at hpl hph hbl hbh hlo hhi
  obtain ⟨a, rfl⟩ := List.length_eq_one.mp hpl
  obtain ⟨d, rfl⟩ := List.length_eq_one.mp hph
  obtain ⟨x, rfl⟩ := List.length_eq_one.mp hbl
  obtain ⟨u, rfl⟩ := List.length_eq_one.mp hbh
  exact ⟨a, d, x, u, rfl, rfl, hlo a (by simp), hhi d (by simp)⟩

/-- The shape of a sized record and of valid boundary types in two dimensions. -/
theorem shape2 {bc : BCRec FillCode} (hbc : bc.sized 2) {phys_bc : BCRec Int}
    (hp : validPhys 2 phys_bc) :
    ∃ a b d e x y u v, phys_bc = ⟨[a, b], [d, e]⟩ ∧ bc = ⟨[x, y], [u, v]⟩ ∧
      (0 ≤ a ∧ a ≤ 5) ∧ (0 ≤ b ∧ b ≤ 5) ∧ (0 ≤ d ∧ d ≤ 5) ∧ (0 ≤ e ∧ e ≤ 5) := by
  obtain ⟨blo, bhi⟩ := bc
  obtain ⟨plo, phi⟩ := phys_bc
  obtain ⟨⟨hpl, hph⟩, hlo, hhi⟩ := hp
  obtain ⟨hbl, hbh⟩ := hbc
  simp only at hpl hph hbl hbh hlo hhi
  obtain ⟨a, b, rfl⟩ := List.length_eq_two.mp hpl
  obtain ⟨d, e, rfl⟩ := List.length_eq_two.mp hph
  obtain ⟨x, y, rfl⟩ := List.length_eq_two.mp hbl
  obtain ⟨u, v, rfl⟩ := List.length_eq_two.mp hbh
  exact ⟨a, b, d, e, x, y, u, v, rfl, rfl, hlo a (by simp), hlo b (by simp),
    hhi d (by simp), hhi e (by simp)⟩

/-- The shape of a sized record and of valid boundary types in three dimensions. -/
theorem shape3 {bc : BCRec FillCode} (hbc : bc.sized 3) {phys_bc : BCRec Int}
    (hp : validPhys 3 phys_bc) :
    ∃ a b c d e f x y z u v w, phys_bc = ⟨[a, b, c], [d, e, f]⟩ ∧ bc = ⟨[x, y, z], [u, v, w]⟩ ∧
      (0 ≤ a ∧ a ≤ 5) ∧ (0 ≤ b ∧ b ≤ 5) ∧ (0 ≤ c ∧ c ≤ 5) ∧
      (0 ≤ d ∧ d ≤ 5) ∧ (0 ≤ e ∧ e ≤ 5) ∧ (0 ≤ f ∧ f ≤ 5) := by
  obtain ⟨blo, bhi⟩ := bc
  obtain ⟨plo, phi⟩ := phys_bc
  obtain ⟨⟨hpl, hph⟩, hlo, hhi⟩ := hp
  obtain ⟨hbl, hbh⟩ := hbc
  simp only at hpl hph hbl hbh hlo hhi
  obtain ⟨a, b, c, rfl⟩ := List.length_eq_three.mp hpl
  obtain ⟨d, e, f, rfl⟩ := List.length_eq_three.mp hph
  obtain ⟨x, y, z, rfl⟩ := List.length_eq_three.mp hbl
  obtain ⟨u, v, w, rfl⟩ := List.length_eq_three.mp hbh
  exact ⟨a, b, c, d, e, f, x, y, z, u, v, w, rfl, rfl, hlo a (by simp), hlo b (by simp),
    hlo c (by simp), hhi d (by simp), hhi e (by simp), hhi f (by simp)⟩

theorem table_lengths :
    scalar_bc.length = 6 ∧ norm_vel_bc.length = 6 ∧ tang_vel_bc.length = 6 :=
  ⟨rfl, rfl, rfl⟩

theorem set_scalar_bc_eq {dim : Nat} (hdim : 1 ≤ dim ∧ dim ≤ 3) {bc : BCRec FillCode}
    (hbc : bc.sized dim) {phys_bc : BCRec Int} (hp : validPhys dim phys_bc) :
    set_scalar_bc dim bc phys_bc = Except.ok (scalarRec phys_bc) := by
  obtain ⟨h1, h3⟩ := hdim
  interval_cases dim
  · obtain ⟨a, d, x, u, hP, rfl, ha, hd⟩ := shape1 hbc hp
    have r1 : List.range 1 = [0] := rfl
    simp only [set_scalar_bc, r1, List.foldlM]
    rw [@setFaces_eq scalar_bc rfl 0 _ phys_bc a d
      (by rw [hP]; rfl) (by rw [hP]; rfl) ha hd]
    rw [hP]; rfl
  · obtain ⟨a, b, d, e, x, y, u, v, hP, rfl, ha, hb, hd, he⟩ := shape2 hbc hp
    have r2 : List.range 2 = [0, 1] := rfl
    simp only [set_scalar_bc, r2, List.foldlM]
    rw [@setFaces_eq scalar_bc rfl 0 _ phys_bc a d
      (by rw [hP]; rfl) (by rw [hP]; rfl) ha hd]
    simp only [bind, Except.bind]
    rw [@setFaces_eq scalar_bc rfl 1 _ phys_bc b e
      (by rw [hP]; rfl) (by rw [hP]; rfl) hb he]
    rw [hP]; rfl
  · obtain ⟨a, b, c, d, e, f, x, y, z, u, v, w, hP, rfl, ha, hb, hc, hd, he, hf⟩ :=
      shape3 hbc hp
    have r3 : List.range 3 = [0, 1, 2] := rfl
    simp only [set_scalar_bc, r3, List.foldlM]
    rw [@setFaces_eq scalar_bc rfl 0 _ phys_bc a d
      (by rw [hP]; rfl) (by rw [hP]; rfl) ha hd]
    simp only [bind, Except.bind]
    rw [@setFaces_eq scalar_bc rfl 1 _ phys_bc b e
      (by rw [hP]; rfl) (by rw [hP]; rfl) hb he]
    simp only [bind, Except.bind]
    rw [@setFaces_eq scalar_bc rfl 2 _ phys_bc c f
      (by rw [hP]; rfl) (by rw [hP]; rfl) hc hf]
    rw [hP]; rfl

theorem set_x_vel_bc_eq {dim : Nat} (hdim : 1 ≤ dim ∧ dim ≤ 3) {bc : BCRec FillCode}
    (hbc : bc.sized dim) {phys_bc : BCRec Int} (hp : validPhys dim phys_bc) :
    set_x_vel_bc dim bc phys_bc = Except.ok (velRec 0 phys_bc) := by
  obtain ⟨h1, h3⟩ := hdim
  interval_cases dim
  · obtain ⟨a, d, x, u, hP, rfl, ha, hd⟩ := shape1 hbc hp
    simp only [set_x_vel_bc]
    rw [@setFaces_eq norm_vel_bc rfl 0 _ phys_bc a d
      (by rw [hP]; rfl) (by rw [hP]; rfl) ha hd]
    rw [hP]; rfl
  · obtain ⟨a, b, d, e, x, y, u, v, hP, rfl, ha, hb, hd, he⟩ := shape2 hbc hp
    simp only [set_x_vel_bc]
    rw [@setFaces_eq norm_vel_bc rfl 0 _ phys_bc a d
      (by rw [hP]; rfl) (by rw [hP]; rfl) ha hd]
    simp only [bind, Except.bind, le_refl, if_true]
    rw [@setFaces_eq tang_vel_bc rfl 1 _ phys_bc b e
      (by rw [hP]; rfl) (by rw [hP]; rfl) hb he]
    rw [hP]; rfl
  · obtain ⟨a, b, c, d, e, f, x, y, z, u, v, w, hP, rfl, ha, hb, hc, hd, he, hf⟩ :=
      shape3 hbc hp
    simp only [set_x_vel_bc]
    rw [@setFaces_eq norm_vel_bc rfl 0 _ phys_bc a d
      (by rw [hP]; rfl) (by rw [hP]; rfl) ha hd]
    simp only [bind, Except.bind, Nat.reduceLeDiff, if_true]
    rw [@setFaces_eq tang_vel_bc rfl 1 _ phys_bc b e
      (by rw [hP]; rfl) (by rw [hP]; rfl) hb he]
    simp only [bind, Except.bind, if_true]
    rw [@setFaces_eq tang_vel_bc rfl 2 _ phys_bc c f
      (by rw [hP]; rfl) (by rw [hP]; rfl) hc hf]
    rw [hP]; rfl

theorem set_y_vel_bc_eq {dim : Nat} (hdim : 1 ≤ dim ∧ dim ≤ 3) {bc : BCRec FillCode}
    (hbc : bc.sized dim) {phys_bc : BCRec Int} (hp : validPhys dim phys_bc) :
    set_y_vel_bc dim bc phys_bc = Except.ok (velRec 1 phys_bc) := by
  obtain ⟨h1, h3⟩ := hdim
  interval_cases dim
  · obtain ⟨a, d, x, u, hP, rfl, ha, hd⟩ := shape1 hbc hp
    simp only [set_y_vel_bc]
    rw [@setFaces_eq tang_vel_bc rfl 0 _ phys_bc a d
      (by rw [hP]; rfl) (by rw [hP]; rfl) ha hd]
    rw [hP]; rfl
  · obtain ⟨a, b, d, e, x, y, u, v, hP, rfl, ha, hb, hd, he⟩ := shape2 hbc hp
    simp only [set_y_vel_bc]
    rw [@setFaces_eq tang_vel_bc rfl 0 _ phys_bc a d
      (by rw [hP]; rfl) (by rw [hP]; rfl) ha hd]
    simp only [bind, Except.bind, le_refl, if_true]
    rw [@setFaces_eq norm_vel_bc rfl 1 _ phys_bc b e
      (by rw [hP]; rfl) (by rw [hP]; rfl) hb he]
    rw [hP]; rfl
  · obtain ⟨a, b, c, d, e, f, x, y, z, u, v, w, hP, rfl, ha, hb, hc, hd, he, hf⟩ :=
      shape3 hbc hp
    simp only [set_y_vel_bc]
    rw [@setFaces_eq tang_vel_bc rfl 0 _ phys_bc a d
      (by rw [hP]; rfl) (by rw [hP]; rfl) ha hd]
    simp only [bind, Except.bind, Nat.reduceLeDiff, if_true]
    rw [@setFaces_eq norm_vel_bc rfl 1 _ phys_bc b e
      (by rw [hP]; rfl) (by rw [hP]; rfl) hb he]
    simp only [bind, Except.bind, if_true]
    rw [@setFaces_eq tang_vel_bc rfl 2 _ phys_bc c f
      (by rw [hP]; rfl) (by rw [hP]; rfl) hc hf]
    rw [hP]; rfl

theorem set_z_vel_bc_eq {dim : Nat} (hdim : 1 ≤ dim ∧ dim ≤ 3) {bc : BCRec FillCode}
    (hbc : bc.sized dim) {phys_bc : BCRec Int} (hp : validPhys dim phys_bc) :
    set_z_vel_bc dim bc phys_bc = Except.ok (velRec 2 phys_bc) := by
  obtain ⟨h1, h3⟩ := hdim
  interval_cases dim
  · obtain ⟨a, d, x, u, hP, rfl, ha, hd⟩ := shape1 hbc hp
    simp only [set_z_vel_bc]
    rw [@setFaces_eq tang_vel_bc rfl 0 _ phys_bc a d
      (by rw [hP]; rfl) (by rw [hP]; rfl) ha hd]
    rw [hP]; rfl
  · obtain ⟨a, b, d, e, x, y, u, v, hP, rfl, ha, hb, hd, he⟩ := shape2 hbc hp
    simp only [set_z_vel_bc]
    rw [@setFaces_eq tang_vel_bc rfl 0 _ phys_bc a d
      (by rw [hP]; rfl) (by rw [hP]; rfl) ha hd]
    simp only [bind, Except.bind, le_refl, if_true]
    rw [@setFaces_eq tang_vel_bc rfl 1 _ phys_bc b e
      (by rw [hP]; rfl) (by rw [hP]; rfl) hb he]
    rw [hP]; rfl
  · obtain ⟨a, b, c, d, e, f, x, y, z, u, v, w, hP, rfl, ha, hb, hc, hd, he, hf⟩ :=
      shape3 hbc hp
    simp only [set_z_vel_bc]
    rw [@setFaces_eq tang_vel_bc rfl 0 _ phys_bc a d
      (by rw [hP]; rfl) (by rw [hP]; rfl) ha hd]
    simp only [bind, Except.bind, Nat.reduceLeDiff, if_true]
    rw [@setFaces_eq tang_vel_bc rfl 1 _ phys_bc b e
      (by rw [hP]; rfl) (by rw [hP]; rfl) hb he]
    simp only [bind, Except.bind, if_true]
    rw [@setFaces_eq norm_vel_bc rfl 2 _ phys_bc c f
      (by rw [hP]; rfl) (by rw [hP]; rfl) hc hf]
    rw [hP]; rfl


theorem lookup_of_valid {table : List FillCode} (ht : table.length = 6) {phys : List Int}
    (hv : ∀ v ∈ phys, 0 ≤ v ∧ v ≤ 5) {i : Nat} (hi : i < phys.length) :
    ∃ l, phys[i]? = some l ∧ subscript table l = Except.ok (lookup table l) := by
  refine ⟨phys[i], List.getElem?_eq_getElem hi, ?_⟩
  exact subscript_table ht (hv _ (List.getElem_mem _))

theorem rowOn_scalarRec {dim : Nat} {phys_bc : BCRec Int} (hp : validPhys dim phys_bc)
    {i : Nat} (hi : i < dim) : rowOn scalar_bc (scalarRec phys_bc) phys_bc i := by
  obtain ⟨⟨hl, hh⟩, hlo, hhi⟩ := hp
  obtain ⟨l, hl1, hl2⟩ := @lookup_of_valid scalar_bc rfl _ hlo i (by omega)
  obtain ⟨h, hh1, hh2⟩ := @lookup_of_valid scalar_bc rfl _ hhi i (by omega)
  refine ⟨l, h, _, _, hl1, hh1, hl2, hh2, ?_, ?_⟩
  · simp [scalarRec, hl1]
  · simp [scalarRec, hh1]

theorem velTable_length (P i : Nat) : (velTable P i).length = 6 := by
  unfold velTable; split <;> rfl

theorem rowOn_velRec (P : Nat) {dim : Nat} {phys_bc : BCRec Int} (hp : validPhys dim phys_bc)
    {i : Nat} (hi : i < dim) : rowOn (velTable P i) (velRec P phys_bc) phys_bc i := by
  obtain ⟨⟨hl, hh⟩, hlo, hhi⟩ := hp
  obtain ⟨l, hl1, hl2⟩ :=
    @lookup_of_valid (velTable P i) (velTable_length P i) _ hlo i (by omega)
  obtain ⟨h, hh1, hh2⟩ :=
    @lookup_of_valid (velTable P i) (velTable_length P i) _ hhi i (by omega)
  refine ⟨l, h, _, _, hl1, hh1, hl2, hh2, ?_, ?_⟩
  · simp [velRec, List.getElem?_enum, hl1]
  · simp [velRec, List.getElem?_enum, hh1]

/-! ## Lemmas on results -/

theorem bind_ok_iff {ε α β : Type} (x : Except ε α) (f : α → Except ε β) (b : β) :
    x >>= f = Except.ok b ↔ ∃ a, x = Except.ok a ∧ f a = Except.ok b := by
  cases x with
  | error e => simp [bind, Except.bind]
  | ok a => simp [bind, Except.bind]

theorem ok_bind {ε α β : Type} (a : α) (f : α → Except ε β) :
    (Except.ok a : Except ε α) >>= f = f a := rfl

/-- The parts of a completed run of `variableSetUp`. -/
theorem variableSetUp_inv {cfg : Config} {s s' : Castro}
    (h : Castro.variableSetUp cfg s = Except.ok s') :
    ∃ st d0 dg bcg d1 bc1 d2 src d3 bc3 d4 bc4 d5 bc5 d6 k dl,
      nameState cfg (assignIndices cfg s) (BCRec.unset cfg.BL_SPACEDIM) = Except.ok st ∧
      setComponents
        (addDescriptors cfg (assignIndices cfg s) (chooseInterp cfg) (assignIndices cfg s).desc_lst)
        StateType.State_Type (assignIndices cfg s).Density st.name st.bcs = Except.ok d0 ∧
      nameGravity cfg st.bc d0 = Except.ok (dg, bcg) ∧
      nameRotation cfg bcg dg = Except.ok (d1, bc1) ∧
      nameSource (assignIndices cfg s) st.name st.bcs d1 = Except.ok (d2, src) ∧
      nameReactions cfg (assignIndices cfg s) bc1 d2 = Except.ok (d3, bc3) ∧
      nameSDC cfg (assignIndices cfg s) bc3 st.name st.bcs src d3 = Except.ok (d4, bc4) ∧
      nameRadiation cfg (assignIndices cfg s) (chooseInterp cfg) bc4 d4 = Except.ok (d5, bc5) ∧
      nameKnapsack cfg (assignIndices cfg s) bc5 d5 = Except.ok (d6, k) ∧
      defineDerived cfg ((assignIndices cfg s).withDescriptors d6 k)
        (assignIndices cfg s).derive_lst = Except.ok dl ∧
      s' = ((assignIndices cfg s).withDescriptors d6 k).withDerived dl := by
  unfold Castro.variableSetUp at h
  simp only [bind_ok_iff] at h
  obtain ⟨_, -, _, -, st, hst, d0, hd0, ⟨dg, bcg⟩, hg, ⟨d1, bc1⟩, h1, ⟨d2, src⟩, h2, ⟨d3, bc3⟩, h3,
    ⟨d4, bc4⟩, h4, ⟨d5, bc5⟩, h5, ⟨d6, k⟩, h6, dl, h7, h8⟩ := h
  refine ⟨st, d0, dg, bcg, d1, bc1, d2, src, d3, bc3, d4, bc4, d5, bc5, d6, k, dl,
    hst, hd0, hg, h1, h2, h3, h4, h5, h6, h7, ?_⟩
  cases h8
  rfl

/-! ## The index assignment -/

theorem assignIndices_fixed (cfg : Config) (s : Castro) :
    (assignIndices cfg s).Density = 0 ∧ (assignIndices cfg s).Xmom = 1 ∧
    (assignIndices cfg s).Ymom = 2 ∧ (assignIndices cfg s).Zmom = 3 ∧
    (assignIndices cfg s).Eden = 4 + hybridCount cfg ∧
    (assignIndices cfg s).Eint = 5 + hybridCount cfg ∧
    (assignIndices cfg s).Temp = 6 + hybridCount cfg ∧
    (assignIndices cfg s).NumAdv = numAdv cfg ∧
    (assignIndices cfg s).NumSpec = cfg.ca_get_num_spec ∧
    (assignIndices cfg s).NumAux = cfg.ca_get_num_aux ∧
    (assignIndices cfg s).desc_lst = s.desc_lst ∧
    (assignIndices cfg s).derive_lst = s.derive_lst ∧
    (assignIndices cfg s).mol = s.mol ∧
    (assignIndices cfg s).QVAR = cfg.ca_get_qvar ∧
    (assignIndices cfg s).NUM_GROW = cfg.ca_get_method_params := by
  unfold assignIndices hybridCount numAdv
  cases cfg.HYBRID_MOMENTUM <;> cases cfg.SHOCK_VAR <;> simp <;> split_ifs <;> simp

theorem wrapInt_of_fits {x : Int} (h0 : 0 ≤ x) (h1 : x ≤ INT_MAX) : wrapInt x = x := by
  unfold INT_MAX at h1
  unfold wrapInt
  omega

theorem wrapInt_add (a b : Int) : wrapInt (wrapInt a + b) = wrapInt (a + b) := by
  unfold wrapInt
  omega

theorem wrapInt_le (x : Int) : wrapInt x ≤ INT_MAX := by
  unfold wrapInt INT_MAX
  omega

theorem stateCount_fixed (cfg : Config) :
    0 ≤ hybridCount cfg ∧ 0 ≤ added (numAdv cfg) ∧ 0 ≤ added cfg.ca_get_num_spec ∧
      0 ≤ added cfg.ca_get_num_aux := by
  unfold hybridCount added
  refine ⟨?_, ?_, ?_, ?_⟩ <;> split <;> omega

/-- The counter of the first pass holds the number of components up to a multiple of
`2^32`. -/
theorem assignIndices_wraps (cfg : Config) (s : Castro) :
    (assignIndices cfg s).NUM_STATE = wrapInt (stateCount cfg) := by
  unfold assignIndices stateCount hybridCount numAdv added
  cases cfg.HYBRID_MOMENTUM <;> cases cfg.SHOCK_VAR <;> simp <;> split_ifs <;>
    simp only [wrapInt] <;> omega

theorem assignIndices_NUM_STATE (cfg : Config) (s : Castro) (hf : stateCount cfg ≤ INT_MAX) :
    (assignIndices cfg s).NUM_STATE = 7 + hybridCount cfg + added (numAdv cfg)
      + added cfg.ca_get_num_spec + added cfg.ca_get_num_aux
      + (if cfg.SHOCK_VAR then 1 else 0) := by
  obtain ⟨h1, h2, h3, h4⟩ := stateCount_fixed cfg
  rw [assignIndices_wraps, wrapInt_of_fits _ hf]
  · rfl
  · unfold stateCount
    split <;> omega

theorem assignIndices_First (cfg : Config) (s : Castro) (hf : stateCount cfg ≤ INT_MAX) :
    (assignIndices cfg s).FirstAdv
      = (if numAdv cfg > 0 then 7 + hybridCount cfg else s.FirstAdv) ∧
    (assignIndices cfg s).FirstSpec
      = (if cfg.ca_get_num_spec > 0 then 7 + hybridCount cfg + added (numAdv cfg)
          else s.FirstSpec) ∧
    (assignIndices cfg s).FirstAux
      = (if cfg.ca_get_num_aux > 0 then
          7 + hybridCount cfg + added (numAdv cfg) + added cfg.ca_get_num_spec
          else s.FirstAux) ∧
    (assignIndices cfg s).Shock
      = (if cfg.SHOCK_VAR then
          7 + hybridCount cfg + added (numAdv cfg) + added cfg.ca_get_num_spec
            + added cfg.ca_get_num_aux
          else s.Shock) := by
  unfold stateCount INT_MAX at hf
  refine ⟨?_, ?_, ?_, ?_⟩ <;>
    (unfold assignIndices hybridCount numAdv added at *
     revert hf
     cases cfg.HYBRID_MOMENTUM <;> cases cfg.SHOCK_VAR <;> simp <;>
       split_ifs <;> simp only [wrapInt] <;> intro hf <;> first | trivial | omega)

/-! ## The naming pass -/

theorem assign_at_end {α : Type} (xs : List α) (y : α) (ys : List α) (v : α) :
    assign (xs ++ y :: ys) (xs.length : Int) v = Except.ok (xs ++ v :: ys) := by
  unfold assign
  have h : (0 : Int) ≤ (xs.length : Int) ∧
      ((xs.length : Int)).toNat < (xs ++ y :: ys).length := by
    constructor
    · exact Int.ofNat_nonneg _
    · simp
  rw [if_pos h]
  simp

theorem replicate_pos {α : Type} {k : Nat} (hk : 0 < k) (a : α) :
    List.replicate k a = a :: List.replicate (k - 1) a := by
  obtain ⟨j, rfl⟩ : ∃ j, k = j + 1 := ⟨k - 1, by omega⟩
  simp [List.replicate_succ]

theorem put_initial {dim : Nat} {set_bc : BCRec FillCode → Except Abort (BCRec FillCode)}
    {bc b' : BCRec FillCode} (hset : set_bc bc = Except.ok b') {n : Nat} (hn : 0 < n)
    (nm : String) :
    Naming.put set_bc nm
        { cnt := 0, bc := bc, bcs := List.replicate n (BCRec.unset dim),
          name := List.replicate n "", written := [] }
      = Except.ok (Naming.filled dim [nm] [b'] (n - 1) b') := by
  unfold Naming.put
  simp only [hset, ok_bind]
  rw [replicate_pos hn, replicate_pos hn]
  have h1 := assign_at_end ([] : List (BCRec FillCode)) (BCRec.unset dim)
    (List.replicate (n - 1) (BCRec.unset dim)) b'
  have h2 := assign_at_end ([] : List String) "" (List.replicate (n - 1) "") nm
  simp only [List.length_nil, List.nil_append, Nat.cast_zero] at h1 h2
  simp only [h1, h2, ok_bind]
  rfl

theorem next_filled {dim : Nat} {set_bc : BCRec FillCode → Except Abort (BCRec FillCode)}
    {bc b' : BCRec FillCode} (hset : set_bc bc = Except.ok b') {names : List String}
    {bcs : List (BCRec FillCode)} (hb : bcs.length = names.length) {k : Nat} (hk : 0 < k)
    (nm : String) :
    (Naming.filled dim names bcs k bc).next set_bc nm
      = Except.ok (Naming.filled dim (names ++ [nm]) (bcs ++ [b']) (k - 1) b') := by
  unfold Naming.next Naming.put Naming.filled
  simp only [hset, ok_bind]
  rw [replicate_pos hk, replicate_pos hk]
  have e : (names.length : Int) - 1 + 1 = (names.length : Int) := by omega
  rw [e]
  have h1 := assign_at_end bcs (BCRec.unset dim) (List.replicate (k - 1) (BCRec.unset dim)) b'
  have h2 := assign_at_end names "" (List.replicate (k - 1) "") nm
  rw [hb] at h1
  simp only [h1, h2, ok_bind]
  simp [pure, Except.pure, List.range_succ]

theorem loop_filled {dim : Nat} {set_bc : BCRec FillCode → Except Abort (BCRec FillCode)}
    {b' : BCRec FillCode} (hset : set_bc b' = Except.ok b')
    (g : Naming → Nat → Except Abort Naming) (f : Nat → String) (m : Nat)
    (hg : ∀ i < m, ∀ st, g st i = st.next set_bc (f i))
    (names : List String) (bcs : List (BCRec FillCode)) (hb : bcs.length = names.length)
    (k : Nat) (hk : m ≤ k) :
    (List.range m).foldlM g (Naming.filled dim names bcs k b')
      = Except.ok (Naming.filled dim (names ++ (List.range m).map f)
          (bcs ++ List.replicate m b') (k - m) b') := by
  induction m with
  | zero => simp; rfl
  | succ m ih =>
    rw [List.range_succ, List.foldlM_append, ih (fun i hi => hg i (by omega)) (by omega)]
    simp only [ok_bind, List.foldlM_cons, List.foldlM_nil]
    rw [hg m (by omega), next_filled hset (by simp [hb]) (by omega)]
    simp only [ok_bind, pure, Except.pure]
    congr 1
    have e1 : k - m - 1 = k - (m + 1) := by omega
    simp [List.replicate_succ', e1]

theorem scalarRec_sized {dim : Nat} {phys_bc : BCRec Int} (hp : validPhys dim phys_bc) :
    (scalarRec phys_bc).sized dim := by
  obtain ⟨⟨hl, hh⟩, -, -⟩ := hp
  exact ⟨by simp [scalarRec, hl], by simp [scalarRec, hh]⟩

theorem velRec_sized (P : Nat) {dim : Nat} {phys_bc : BCRec Int} (hp : validPhys dim phys_bc) :
    (velRec P phys_bc).sized dim := by
  obtain ⟨⟨hl, hh⟩, -, -⟩ := hp
  exact ⟨by simp [velRec, hl], by simp [velRec, hh]⟩

theorem unset_sized (dim : Nat) : (BCRec.unset dim).sized dim :=
  ⟨by simp [BCRec.unset], by simp [BCRec.unset]⟩

theorem scalar_fixed {cfg : Config} (hdim : 1 ≤ cfg.BL_SPACEDIM ∧ cfg.BL_SPACEDIM ≤ 3)
    (hp : validPhys cfg.BL_SPACEDIM cfg.phys_bc) :
    set_scalar_bc cfg.BL_SPACEDIM (scalarRec cfg.phys_bc) cfg.phys_bc
      = Except.ok (scalarRec cfg.phys_bc) :=
  set_scalar_bc_eq hdim (scalarRec_sized hp) hp

theorem subscript_map_range {α : Type} (f : Nat → α) {n i : Nat} (hi : i < n) :
    subscript ((List.range n).map f) (i : Int) = Except.ok (f i) := by
  apply subscript_of_get?
  simp [hi]

theorem nameHybrid_filled {cfg : Config} (hdim : 1 ≤ cfg.BL_SPACEDIM ∧ cfg.BL_SPACEDIM ≤ 3)
    (hp : validPhys cfg.BL_SPACEDIM cfg.phys_bc) {names : List String}
    {bcs : List (BCRec FillCode)} (hb : bcs.length = names.length) {k : Nat}
    (hk : (if cfg.HYBRID_MOMENTUM then 3 else 0) ≤ k) {bc : BCRec FillCode}
    (hbc : bc.sized cfg.BL_SPACEDIM) :
    ∃ bc', bc'.sized cfg.BL_SPACEDIM ∧
      nameHybrid cfg (Naming.filled cfg.BL_SPACEDIM names bcs k bc)
      = Except.ok (Naming.filled cfg.BL_SPACEDIM
          (names ++ (if cfg.HYBRID_MOMENTUM then ["rmom", "lmom", "pmom"] else []))
          (bcs ++ List.replicate (if cfg.HYBRID_MOMENTUM then 3 else 0) (scalarRec cfg.phys_bc))
          (k - (if cfg.HYBRID_MOMENTUM then 3 else 0)) bc') := by
  unfold nameHybrid
  cases hH : cfg.HYBRID_MOMENTUM
  · refine ⟨bc, hbc, ?_⟩
    simp [pure, Except.pure]
  · refine ⟨scalarRec cfg.phys_bc, scalarRec_sized hp, ?_⟩
    rw [hH] at hk
    simp only [if_true] at hk ⊢
    rw [next_filled (set_scalar_bc_eq hdim hbc hp) hb (by omega) "rmom"]
    simp only [ok_bind]
    rw [next_filled (scalar_fixed hdim hp) (by simp [hb]) (by omega) "lmom"]
    simp only [ok_bind]
    rw [next_filled (scalar_fixed hdim hp) (by simp [hb]) (by omega) "pmom"]
    congr 1
    simp [List.replicate]
    congr 1

theorem nameShock_filled {cfg : Config} (hdim : 1 ≤ cfg.BL_SPACEDIM ∧ cfg.BL_SPACEDIM ≤ 3)
    (hp : validPhys cfg.BL_SPACEDIM cfg.phys_bc) {names : List String}
    {bcs : List (BCRec FillCode)} (hb : bcs.length = names.length) {k : Nat}
    (hk : (if cfg.SHOCK_VAR then 1 else 0) ≤ k) :
    nameShock cfg (Naming.filled cfg.BL_SPACEDIM names bcs k (scalarRec cfg.phys_bc))
      = Except.ok (Naming.filled cfg.BL_SPACEDIM
          (names ++ (if cfg.SHOCK_VAR then ["Shock"] else []))
          (bcs ++ List.replicate (if cfg.SHOCK_VAR then 1 else 0) (scalarRec cfg.phys_bc))
          (k - (if cfg.SHOCK_VAR then 1 else 0)) (scalarRec cfg.phys_bc)) := by
  unfold nameShock
  cases hH : cfg.SHOCK_VAR
  · simp [pure, Except.pure]
  · rw [hH] at hk
    simp only [if_true] at hk ⊢
    rw [next_filled (scalar_fixed hdim hp) hb (by omega) "Shock"]
    rfl

theorem nameAdv_filled {cfg : Config} (s : Castro)
    (hdim : 1 ≤ cfg.BL_SPACEDIM ∧ cfg.BL_SPACEDIM ≤ 3)
    (hp : validPhys cfg.BL_SPACEDIM cfg.phys_bc) {names : List String}
    {bcs : List (BCRec FillCode)} (hb : bcs.length = names.length) {k : Nat}
    (hk : s.NumAdv.toNat ≤ k) :
    nameAdv cfg s (Naming.filled cfg.BL_SPACEDIM names bcs k (scalarRec cfg.phys_bc))
      = Except.ok (Naming.filled cfg.BL_SPACEDIM
          (names ++ (List.range s.NumAdv.toNat).map (fun i => "adv_" ++ toString i))
          (bcs ++ List.replicate s.NumAdv.toNat (scalarRec cfg.phys_bc))
          (k - s.NumAdv.toNat) (scalarRec cfg.phys_bc)) := by
  unfold nameAdv
  exact @loop_filled _ (fun bc => set_scalar_bc cfg.BL_SPACEDIM bc cfg.phys_bc) _
    (scalar_fixed hdim hp) _ _ _ (fun _ _ _ => rfl) names bcs hb k hk

theorem nameSpecies_filled {cfg : Config} (s : Castro)
    (hdim : 1 ≤ cfg.BL_SPACEDIM ∧ cfg.BL_SPACEDIM ≤ 3)
    (hp : validPhys cfg.BL_SPACEDIM cfg.phys_bc) {names : List String}
    {bcs : List (BCRec FillCode)} (hb : bcs.length = names.length) {k : Nat}
    (hk : s.NumSpec.toNat ≤ k) :
    nameSpecies cfg s (Naming.filled cfg.BL_SPACEDIM names bcs k (scalarRec cfg.phys_bc))
      = Except.ok (Naming.filled cfg.BL_SPACEDIM
          (names ++ (List.range s.NumSpec.toNat).map
            (fun i => "rho_" ++ cfg.ca_get_spec_names i))
          (bcs ++ List.replicate s.NumSpec.toNat (scalarRec cfg.phys_bc))
          (k - s.NumSpec.toNat) (scalarRec cfg.phys_bc)) := by
  unfold nameSpecies
  refine @loop_filled _ (fun bc => set_scalar_bc cfg.BL_SPACEDIM bc cfg.phys_bc) _
    (scalar_fixed hdim hp) _ _ _ (fun i hi st => ?_) names bcs hb k hk
  simp only [spec_names, subscript_map_range _ hi, ok_bind]

theorem nameAux_filled {cfg : Config} (s : Castro)
    (hdim : 1 ≤ cfg.BL_SPACEDIM ∧ cfg.BL_SPACEDIM ≤ 3)
    (hp : validPhys cfg.BL_SPACEDIM cfg.phys_bc) {names : List String}
    {bcs : List (BCRec FillCode)} (hb : bcs.length = names.length) {k : Nat}
    (hk : s.NumAux.toNat ≤ k) :
    nameAux cfg s (Naming.filled cfg.BL_SPACEDIM names bcs k (scalarRec cfg.phys_bc))
      = Except.ok (Naming.filled cfg.BL_SPACEDIM
          (names ++ (List.range s.NumAux.toNat).map
            (fun i => "rho_" ++ cfg.ca_get_aux_names i))
          (bcs ++ List.replicate s.NumAux.toNat (scalarRec cfg.phys_bc))
          (k - s.NumAux.toNat) (scalarRec cfg.phys_bc)) := by
  unfold nameAux
  refine @loop_filled _ (fun bc => set_scalar_bc cfg.BL_SPACEDIM bc cfg.phys_bc) _
    (scalar_fixed hdim hp) _ _ _ (fun i hi st => ?_) names bcs hb k hk
  simp only [aux_names, subscript_map_range _ hi, ok_bind]

theorem stateNameList_length (cfg : Config) (s : Castro) :
    (stateNameList cfg s).length
      = 7 + (if cfg.HYBRID_MOMENTUM then 3 else 0) + s.NumAdv.toNat + s.NumSpec.toNat
          + s.NumAux.toNat + (if cfg.SHOCK_VAR then 1 else 0) := by
  unfold stateNameList
  cases cfg.HYBRID_MOMENTUM <;> cases cfg.SHOCK_VAR <;> simp <;> omega

/-- The naming pass in closed form. -/
theorem nameState_eq (cfg : Config) (s : Castro)
    (hdim : 1 ≤ cfg.BL_SPACEDIM ∧ cfg.BL_SPACEDIM ≤ 3)
    (hp : validPhys cfg.BL_SPACEDIM cfg.phys_bc) (bc : BCRec FillCode)
    (hbc : bc.sized cfg.BL_SPACEDIM)
    (hN : s.NUM_STATE.toNat = (stateNameList cfg s).length) :
    nameState cfg s bc
      = Except.ok (Naming.filled cfg.BL_SPACEDIM (stateNameList cfg s) (stateBcList cfg s) 0
          (scalarRec cfg.phys_bc)) := by
  have hl := stateNameList_length cfg s
  have hH : (if cfg.HYBRID_MOMENTUM then 3 else 0) ≤ 3 := by split <;> omega
  have hSh : (if cfg.SHOCK_VAR then 1 else 0) ≤ 1 := by split <;> omega
  have hHl : (if cfg.HYBRID_MOMENTUM then ["rmom", "lmom", "pmom"] else []).length
      = (if cfg.HYBRID_MOMENTUM then 3 else 0) := by split <;> rfl
  unfold nameState
  simp only []
  rw [put_initial (set_scalar_bc_eq hdim hbc hp) (by omega) "density"]
  simp only [ok_bind]
  rw [next_filled (set_x_vel_bc_eq hdim (scalarRec_sized hp) hp) rfl (by omega) "xmom"]
  simp only [ok_bind]
  rw [next_filled (set_y_vel_bc_eq hdim (velRec_sized 0 hp) hp) rfl (by omega) "ymom"]
  simp only [ok_bind]
  rw [next_filled (set_z_vel_bc_eq hdim (velRec_sized 1 hp) hp) rfl (by omega) "zmom"]
  simp only [ok_bind]
  obtain ⟨bc', hbc', hhy⟩ := @nameHybrid_filled cfg hdim hp
    (["density"] ++ ["xmom"] ++ ["ymom"] ++ ["zmom"])
    ([scalarRec cfg.phys_bc] ++ [velRec 0 cfg.phys_bc] ++ [velRec 1 cfg.phys_bc]
      ++ [velRec 2 cfg.phys_bc]) rfl
    (s.NUM_STATE.toNat - 1 - 1 - 1 - 1) (by omega) _ (velRec_sized 2 hp)
  rw [hhy]
  simp only [ok_bind]
  rw [next_filled (set_scalar_bc_eq hdim hbc' hp) (by simp [hHl, Nat.add_assoc]) (by omega) "rho_E"]
  simp only [ok_bind]
  rw [next_filled (scalar_fixed hdim hp) (by simp [hHl, Nat.add_assoc]) (by omega) "rho_e"]
  simp only [ok_bind]
  rw [next_filled (scalar_fixed hdim hp) (by simp [hHl, Nat.add_assoc]) (by omega) "Temp"]
  simp only [ok_bind]
  rw [nameAdv_filled s hdim hp (by simp [hHl, Nat.add_assoc]) (by omega)]
  simp only [ok_bind]
  rw [nameSpecies_filled s hdim hp (by simp [hHl, Nat.add_assoc]) (by omega)]
  simp only [ok_bind]
  rw [nameAux_filled s hdim hp (by simp [hHl, Nat.add_assoc]) (by omega)]
  simp only [ok_bind]
  rw [nameShock_filled hdim hp (by simp [hHl, Nat.add_assoc]) (by omega)]
  congr 1
  have hz : s.NUM_STATE.toNat - 1 - 1 - 1 - 1 - (if cfg.HYBRID_MOMENTUM then 3 else 0)
      - 1 - 1 - 1 - s.NumAdv.toNat - s.NumSpec.toNat - s.NumAux.toNat
      - (if cfg.SHOCK_VAR then 1 else 0) = 0 := by omega
  have hnames : ["density"] ++ ["xmom"] ++ ["ymom"] ++ ["zmom"]
      ++ (if cfg.HYBRID_MOMENTUM then ["rmom", "lmom", "pmom"] else [])
      ++ ["rho_E"] ++ ["rho_e"] ++ ["Temp"]
      ++ (List.range s.NumAdv.toNat).map (fun i => "adv_" ++ toString i)
      ++ (List.range s.NumSpec.toNat).map (fun i => "rho_" ++ cfg.ca_get_spec_names i)
      ++ (List.range s.NumAux.toNat).map (fun i => "rho_" ++ cfg.ca_get_aux_names i)
      ++ (if cfg.SHOCK_VAR then ["Shock"] else []) = stateNameList cfg s := by
    simp [stateNameList]
  have hbcs : [scalarRec cfg.phys_bc] ++ [velRec 0 cfg.phys_bc] ++ [velRec 1 cfg.phys_bc]
      ++ [velRec 2 cfg.phys_bc]
      ++ List.replicate (if cfg.HYBRID_MOMENTUM then 3 else 0) (scalarRec cfg.phys_bc)
      ++ [scalarRec cfg.phys_bc] ++ [scalarRec cfg.phys_bc] ++ [scalarRec cfg.phys_bc]
      ++ List.replicate s.NumAdv.toNat (scalarRec cfg.phys_bc)
      ++ List.replicate s.NumSpec.toNat (scalarRec cfg.phys_bc)
      ++ List.replicate s.NumAux.toNat (scalarRec cfg.phys_bc)
      ++ List.replicate (if cfg.SHOCK_VAR then 1 else 0) (scalarRec cfg.phys_bc)
      = stateBcList cfg s := by
    unfold stateBcList
    rw [hl]
    have e : 7 + (if cfg.HYBRID_MOMENTUM then 3 else 0) + s.NumAdv.toNat + s.NumSpec.toNat
        + s.NumAux.toNat + (if cfg.SHOCK_VAR then 1 else 0) - 4
        = (if cfg.HYBRID_MOMENTUM then 3 else 0) + (1 + (1 + (1 + (s.NumAdv.toNat
          + (s.NumSpec.toNat + (s.NumAux.toNat + (if cfg.SHOCK_VAR then 1 else 0))))))) := by
      omega
    rw [e]
    simp only [List.replicate_add, List.append_assoc, List.replicate_one,
      List.cons_append, List.nil_append, List.singleton_append]
  rw [hz, hnames, hbcs]

/-! ## Descriptor lists -/

theorem foldlM_invariant {α β : Type} (P : α → Prop) (f : α → β → Except Abort α)
    (hf : ∀ a x b, P a → f a x = Except.ok b → P b) :
    ∀ (l : List β) (init r : α), P init → l.foldlM f init = Except.ok r → P r := by
  intro l
  induction l with
  | nil =>
    intro init r hP h
    simp only [List.foldlM_nil, pure, Except.pure] at h
    cases h
    exact hP
  | cons x xs ih =>
    intro init r hP h
    rw [List.foldlM_cons, bind_ok_iff] at h
    obtain ⟨a, ha, hr⟩ := h
    exact ih a r (hf init x a hP ha) hr

theorem setComponent_at {pre : List StateDescriptor} {d : StateDescriptor}
    {post : List StateDescriptor} {typ : StateType} (hpre : ∀ x ∈ pre, x.typ ≠ typ)
    (hd : d.typ = typ) (comp : Int) (nm : String) (bc : BCRec FillCode) :
    setComponent (pre ++ d :: post) typ comp nm bc
      = (do
          let names ← assign d.names comp nm
          let bcs ← assign d.bc comp bc
          pure (pre ++ { d with names := names, bc := bcs } :: post)) := by
  induction pre with
  | nil => simp [setComponent, hd]
  | cons x xs ih =>
    have hx : x.typ ≠ typ := hpre x (by simp)
    have ih' := ih (fun y hy => hpre y (by simp [hy]))
    rw [List.cons_append, setComponent, if_neg hx, ih']
    cases assign d.names comp nm with
    | error e => rfl
    | ok names =>
      cases assign d.bc comp bc with
      | error e => rfl
      | ok bcs => rfl

theorem take_append_drop_step {α : Type} (new old : List α) {m : Nat} (hn : m < new.length)
    (ho : m < old.length) :
    assign (new.take m ++ old.drop m) (m : Int) new[m]
      = Except.ok (new.take (m + 1) ++ old.drop (m + 1)) := by
  have h1 : old.drop m = old[m] :: old.drop (m + 1) := List.drop_eq_getElem_cons ho
  have h2 : (new.take m).length = m := by simp; omega
  have h3 := assign_at_end (new.take m) old[m] (old.drop (m + 1)) new[m]
  rw [h2] at h3
  rw [h1, h3]
  congr 1
  rw [← List.take_concat_get new m hn, List.concat_eq_append, List.append_assoc]
  rfl

/-- The array form of `setComponent` fills all components of the first descriptor of the
type from the two arrays when the arrays have the size of the descriptor. -/
theorem setComponents_eq {pre : List StateDescriptor} {d : StateDescriptor}
    {post : List StateDescriptor} {typ : StateType} (hpre : ∀ x ∈ pre, x.typ ≠ typ)
    (hd : d.typ = typ) (names : List String) (bcs : List (BCRec FillCode))
    (h1 : d.names.length = names.length) (h2 : d.bc.length = names.length)
    (h3 : bcs.length = names.length) :
    setComponents (pre ++ d :: post) typ 0 names bcs
      = Except.ok (pre ++ { d with names := names, bc := bcs } :: post) := by
  unfold setComponents
  have key : ∀ m, m ≤ names.length →
      (List.range m).foldlM
        (fun lst (i : Nat) => do
          let nm ← subscript names i
          let bc ← subscript bcs i
          setComponent lst typ (0 + i) nm bc)
        (pre ++ d :: post)
      = Except.ok (pre ++ { d with names := names.take m ++ d.names.drop m,
                                   bc := bcs.take m ++ d.bc.drop m } :: post) := by
    intro m
    induction m with
    | zero => intro _; simp; rfl
    | succ m ih =>
      intro hm
      have hm1 : m < names.length := by omega
      have hm2 : m < bcs.length := by omega
      rw [List.range_succ, List.foldlM_append, ih (by omega)]
      simp only [ok_bind, List.foldlM_cons, List.foldlM_nil]
      rw [subscript_of_get? (List.getElem?_eq_getElem hm1),
        subscript_of_get? (List.getElem?_eq_getElem hm2)]
      simp only [ok_bind, Int.zero_add]
      rw [setComponent_at hpre (by exact hd)]
      simp only []
      rw [take_append_drop_step names d.names hm1 (by omega),
        take_append_drop_step bcs d.bc hm2 (by omega)]
      rfl
  rw [key names.length (le_refl _)]
  have e1 : names.take names.length ++ d.names.drop names.length = names := by
    rw [← h1, List.drop_length, List.append_nil, h1, List.take_length]
  have e2 : bcs.take names.length ++ d.bc.drop names.length = bcs := by
    rw [← h2, List.drop_length, List.append_nil, h2, ← h3, List.take_length]
  rw [e1, e2]

/-! ## Frame lemmas: what a phase leaves untouched -/

theorem pure_ok_iff {α : Type} (a b : α) :
    (pure a : Except Abort α) = Except.ok b ↔ a = b := by
  simp [pure, Except.pure]

theorem setComponent_descOf {l l' : List StateDescriptor} {typ typ' : StateType}
    (hne : typ' ≠ typ) {comp : Int} {nm : String} {bc : BCRec FillCode}
    (h : setComponent l typ comp nm bc = Except.ok l') : descOf l' typ' = descOf l typ' := by
  induction l generalizing l' with
  | nil => simp [setComponent] at h
  | cons d ds ih =>
    rw [setComponent] at h
    split at h
    · rename_i hd
      simp only [bind_ok_iff, pure_ok_iff] at h
      obtain ⟨names, -, bcs, -, rfl⟩ := h
      have hd' : ¬ d.typ = typ' := fun e => hne (e ▸ hd)
      simp [descOf, List.find?, hd']
    · simp only [bind_ok_iff, pure_ok_iff] at h
      obtain ⟨ds', hds, rfl⟩ := h
      have := ih hds
      simp only [descOf] at this ⊢
      simp only [List.find?_cons, this]

theorem addDescriptor_descOf {dim : Nat} {l : List StateDescriptor} {typ typ' : StateType}
    {d : StateDescriptor} (h : descOf l typ' = some d) (ngrow ncomp : Int)
    (interp : Interpolater) (e c : Bool) :
    descOf (addDescriptor dim l typ ngrow ncomp interp e c) typ' = some d := by
  simp only [descOf, addDescriptor] at h ⊢
  rw [List.find?_append, h]
  rfl

theorem setComponent_keeps {d : StateDescriptor} {l l' : List StateDescriptor}
    {typ : StateType} (hne : StateType.State_Type ≠ typ) {comp : Int} {nm : String}
    {bc : BCRec FillCode} (hl : descOf l StateType.State_Type = some d)
    (h : setComponent l typ comp nm bc = Except.ok l') :
    descOf l' StateType.State_Type = some d := by
  rw [setComponent_descOf hne h, hl]

theorem setComponents_keeps {d : StateDescriptor} {l l' : List StateDescriptor}
    {typ : StateType} (hne : StateType.State_Type ≠ typ) {comp : Int} {names : List String}
    {bcs : List (BCRec FillCode)} (hl : descOf l StateType.State_Type = some d)
    (h : setComponents l typ comp names bcs = Except.ok l') :
    descOf l' StateType.State_Type = some d := by
  unfold setComponents at h
  refine foldlM_invariant (fun l => descOf l StateType.State_Type = some d) _ ?_ _ _ _ hl h
  intro a x b ha hb
  simp only [bind_ok_iff] at hb
  obtain ⟨nm, -, bc, -, hb⟩ := hb
  exact setComponent_keeps hne ha hb

theorem nameGravity_keeps {cfg : Config} {d : StateDescriptor} {bc bc' : BCRec FillCode}
    {l l' : List StateDescriptor} (hl : descOf l StateType.State_Type = some d)
    (h : nameGravity cfg bc l = Except.ok (l', bc')) :
    descOf l' StateType.State_Type = some d := by
  unfold nameGravity at h
  split at h
  · simp only [bind_ok_iff, pure_ok_iff, Prod.mk.injEq] at h
    obtain ⟨b1, -, l1, h1, b2, -, l2, h2, b3, -, l3, h3, b4, -, l4, h4, rfl, -⟩ := h
    exact setComponent_keeps (by decide) (setComponent_keeps (by decide)
      (setComponent_keeps (by decide) (setComponent_keeps (by decide) hl h1) h2) h3) h4
  · simp only [pure_ok_iff, Prod.mk.injEq] at h
    obtain ⟨rfl, -⟩ := h
    exact hl

theorem nameRotation_keeps {cfg : Config} {d : StateDescriptor} {bc bc' : BCRec FillCode}
    {l l' : List StateDescriptor} (hl : descOf l StateType.State_Type = some d)
    (h : nameRotation cfg bc l = Except.ok (l', bc')) :
    descOf l' StateType.State_Type = some d := by
  unfold nameRotation at h
  split at h
  · simp only [bind_ok_iff, pure_ok_iff, Prod.mk.injEq] at h
    obtain ⟨b1, -, l1, h1, b2, -, l2, h2, b3, -, l3, h3, b4, -, l4, h4, rfl, -⟩ := h
    exact setComponent_keeps (by decide) (setComponent_keeps (by decide)
      (setComponent_keeps (by decide) (setComponent_keeps (by decide) hl h1) h2) h3) h4
  · simp only [pure_ok_iff, Prod.mk.injEq] at h
    obtain ⟨rfl, -⟩ := h
    exact hl

theorem nameSource_keeps {s : Castro} {d : StateDescriptor} {name src : List String}
    {bcs : List (BCRec FillCode)} {l l' : List StateDescriptor}
    (hl : descOf l StateType.State_Type = some d)
    (h : nameSource s name bcs l = Except.ok (l', src)) :
    descOf l' StateType.State_Type = some d := by
  unfold nameSource at h
  simp only [bind_ok_iff, pure_ok_iff, Prod.mk.injEq] at h
  obtain ⟨arr, -, l1, h1, rfl, -⟩ := h
  exact setComponents_keeps (by decide) hl h1

theorem nameReactions_keeps {cfg : Config} {s : Castro} {d : StateDescriptor}
    {bc bc' : BCRec FillCode} {l l' : List StateDescriptor}
    (hl : descOf l StateType.State_Type = some d)
    (h : nameReactions cfg s bc l = Except.ok (l', bc')) :
    descOf l' StateType.State_Type = some d := by
  unfold nameReactions at h
  split at h
  · simp only [bind_ok_iff, pure_ok_iff, Prod.mk.injEq] at h
    obtain ⟨⟨l1, b1⟩, h1, l2, h2, l3, h3, rfl, -⟩ := h
    have k1 : descOf l1 StateType.State_Type = some d := by
      refine foldlM_invariant
        (fun (p : List StateDescriptor × BCRec FillCode) =>
          descOf p.1 StateType.State_Type = some d) _ ?_ _ _ _ hl h1
      intro a x b ha hb
      simp only [bind_ok_iff, pure_ok_iff] at hb
      obtain ⟨bc1, -, nm, -, l4, h4, rfl⟩ := hb
      exact setComponent_keeps (by decide) ha h4
    exact setComponent_keeps (by decide) (setComponent_keeps (by decide) k1 h2) h3
  · simp only [pure_ok_iff, Prod.mk.injEq] at h
    obtain ⟨rfl, -⟩ := h
    exact hl

theorem nameSDC_keeps {cfg : Config} {s : Castro} {d : StateDescriptor}
    {bc bc' : BCRec FillCode} {name src : List String} {bcs : List (BCRec FillCode)}
    {l l' : List StateDescriptor} (hl : descOf l StateType.State_Type = some d)
    (h : nameSDC cfg s bc name bcs src l = Except.ok (l', bc')) :
    descOf l' StateType.State_Type = some d := by
  unfold nameSDC at h
  split at h
  · simp only [bind_ok_iff] at h
    obtain ⟨arr, -, l1, h1, h2⟩ := h
    have k1 := setComponents_keeps (by decide) hl h1
    split at h2
    · refine foldlM_invariant
        (fun (p : List StateDescriptor × BCRec FillCode) =>
          descOf p.1 StateType.State_Type = some d) _ ?_ _ _ (l', bc') k1 h2
      intro a x b ha hb
      simp only [bind_ok_iff, pure_ok_iff] at hb
      obtain ⟨bc1, -, l4, h4, rfl⟩ := hb
      exact setComponent_keeps (by decide) ha h4
    · simp only [pure_ok_iff, Prod.mk.injEq] at h2
      obtain ⟨rfl, -⟩ := h2
      exact k1
  · simp only [pure_ok_iff, Prod.mk.injEq] at h
    obtain ⟨rfl, -⟩ := h
    exact hl

theorem neutrinoLoop_invariant {σ : Type} (P : σ → Prop) {cfg : Config}
    {body : σ → Nat → Nat → Int → Except Abort σ}
    (hbody : ∀ a j i indx b, P a → body a j i indx = Except.ok b → P b) {init r : σ}
    (hinit : P init) (h : neutrinoLoop cfg body init = Except.ok r) : P r := by
  unfold neutrinoLoop at h
  simp only [bind_ok_iff, pure_ok_iff] at h
  obtain ⟨⟨st, n⟩, h1, rfl⟩ := h
  refine foldlM_invariant (fun (p : σ × Int) => P p.1) _ ?_ _ _ (st, n) hinit h1
  intro a j b ha hb
  simp only [bind_ok_iff] at hb
  obtain ⟨nj, -, hb⟩ := hb
  refine foldlM_invariant (fun (p : σ × Int) => P p.1) _ ?_ _ _ b ha hb
  intro a' i b' ha' hb'
  simp only [bind_ok_iff, pure_ok_iff] at hb'
  obtain ⟨st', hst', rfl⟩ := hb'
  exact hbody _ _ _ _ _ ha' hst'

theorem nameRadComponents_keeps {cfg : Config} {d : StateDescriptor} {bc : BCRec FillCode}
    {l l' : List StateDescriptor} (hl : descOf l StateType.State_Type = some d)
    (h : nameRadComponents cfg bc l = Except.ok l') :
    descOf l' StateType.State_Type = some d := by
  unfold nameRadComponents at h
  split at h
  · exact setComponent_keeps (by decide) hl h
  · simp only [bind_ok_iff] at h
    obtain ⟨photons, -, h⟩ := h
    split at h
    · refine foldlM_invariant (fun l => descOf l StateType.State_Type = some d) _ ?_ _ _ _
        hl h
      intro a x b ha hb
      simp only [bind_ok_iff] at hb
      obtain ⟨nm, -, hb⟩ := hb
      exact setComponent_keeps (by decide) ha hb
    · refine neutrinoLoop_invariant (fun l => descOf l StateType.State_Type = some d) ?_ hl h
      intro a j i indx b ha hb
      simp only [bind_ok_iff] at hb
      obtain ⟨nm, -, hb⟩ := hb
      exact setComponent_keeps (by decide) ha hb

theorem nameRadiation_keeps {cfg : Config} {s : Castro} {d : StateDescriptor}
    {interp : Interpolater} {bc bc' : BCRec FillCode} {l l' : List StateDescriptor}
    (hl : descOf l StateType.State_Type = some d)
    (h : nameRadiation cfg s interp bc l = Except.ok (l', bc')) :
    descOf l' StateType.State_Type = some d := by
  unfold nameRadiation at h
  split at h
  · simp only [bind_ok_iff, pure_ok_iff, Prod.mk.injEq] at h
    obtain ⟨b1, -, _, -, l1, h1, rfl, -⟩ := h
    exact nameRadComponents_keeps
      (@addDescriptor_descOf cfg.BL_SPACEDIM _ StateType.Rad_Type _ _ hl 1
        cfg.nGroups interp false true) h1
  · simp only [pure_ok_iff, Prod.mk.injEq] at h
    obtain ⟨rfl, -⟩ := h
    exact hl

theorem nameKnapsack_keeps {cfg : Config} {s : Castro} {d : StateDescriptor}
    {bc : BCRec FillCode} {k : Int} {l l' : List StateDescriptor}
    (hl : descOf l StateType.State_Type = some d)
    (h : nameKnapsack cfg s bc l = Except.ok (l', k)) :
    descOf l' StateType.State_Type = some d := by
  unfold nameKnapsack at h
  split at h
  · simp only [bind_ok_iff, pure_ok_iff, Prod.mk.injEq] at h
    obtain ⟨l1, h1, rfl, -⟩ := h
    exact setComponent_keeps (by decide)
      (@addDescriptor_descOf cfg.BL_SPACEDIM _ StateType.Knapsack_Weight_Type _ _
        hl 0 1 Interpolater.pc_interp false true) h1
  · simp only [pure_ok_iff, Prod.mk.injEq] at h
    obtain ⟨rfl, -⟩ := h
    exact hl

/-! ## The descriptor of `State_Type` -/

theorem added_toNat (n : Int) : (added n).toNat = n.toNat := by
  unfold added
  split <;> omega

theorem added_nonneg (n : Int) : 0 ≤ added n := by
  unfold added
  split <;> omega

theorem assignIndices_count (cfg : Config) (s : Castro) (hf : stateCount cfg ≤ INT_MAX) :
    (assignIndices cfg s).NUM_STATE.toNat = (stateNameList cfg (assignIndices cfg s)).length := by
  obtain ⟨-, -, -, -, -, -, -, hA, hS, hX, -⟩ := assignIndices_fixed cfg s
  rw [stateNameList_length, assignIndices_NUM_STATE cfg s hf, hA, hS, hX]
  have h1 := added_toNat (numAdv cfg)
  have h2 := added_toNat cfg.ca_get_num_spec
  have h3 := added_toNat cfg.ca_get_num_aux
  have n1 := added_nonneg (numAdv cfg)
  have n2 := added_nonneg cfg.ca_get_num_spec
  have n3 := added_nonneg cfg.ca_get_num_aux
  unfold hybridCount
  cases cfg.HYBRID_MOMENTUM <;> cases cfg.SHOCK_VAR <;> simp <;> omega

theorem stateBcList_length (cfg : Config) (s : Castro) :
    (stateBcList cfg s).length = (stateNameList cfg s).length := by
  have := stateNameList_length cfg s
  simp only [stateBcList, List.length_append, List.length_replicate, List.length_cons,
    List.length_nil]
  omega

theorem addDescriptors_eq (cfg : Config) (s : Castro) (interp : Interpolater)
    (l : List StateDescriptor) :
    addDescriptors cfg s interp l = l ++ descriptorsAdded cfg s interp := by
  unfold addDescriptors descriptorsAdded addDescriptor
  cases cfg.SELF_GRAVITY <;> cases cfg.ROTATION <;> cases cfg.REACTIONS <;> cases cfg.SDC <;>
    simp

theorem addDescriptors_fresh (cfg : Config) (s : Castro) (interp : Interpolater) :
    ∃ post, addDescriptors cfg s interp []
      = StateDescriptor.define cfg.BL_SPACEDIM StateType.State_Type (ngrow_state cfg)
          s.NUM_STATE interp false true :: post := by
  rw [addDescriptors_eq]
  exact ⟨_, rfl⟩

/-- The descriptor of `State_Type` after a completed run that started without descriptors. -/
theorem state_descriptor {cfg : Config} {s s' : Castro}
    (hdim : 1 ≤ cfg.BL_SPACEDIM ∧ cfg.BL_SPACEDIM ≤ 3)
    (hp : validPhys cfg.BL_SPACEDIM cfg.phys_bc) (hs : s.desc_lst = [])
    (hfit : stateCount cfg ≤ INT_MAX)
    (h : Castro.variableSetUp cfg s = Except.ok s') :
    descOf s'.desc_lst StateType.State_Type = some (stateDescriptor cfg (assignIndices cfg s)) := by
  obtain ⟨st, d0, dg, bcg, d1, bc1, d2, src, d3, bc3, d4, bc4, d5, bc5, d6, k, dl,
    hst, hd0, hg, h1, h2, h3, h4, h5, h6, h7, rfl⟩ := variableSetUp_inv h
  rw [nameState_eq cfg _ hdim hp _ (unset_sized _) (assignIndices_count cfg s hfit)] at hst
  cases hst
  have hD : (assignIndices cfg s).Density = 0 := (assignIndices_fixed cfg s).1
  have hL : (assignIndices cfg s).desc_lst = [] := by
    rw [(assignIndices_fixed cfg s).2.2.2.2.2.2.2.2.2.2.1, hs]
  obtain ⟨post, hpost⟩ := addDescriptors_fresh cfg (assignIndices cfg s) (chooseInterp cfg)
  simp only [Naming.filled, List.replicate_zero, List.append_nil] at hd0 hg h2 h4
  rw [hD, hL, hpost] at hd0
  have hcount := assignIndices_count cfg s hfit
  have hset := @setComponents_eq []
    (StateDescriptor.define cfg.BL_SPACEDIM StateType.State_Type (ngrow_state cfg)
      (assignIndices cfg s).NUM_STATE (chooseInterp cfg) false true)
    post StateType.State_Type (by simp) rfl
    (stateNameList cfg (assignIndices cfg s)) (stateBcList cfg (assignIndices cfg s))
    (by simp [StateDescriptor.define, hcount]) (by simp [StateDescriptor.define, hcount])
    (stateBcList_length _ _)
  simp only [List.nil_append] at hset
  rw [hset] at hd0
  cases hd0
  have k0 : descOf
      ({ StateDescriptor.define cfg.BL_SPACEDIM StateType.State_Type (ngrow_state cfg)
            (assignIndices cfg s).NUM_STATE (chooseInterp cfg) false true with
          names := stateNameList cfg (assignIndices cfg s),
          bc := stateBcList cfg (assignIndices cfg s) } :: post) StateType.State_Type
      = some (stateDescriptor cfg (assignIndices cfg s)) := by
    simp [descOf, stateDescriptor, StateDescriptor.define]
  exact nameKnapsack_keeps (nameRadiation_keeps (nameSDC_keeps (nameReactions_keeps
    (nameSource_keeps (nameRotation_keeps (nameGravity_keeps k0 hg) h1) h2) h3) h4) h5) h6

/-! ## Descriptor lists with one descriptor per type -/

theorem split_at_typ {l : List StateDescriptor} (hnd : (l.map (fun d => d.typ)).Nodup)
    {d : StateDescriptor} (hd : d ∈ l) :
    ∃ pre post, l = pre ++ d :: post ∧ (∀ x ∈ pre, x.typ ≠ d.typ) ∧
      (∀ x ∈ post, x.typ ≠ d.typ) := by
  obtain ⟨pre, post, rfl⟩ := List.append_of_mem hd
  refine ⟨pre, post, rfl, ?_, ?_⟩
  · intro x hx hxt
    rw [List.map_append, List.nodup_append] at hnd
    exact hnd.2.2 (List.mem_map.mpr ⟨x, hx, hxt⟩) (List.mem_map.mpr ⟨d, by simp, rfl⟩)
  · intro x hx hxt
    rw [List.map_append, List.nodup_append] at hnd
    have h2 := hnd.2.1
    rw [List.map_cons, List.nodup_cons] at h2
    exact h2.1 (List.mem_map.mpr ⟨x, hx, hxt⟩)

theorem map_split {pre post : List StateDescriptor} {d : StateDescriptor}
    (g : StateDescriptor → StateDescriptor) (hpre : ∀ x ∈ pre, g x = x)
    (hpost : ∀ x ∈ post, g x = x) :
    (pre ++ d :: post).map g = pre ++ g d :: post := by
  rw [List.map_append, List.map_cons, List.map_congr_left hpre, List.map_congr_left hpost]
  simp

theorem setComponent_map {l : List StateDescriptor} (hnd : (l.map (fun d => d.typ)).Nodup)
    {d : StateDescriptor} (hd : d ∈ l) {comp : Nat} (h1 : comp < d.names.length)
    (h2 : comp < d.bc.length) (nm : String) (bc : BCRec FillCode) :
    setComponent l d.typ (comp : Int) nm bc = Except.ok (l.map (upd d.typ comp nm bc)) := by
  obtain ⟨pre, post, rfl, hpre, hpost⟩ := split_at_typ hnd hd
  rw [setComponent_at hpre rfl, map_split (upd d.typ comp nm bc)
    (fun x hx => by simp [upd, hpre x hx]) (fun x hx => by simp [upd, hpost x hx])]
  have a1 : assign d.names (comp : Int) nm = Except.ok (d.names.set comp nm) := by
    simp [assign, h1]
  have a2 : assign d.bc (comp : Int) bc = Except.ok (d.bc.set comp bc) := by
    simp [assign, h2]
  simp only [a1, a2, ok_bind]
  simp [upd, pure, Except.pure]

theorem setComponents_map {l : List StateDescriptor} (hnd : (l.map (fun d => d.typ)).Nodup)
    {d : StateDescriptor} (hd : d ∈ l) (names : List String) (bcs : List (BCRec FillCode))
    (h1 : d.names.length = names.length) (h2 : d.bc.length = names.length)
    (h3 : bcs.length = names.length) :
    setComponents l d.typ 0 names bcs = Except.ok (l.map (fill d.typ names bcs)) := by
  obtain ⟨pre, post, rfl, hpre, hpost⟩ := split_at_typ hnd hd
  rw [setComponents_eq hpre rfl names bcs h1 h2 h3, map_split (fill d.typ names bcs)
    (fun x hx => by simp [fill, hpre x hx]) (fun x hx => by simp [fill, hpost x hx])]
  simp [fill]

theorem map_typ_map {l : List StateDescriptor} (g : StateDescriptor → StateDescriptor)
    (hg : ∀ d, (g d).typ = d.typ) :
    (l.map g).map (fun d => d.typ) = l.map (fun d => d.typ) := by
  rw [List.map_map]
  exact List.map_congr_left (fun d _ => hg d)

theorem upd_typ (typ : StateType) (comp : Nat) (nm : String) (bc : BCRec FillCode)
    (d : StateDescriptor) : (upd typ comp nm bc d).typ = d.typ := by
  unfold upd; split <;> rfl

theorem fill_typ (typ : StateType) (names : List String) (bcs : List (BCRec FillCode))
    (d : StateDescriptor) : (fill typ names bcs d).typ = d.typ := by
  unfold fill; split <;> rfl

theorem fillFirst_typ (typ : StateType) (n : Nat) (f : Nat → String) (bc : BCRec FillCode)
    (d : StateDescriptor) : (fillFirst typ n f bc d).typ = d.typ := by
  unfold fillFirst; split <;> rfl

/-! ## Phases as maps over the descriptors added at the start -/

theorem gentleOn_id (B : List StateDescriptor) : gentleOn B id :=
  fun _ _ => ⟨rfl, rfl, rfl⟩

theorem gentleOn_nodup {B : List StateDescriptor} {G : StateDescriptor → StateDescriptor}
    (hG : gentleOn B G) (hB : (B.map (fun d => d.typ)).Nodup) :
    ((B.map G).map (fun d => d.typ)).Nodup := by
  rw [List.map_map]
  have e : B.map ((fun d => d.typ) ∘ G) = B.map (fun d => d.typ) :=
    List.map_congr_left (fun d hd => (hG d hd).1)
  rw [e]
  exact hB

theorem gentleOn_upd {B : List StateDescriptor} {G : StateDescriptor → StateDescriptor}
    (hG : gentleOn B G) (typ : StateType) (comp : Nat) (nm : String) (bc : BCRec FillCode) :
    gentleOn B (upd typ comp nm bc ∘ G) := by
  intro d hd
  obtain ⟨h1, h2, h3⟩ := hG d hd
  simp only [Function.comp, upd]
  split <;> simp [h1, h2, h3]

theorem gentleOn_fill {B : List StateDescriptor} {G : StateDescriptor → StateDescriptor}
    (hG : gentleOn B G) (typ : StateType) (names : List String) (bcs : List (BCRec FillCode))
    (hn : ∀ d ∈ B, d.typ = typ → d.names.length = names.length ∧ d.bc.length = bcs.length) :
    gentleOn B (fill typ names bcs ∘ G) := by
  intro d hd
  obtain ⟨h1, h2, h3⟩ := hG d hd
  simp only [Function.comp, fill]
  split
  · rename_i ht
    rw [h1] at ht
    simp [h1, (hn d hd ht).1, (hn d hd ht).2]
  · exact ⟨h1, h2, h3⟩

theorem gentleOn_fillFirst {B : List StateDescriptor} {G : StateDescriptor → StateDescriptor}
    (hG : gentleOn B G) (typ : StateType) (n : Nat) (f : Nat → String) (bc : BCRec FillCode)
    (hn : ∀ d ∈ B, d.typ = typ → n ≤ d.names.length ∧ n ≤ d.bc.length) :
    gentleOn B (fillFirst typ n f bc ∘ G) := by
  intro d hd
  obtain ⟨h1, h2, h3⟩ := hG d hd
  simp only [Function.comp, fillFirst]
  split
  · rename_i ht
    rw [h1] at ht
    have := hn d hd ht
    simp [h1, h2, h3]
    omega
  · exact ⟨h1, h2, h3⟩

/-- One call of `setComponent` on a list that is the image of `B` under a gentle map. -/
theorem step_map {B : List StateDescriptor} (hB : (B.map (fun d => d.typ)).Nodup)
    {G : StateDescriptor → StateDescriptor} (hG : gentleOn B G) {d0 : StateDescriptor}
    (hd0 : d0 ∈ B) {comp : Nat} (h1 : comp < d0.names.length) (h2 : comp < d0.bc.length)
    (nm : String) (bc : BCRec FillCode) :
    setComponent (B.map G) d0.typ (comp : Int) nm bc
      = Except.ok (B.map (upd d0.typ comp nm bc ∘ G)) := by
  obtain ⟨g1, g2, g3⟩ := hG d0 hd0
  have := @setComponent_map _ (gentleOn_nodup hG hB) (G d0) (List.mem_map_of_mem G hd0)
    comp (by omega) (by omega) nm bc
  rw [g1, List.map_map] at this
  exact this

/-- The array form of `setComponent` on a list that is the image of `B` under a gentle
map. -/
theorem fill_map {B : List StateDescriptor} (hB : (B.map (fun d => d.typ)).Nodup)
    {G : StateDescriptor → StateDescriptor} (hG : gentleOn B G) {d0 : StateDescriptor}
    (hd0 : d0 ∈ B) (names : List String) (bcs : List (BCRec FillCode))
    (h1 : d0.names.length = names.length) (h2 : d0.bc.length = names.length)
    (h3 : bcs.length = names.length) :
    setComponents (B.map G) d0.typ 0 names bcs
      = Except.ok (B.map (fill d0.typ names bcs ∘ G)) := by
  obtain ⟨g1, g2, g3⟩ := hG d0 hd0
  have := setComponents_map (gentleOn_nodup hG hB) (d := G d0) (List.mem_map_of_mem G hd0)
    names bcs (by omega) (by omega) h3
  rw [g1, List.map_map] at this
  exact this

theorem set_at_end {α : Type} (xs : List α) (y : α) (ys : List α) (v : α) :
    (xs ++ y :: ys).set xs.length v = xs ++ v :: ys := by
  induction xs with
  | nil => rfl
  | cons x xs ih => simp [ih]

theorem prefix_step {α : Type} (new : List α) (v : α) (old : List α) (ho : new.length < old.length) :
    (new ++ old.drop new.length).set new.length v
      = (new ++ [v]) ++ old.drop (new.length + 1) := by
  rw [List.drop_eq_getElem_cons ho, set_at_end]
  simp

theorem upd_fillFirst (typ : StateType) (m : Nat) (f : Nat → String) (bc : BCRec FillCode)
    (x : StateDescriptor) (h1 : m < x.names.length) (h2 : m < x.bc.length) :
    upd typ m (f m) bc (fillFirst typ m f bc x) = fillFirst typ (m + 1) f bc x := by
  unfold upd fillFirst
  by_cases ht : x.typ = typ
  · simp only [ht, if_true]
    have e1 := prefix_step ((List.range m).map f) (f m) x.names (by simpa using h1)
    have e2 := prefix_step (List.replicate m bc) bc x.bc (by simpa using h2)
    simp only [List.length_map, List.length_range, List.length_replicate] at e1 e2
    rw [e1, e2]
    simp [List.range_succ, List.replicate_succ']
  · simp [ht]

/-- A loop that stores the names `f 0 .. f (n-1)` and the record `S` in the first `n`
components of one descriptor, with the record `bc` as second component of its state. -/
theorem pair_loop_map {B : List StateDescriptor} (hB : (B.map (fun d => d.typ)).Nodup)
    {G : StateDescriptor → StateDescriptor} (hG : gentleOn B G) {d0 : StateDescriptor}
    (hd0 : d0 ∈ B) (f : Nat → String) (S : BCRec FillCode)
    (body : List StateDescriptor × BCRec FillCode → Nat →
      Except Abort (List StateDescriptor × BCRec FillCode))
    (good : BCRec FillCode → Prop) (hS : good S)
    (n : Nat)
    (hbody : ∀ i < n, ∀ l b, good b →
      body (l, b) i = (setComponent l d0.typ (i : Int) (f i) S >>= fun l' => pure (l', S)))
    (h1 : n ≤ d0.names.length) (h2 : n ≤ d0.bc.length) (b0 : BCRec FillCode) (hb0 : good b0) :
    (List.range n).foldlM body (B.map G, b0)
      = Except.ok (B.map (fillFirst d0.typ n f S ∘ G), if n = 0 then b0 else S) := by
  induction n with
  | zero =>
    simp only [List.range_zero, List.foldlM_nil, pure, Except.pure, if_true]
    congr 2
    apply List.map_congr_left
    intro d _
    simp [fillFirst]
  | succ m ih =>
    have ih' := ih (fun i hi => hbody i (by omega)) (by omega) (by omega)
    rw [List.range_succ, List.foldlM_append, ih']
    simp only [ok_bind, List.foldlM_cons, List.foldlM_nil]
    have hgood : good (if m = 0 then b0 else S) := by split <;> assumption
    rw [hbody m (by omega) _ _ hgood]
    have hG' := gentleOn_fillFirst hG d0.typ m f S
      (fun d hd ht => by
        have hnd := hB
        obtain ⟨pre, post, rfl, hpre, hpost⟩ := split_at_typ hB hd0
        have : d = d0 := by
          rcases List.mem_append.mp hd with hd | hd
          · exact absurd ht (hpre d hd)
          · rcases List.mem_cons.mp hd with hd | hd
            · exact hd
            · exact absurd ht (hpost d hd)
        subst this
        exact ⟨by omega, by omega⟩)
    rw [step_map hB hG' hd0 (by omega) (by omega)]
    simp only [ok_bind, pure, Except.pure, Nat.succ_ne_zero, if_false]
    congr 2
    apply List.map_congr_left
    intro d hd
    simp only [Function.comp]
    by_cases ht : (G d).typ = d0.typ
    · have hdt : d.typ = d0.typ := by rw [← (hG d hd).1]; exact ht
      obtain ⟨pre, post, rfl, hpre, hpost⟩ := split_at_typ hB hd0
      have : d = d0 := by
        rcases List.mem_append.mp hd with hd | hd
        · exact absurd hdt (hpre d hd)
        · rcases List.mem_cons.mp hd with hd | hd
          · exact hd
          · exact absurd hdt (hpost d hd)
      subst this
      obtain ⟨-, g2, g3⟩ := hG d hd
      exact upd_fillFirst d.typ m f S (G d) (by omega) (by omega)
    · simp [upd, fillFirst, ht]

theorem eq_of_typ {B : List StateDescriptor} (hB : (B.map (fun d => d.typ)).Nodup)
    {d d0 : StateDescriptor} (hd : d ∈ B) (hd0 : d0 ∈ B) (ht : d.typ = d0.typ) : d = d0 := by
  obtain ⟨pre, post, rfl, hpre, hpost⟩ := split_at_typ hB hd0
  rcases List.mem_append.mp hd with hd | hd
  · exact absurd ht (hpre d hd)
  · rcases List.mem_cons.mp hd with hd | hd
    · exact hd
    · exact absurd ht (hpost d hd)

theorem step_map' {B : List StateDescriptor} (hB : (B.map (fun d => d.typ)).Nodup)
    {G : StateDescriptor → StateDescriptor} (hG : gentleOn B G) {d0 : StateDescriptor}
    (hd0 : d0 ∈ B) (typ : StateType) (ht : d0.typ = typ) {comp : Int} (c : Nat)
    (hc : comp = (c : Int)) (h1 : c < d0.names.length) (h2 : c < d0.bc.length)
    (nm : String) (bc : BCRec FillCode) :
    setComponent (B.map G) typ comp nm bc = Except.ok (B.map (upd typ c nm bc ∘ G)) := by
  subst ht hc
  exact step_map hB hG hd0 h1 h2 nm bc

theorem base_nodup (cfg : Config) (s : Castro) (interp : Interpolater) :
    ((descriptorsAdded cfg s interp).map (fun d => d.typ)).Nodup := by
  unfold descriptorsAdded
  cases cfg.SELF_GRAVITY <;> cases cfg.ROTATION <;> cases cfg.REACTIONS <;> cases cfg.SDC <;>
    simp [StateDescriptor.define]

theorem nameGravity_map {cfg : Config} (s : Castro) (interp : Interpolater)
    (hdim : 1 ≤ cfg.BL_SPACEDIM ∧ cfg.BL_SPACEDIM ≤ 3)
    (hp : validPhys cfg.BL_SPACEDIM cfg.phys_bc)
    {G : StateDescriptor → StateDescriptor}
    (hG : gentleOn (descriptorsAdded cfg s interp) G) {bc : BCRec FillCode}
    (hbc : bc.sized cfg.BL_SPACEDIM) :
    nameGravity cfg bc ((descriptorsAdded cfg s interp).map G)
      = Except.ok ((descriptorsAdded cfg s interp).map (gravityMap cfg ∘ G),
          if cfg.SELF_GRAVITY then velRec 2 cfg.phys_bc else bc) ∧
    gentleOn (descriptorsAdded cfg s interp) (gravityMap cfg ∘ G) := by
  have hB := base_nodup cfg s interp
  unfold nameGravity gravityMap
  cases hf : cfg.SELF_GRAVITY
  · simp only [Bool.false_eq_true, if_false, Function.id_comp]
    exact ⟨rfl, hG⟩
  · simp only [if_true]
    have m1 : StateDescriptor.define cfg.BL_SPACEDIM StateType.PhiGrav_Type 1 1
        Interpolater.cell_cons_interp false true ∈ descriptorsAdded cfg s interp := by
      simp [descriptorsAdded, hf]
    have m2 : StateDescriptor.define cfg.BL_SPACEDIM StateType.Gravity_Type s.NUM_GROW 3
        Interpolater.cell_cons_interp false false ∈ descriptorsAdded cfg s interp := by
      simp [descriptorsAdded, hf]
    have g1 := gentleOn_upd hG StateType.PhiGrav_Type 0 "phiGrav" (scalarRec cfg.phys_bc)
    have g2 := gentleOn_upd g1 StateType.Gravity_Type 0 "grav_x" (velRec 0 cfg.phys_bc)
    have g3 := gentleOn_upd g2 StateType.Gravity_Type 1 "grav_y" (velRec 1 cfg.phys_bc)
    have g4 := gentleOn_upd g3 StateType.Gravity_Type 2 "grav_z" (velRec 2 cfg.phys_bc)
    refine ⟨?_, g4⟩
    rw [set_scalar_bc_eq hdim hbc hp]
    simp only [ok_bind]
    rw [step_map' hB hG m1 StateType.PhiGrav_Type rfl 0 (by simp) (by simp [StateDescriptor.define])
      (by simp [StateDescriptor.define])]
    simp only [ok_bind]
    rw [set_x_vel_bc_eq hdim (scalarRec_sized hp) hp]
    simp only [ok_bind]
    rw [step_map' hB g1 m2 StateType.Gravity_Type rfl 0 (by simp) (by simp [StateDescriptor.define])
      (by simp [StateDescriptor.define])]
    simp only [ok_bind]
    rw [set_y_vel_bc_eq hdim (velRec_sized 0 hp) hp]
    simp only [ok_bind]
    rw [step_map' hB g2 m2 StateType.Gravity_Type rfl 1 (by simp) (by simp [StateDescriptor.define])
      (by simp [StateDescriptor.define])]
    simp only [ok_bind]
    rw [set_z_vel_bc_eq hdim (velRec_sized 1 hp) hp]
    simp only [ok_bind]
    rw [step_map' hB g3 m2 StateType.Gravity_Type rfl 2 (by simp) (by simp [StateDescriptor.define])
      (by simp [StateDescriptor.define])]
    rfl

theorem nameRotation_map {cfg : Config} (s : Castro) (interp : Interpolater)
    (hdim : 1 ≤ cfg.BL_SPACEDIM ∧ cfg.BL_SPACEDIM ≤ 3)
    (hp : validPhys cfg.BL_SPACEDIM cfg.phys_bc)
    {G : StateDescriptor → StateDescriptor}
    (hG : gentleOn (descriptorsAdded cfg s interp) G) {bc : BCRec FillCode}
    (hbc : bc.sized cfg.BL_SPACEDIM) :
    nameRotation cfg bc ((descriptorsAdded cfg s interp).map G)
      = Except.ok ((descriptorsAdded cfg s interp).map (rotationMap cfg ∘ G),
          if cfg.ROTATION then velRec 2 cfg.phys_bc else bc) ∧
    gentleOn (descriptorsAdded cfg s interp) (rotationMap cfg ∘ G) := by
  have hB := base_nodup cfg s interp
  unfold nameRotation rotationMap
  cases hf : cfg.ROTATION
  · simp only [Bool.false_eq_true, if_false, Function.id_comp]
    exact ⟨rfl, hG⟩
  · simp only [if_true]
    have m1 : StateDescriptor.define cfg.BL_SPACEDIM StateType.PhiRot_Type 1 1
        Interpolater.cell_cons_interp false false ∈ descriptorsAdded cfg s interp := by
      simp [descriptorsAdded, hf]
    have m2 : StateDescriptor.define cfg.BL_SPACEDIM StateType.Rotation_Type s.NUM_GROW 3
        Interpolater.cell_cons_interp false false ∈ descriptorsAdded cfg s interp := by
      simp [descriptorsAdded, hf]
    have g1 := gentleOn_upd hG StateType.PhiRot_Type 0 "phiRot" (scalarRec cfg.phys_bc)
    have g2 := gentleOn_upd g1 StateType.Rotation_Type 0 "rot_x" (velRec 0 cfg.phys_bc)
    have g3 := gentleOn_upd g2 StateType.Rotation_Type 1 "rot_y" (velRec 1 cfg.phys_bc)
    have g4 := gentleOn_upd g3 StateType.Rotation_Type 2 "rot_z" (velRec 2 cfg.phys_bc)
    refine ⟨?_, g4⟩
    rw [set_scalar_bc_eq hdim hbc hp]
    simp only [ok_bind]
    rw [step_map' hB hG m1 StateType.PhiRot_Type rfl 0 (by simp)
      (by simp [StateDescriptor.define]) (by simp [StateDescriptor.define])]
    simp only [ok_bind]
    rw [set_x_vel_bc_eq hdim (scalarRec_sized hp) hp]
    simp only [ok_bind]
    rw [step_map' hB g1 m2 StateType.Rotation_Type rfl 0 (by simp)
      (by simp [StateDescriptor.define]) (by simp [StateDescriptor.define])]
    simp only [ok_bind]
    rw [set_y_vel_bc_eq hdim (velRec_sized 0 hp) hp]
    simp only [ok_bind]
    rw [step_map' hB g2 m2 StateType.Rotation_Type rfl 1 (by simp)
      (by simp [StateDescriptor.define]) (by simp [StateDescriptor.define])]
    simp only [ok_bind]
    rw [set_z_vel_bc_eq hdim (velRec_sized 1 hp) hp]
    simp only [ok_bind]
    rw [step_map' hB g3 m2 StateType.Rotation_Type rfl 2 (by simp)
      (by simp [StateDescriptor.define]) (by simp [StateDescriptor.define])]
    rfl

/-- The loops that build `state_type_source_names` from `name`. -/
theorem rename_loop (g : String → String) (name arr0 : List String) (m : Nat)
    (h1 : m ≤ name.length) (h2 : m ≤ arr0.length) :
    (List.range m).foldlM
        (fun arr (i : Nat) => do
          let nm ← subscript name i
          assign arr i (g nm))
        arr0
      = Except.ok ((name.map g).take m ++ arr0.drop m) := by
  induction m with
  | zero => simp; rfl
  | succ m ih =>
    rw [List.range_succ, List.foldlM_append, ih (by omega) (by omega)]
    simp only [ok_bind, List.foldlM_cons, List.foldlM_nil]
    have hm : m < name.length := by omega
    rw [subscript_of_get? (List.getElem?_eq_getElem hm)]
    simp only [ok_bind]
    have hm' : m < (name.map g).length := by simpa using hm
    have := take_append_drop_step (name.map g) arr0 hm' (by omega)
    simp only [List.getElem_map] at this
    rw [this]
    rfl

theorem rename_all (g : String → String) (name arr0 : List String)
    (h : arr0.length = name.length) :
    (List.range name.length).foldlM
        (fun arr (i : Nat) => do
          let nm ← subscript name i
          assign arr i (g nm))
        arr0
      = Except.ok (name.map g) := by
  rw [rename_loop g name arr0 name.length (le_refl _) (by omega)]
  have e1 : (name.map g).take name.length = name.map g := by
    rw [List.take_of_length_le (by simp)]
  have e2 : arr0.drop name.length = [] := by
    rw [← h, List.drop_length]
  rw [e1, e2, List.append_nil]

theorem nameSource_map {cfg : Config} (s : Castro) (interp : Interpolater)
    {G : StateDescriptor → StateDescriptor}
    (hG : gentleOn (descriptorsAdded cfg s interp) G)
    (hN : s.NUM_STATE.toNat = (stateNameList cfg s).length) (hD : s.Density = 0) :
    nameSource s (stateNameList cfg s) (stateBcList cfg s)
        ((descriptorsAdded cfg s interp).map G)
      = Except.ok ((descriptorsAdded cfg s interp).map (sourceMap cfg s ∘ G),
          (stateNameList cfg s).map (fun nm => nm ++ "_source")) ∧
    gentleOn (descriptorsAdded cfg s interp) (sourceMap cfg s ∘ G) := by
  have hB := base_nodup cfg s interp
  have m1 : StateDescriptor.define cfg.BL_SPACEDIM StateType.Source_Type s.NUM_GROW s.NUM_STATE
      Interpolater.cell_cons_interp false true ∈ descriptorsAdded cfg s interp := by
    simp [descriptorsAdded]
  have hg : gentleOn (descriptorsAdded cfg s interp) (sourceMap cfg s ∘ G) := by
    refine gentleOn_fill hG _ _ _ (fun d hd ht => ?_)
    have := eq_of_typ hB hd m1 (by rw [ht]; rfl)
    subst this
    simp [StateDescriptor.define, hN, stateBcList_length]
  refine ⟨?_, hg⟩
  unfold nameSource
  rw [hN, rename_all _ _ _ (by simp), hD]
  simp only [ok_bind]
  have := fill_map hB hG m1 ((stateNameList cfg s).map (fun nm => nm ++ "_source"))
    (stateBcList cfg s) (by simp [StateDescriptor.define, hN])
    (by simp [StateDescriptor.define, hN]) (by simp [stateBcList_length])
  simp only [StateDescriptor.define] at this
  rw [this]
  rfl

theorem bcAfterRotation_sized {cfg : Config} (hp : validPhys cfg.BL_SPACEDIM cfg.phys_bc) :
    (bcAfterRotation cfg).sized cfg.BL_SPACEDIM := by
  unfold bcAfterRotation
  split
  · exact velRec_sized 2 hp
  · exact scalarRec_sized hp

theorem nameReactions_map {cfg : Config} (s : Castro) (interp : Interpolater)
    (hdim : 1 ≤ cfg.BL_SPACEDIM ∧ cfg.BL_SPACEDIM ≤ 3)
    (hp : validPhys cfg.BL_SPACEDIM cfg.phys_bc)
    {G : StateDescriptor → StateDescriptor}
    (hG : gentleOn (descriptorsAdded cfg s interp) G)
    (h0 : cfg.REACTIONS = true → 0 ≤ s.NumSpec) :
    nameReactions cfg s (bcAfterRotation cfg) ((descriptorsAdded cfg s interp).map G)
      = Except.ok ((descriptorsAdded cfg s interp).map (reactionsMap cfg s ∘ G),
          bcAfterReactions cfg s) ∧
    gentleOn (descriptorsAdded cfg s interp) (reactionsMap cfg s ∘ G) := by
  have hB := base_nodup cfg s interp
  unfold nameReactions reactionsMap bcAfterReactions
  cases hf : cfg.REACTIONS
  · simp only [Bool.false_eq_true, if_false, Function.id_comp]
    exact ⟨rfl, hG⟩
  · simp only [if_true]
    have hn := h0 hf
    have m1 : StateDescriptor.define cfg.BL_SPACEDIM StateType.Reactions_Type 0 (s.NumSpec + 2)
        Interpolater.cell_cons_interp false true ∈ descriptorsAdded cfg s interp := by
      simp [descriptorsAdded, hf]
    have hlen : (s.NumSpec + 2).toNat = s.NumSpec.toNat + 2 := by omega
    have g1 := gentleOn_fillFirst hG StateType.Reactions_Type s.NumSpec.toNat
      (fun i => "omegadot_" ++ cfg.ca_get_spec_names i) (scalarRec cfg.phys_bc)
      (fun d hd ht => by
        have := eq_of_typ hB hd m1 (by rw [ht]; rfl)
        subst this
        simp [StateDescriptor.define, hlen])
    have g2 := gentleOn_upd g1 StateType.Reactions_Type s.NumSpec.toNat "enuc" (bcAtEnuc cfg s)
    have g3 := gentleOn_upd g2 StateType.Reactions_Type (s.NumSpec.toNat + 1) "rho_enuc"
      (bcAtEnuc cfg s)
    refine ⟨?_, g3⟩
    have hloop := pair_loop_map hB hG m1 (fun i => "omegadot_" ++ cfg.ca_get_spec_names i)
      (scalarRec cfg.phys_bc)
      (fun (p : List StateDescriptor × BCRec FillCode) (i : Nat) => do
        let bc ← set_scalar_bc cfg.BL_SPACEDIM p.2 cfg.phys_bc
        let nm ← subscript (spec_names cfg s) i
        let name_react := "omegadot_" ++ nm
        let desc_lst ← setComponent p.1 StateType.Reactions_Type i name_react bc
        pure (desc_lst, bc))
      (fun b => b.sized cfg.BL_SPACEDIM) (scalarRec_sized hp) s.NumSpec.toNat
      (fun i hi l b hb => by
        simp only [set_scalar_bc_eq hdim hb hp, spec_names, subscript_map_range _ hi, ok_bind]
        rfl)
      (by simp [StateDescriptor.define, hlen]) (by simp [StateDescriptor.define, hlen])
      (bcAfterRotation cfg) (bcAfterRotation_sized hp)
    simp only [StateDescriptor.define] at hloop
    rw [hloop]
    simp only [ok_bind]
    have hb : (if s.NumSpec.toNat = 0 then bcAfterRotation cfg else scalarRec cfg.phys_bc)
        = bcAtEnuc cfg s := rfl
    rw [hb]
    rw [step_map' hB g1 m1 StateType.Reactions_Type rfl s.NumSpec.toNat (by omega)
      (by simp [StateDescriptor.define, hlen]) (by simp [StateDescriptor.define, hlen])]
    simp only [ok_bind]
    rw [step_map' hB g2 m1 StateType.Reactions_Type rfl (s.NumSpec.toNat + 1)
      (by push_cast; omega)
      (by simp [StateDescriptor.define, hlen]) (by simp [StateDescriptor.define, hlen])]
    rfl

theorem bcAfterReactions_sized {cfg : Config} (s : Castro)
    (hp : validPhys cfg.BL_SPACEDIM cfg.phys_bc) :
    (bcAfterReactions cfg s).sized cfg.BL_SPACEDIM := by
  unfold bcAfterReactions bcAtEnuc
  split
  · split
    · exact bcAfterRotation_sized hp
    · exact scalarRec_sized hp
  · exact bcAfterRotation_sized hp

theorem nameSDC_map {cfg : Config} (s : Castro) (interp : Interpolater)
    (hdim : 1 ≤ cfg.BL_SPACEDIM ∧ cfg.BL_SPACEDIM ≤ 3)
    (hp : validPhys cfg.BL_SPACEDIM cfg.phys_bc)
    {G : StateDescriptor → StateDescriptor}
    (hG : gentleOn (descriptorsAdded cfg s interp) G)
    (hN : s.NUM_STATE.toNat = (stateNameList cfg s).length) (hD : s.Density = 0) :
    nameSDC cfg s (bcAfterReactions cfg s) (stateNameList cfg s) (stateBcList cfg s)
        ((stateNameList cfg s).map (fun nm => nm ++ "_source"))
        ((descriptorsAdded cfg s interp).map G)
      = Except.ok ((descriptorsAdded cfg s interp).map (sdcMap cfg s ∘ G), bcAfterSDC cfg s) ∧
    gentleOn (descriptorsAdded cfg s interp) (sdcMap cfg s ∘ G) := by
  have hB := base_nodup cfg s interp
  unfold nameSDC sdcMap bcAfterSDC
  cases hf : cfg.SDC
  · simp only [Bool.false_eq_true, if_false, Function.id_comp, Bool.false_and]
    exact ⟨rfl, hG⟩
  · simp only [if_true, Bool.true_and]
    have m1 : StateDescriptor.define cfg.BL_SPACEDIM StateType.SDC_Source_Type s.NUM_GROW
        s.NUM_STATE Interpolater.cell_cons_interp false true ∈ descriptorsAdded cfg s interp := by
      simp [descriptorsAdded, hf]
    have g1 : gentleOn (descriptorsAdded cfg s interp)
        (fill StateType.SDC_Source_Type
          ((stateNameList cfg s).map (fun nm => "sdc_sources_" ++ nm)) (stateBcList cfg s) ∘ G) := by
      refine gentleOn_fill hG _ _ _ (fun d hd ht => ?_)
      have := eq_of_typ hB hd m1 (by rw [ht]; rfl)
      subst this
      simp [StateDescriptor.define, hN, stateBcList_length]
    rw [hN, rename_all _ _ _ (by simp), hD]
    simp only [ok_bind]
    have hfill := fill_map hB hG m1 ((stateNameList cfg s).map (fun nm => "sdc_sources_" ++ nm))
      (stateBcList cfg s) (by simp [StateDescriptor.define, hN])
      (by simp [StateDescriptor.define, hN]) (by simp [stateBcList_length])
    simp only [StateDescriptor.define] at hfill
    rw [hfill]
    simp only [ok_bind]
    cases hr : cfg.REACTIONS
    · simp only [Bool.false_eq_true, if_false, Function.id_comp, Bool.false_and]
      exact ⟨rfl, g1⟩
    · simp only [if_true, Bool.true_and]
      have m2 : StateDescriptor.define cfg.BL_SPACEDIM StateType.SDC_React_Type s.NUM_GROW
          s.QVAR Interpolater.cell_cons_interp false true ∈ descriptorsAdded cfg s interp := by
        simp [descriptorsAdded, hf, hr]
      have g2 := gentleOn_fillFirst g1 StateType.SDC_React_Type s.QVAR.toNat
        (fun i => "sdc_react_source_" ++ toString i) (scalarRec cfg.phys_bc)
        (fun d hd ht => by
          have := eq_of_typ hB hd m2 (by rw [ht]; rfl)
          subst this
          simp [StateDescriptor.define])
      refine ⟨?_, g2⟩
      have hloop := pair_loop_map hB g1 m2 (fun i => "sdc_react_source_" ++ toString i)
        (scalarRec cfg.phys_bc)
        (fun (p : List StateDescriptor × BCRec FillCode) (i : Nat) => do
          let bc ← set_scalar_bc cfg.BL_SPACEDIM p.2 cfg.phys_bc
          let desc_lst ← setComponent p.1 StateType.SDC_React_Type i
            ("sdc_react_source_" ++ toString i) bc
          pure (desc_lst, bc))
        (fun b => b.sized cfg.BL_SPACEDIM) (scalarRec_sized hp) s.QVAR.toNat
        (fun i hi l b hb => by
          simp only [set_scalar_bc_eq hdim hb hp, ok_bind]
          rfl)
        (by simp [StateDescriptor.define]) (by simp [StateDescriptor.define])
        (bcAfterReactions cfg s) (bcAfterReactions_sized s hp)
      simp only [StateDescriptor.define] at hloop
      rw [hloop]
      congr 2
      by_cases hq : s.QVAR.toNat = 0 <;> simp [hq]

/-! ## The derived catalogue -/

theorem attach_names (L : List DeriveRec) (name : String) (comps : List StateRange) :
    derivedNames (attach L name comps) = derivedNames L := by
  induction L with
  | nil => rfl
  | cons r rs ih =>
    unfold attach
    split
    · simp [derivedNames]
    · simp only [derivedNames, List.map_cons] at ih ⊢
      rw [ih]

theorem attach_nil (L : List DeriveRec) (name : String) : attach L name [] = L := by
  induction L with
  | nil => rfl
  | cons r rs ih =>
    unfold attach
    split
    · simp
    · rw [ih]

theorem attach_attach (L : List DeriveRec) (name : String) (c1 c2 : List StateRange) :
    attach (attach L name c1) name c2 = attach L name (c1 ++ c2) := by
  induction L with
  | nil => rfl
  | cons r rs ih =>
    by_cases h : r.derive_name = name
    · simp [attach, h]
    · simp [attach, h, ih]

theorem addComponent_eq {L : List DeriveRec} {name : String} (h : name ∈ derivedNames L)
    (typ : StateType) (sc nc : Int) :
    addComponent L name typ sc nc = Except.ok (attach L name [⟨typ, sc, nc⟩]) := by
  induction L with
  | nil => simp [derivedNames] at h
  | cons r rs ih =>
    by_cases hr : r.derive_name = name
    · simp [addComponent, attach, hr]
    · have h' : name ∈ derivedNames rs := by
        simp only [derivedNames, List.map_cons, List.mem_cons] at h
        rcases h with h | h
        · exact absurd h.symm hr
        · exact h
      rw [addComponent, if_neg hr, ih h']
      simp [attach, hr, ok_bind, pure, Except.pure]

theorem addComponents_eq (name : String) (comps : List StateRange) :
    ∀ L : List DeriveRec, name ∈ derivedNames L →
      comps.foldlM (fun lst r => addComponent lst name r.typ r.sc r.nc) L
        = Except.ok (attach L name comps) := by
  induction comps with
  | nil =>
    intro L _
    simp [attach_nil, pure, Except.pure]
  | cons c cs ih =>
    intro L hL
    rw [List.foldlM_cons, addComponent_eq hL]
    simp only [ok_bind]
    rw [ih _ (by rw [attach_names]; exact hL), attach_attach]
    rfl

theorem add_names (L : List DeriveRec) (name : String) (nvar : Int) (bx : DeriveBoxMap) :
    derivedNames (add L name nvar bx) = derivedNames L ++ [name] := by
  simp [derivedNames, add]

theorem run_eq (L : List DeriveRec) (b : DeriveBlock) :
    DeriveBlock.run L b = Except.ok (runPure L b) := by
  unfold DeriveBlock.run runPure
  exact addComponents_eq _ _ _ (by simp [add_names])

theorem runBlocks_eq (bs : List DeriveBlock) :
    ∀ L : List DeriveRec, runBlocks L bs = Except.ok (bs.foldl runPure L) := by
  unfold runBlocks
  induction bs with
  | nil => intro L; rfl
  | cons b bs ih =>
    intro L
    rw [List.foldlM_cons, run_eq]
    simp only [ok_bind, List.foldl_cons]
    exact ih _

theorem runPure_names (L : List DeriveRec) (b : DeriveBlock) :
    derivedNames (runPure L b) = derivedNames L ++ [b.name] := by
  unfold runPure
  rw [attach_names, add_names]

theorem foldl_runPure_names (bs : List DeriveBlock) :
    ∀ L : List DeriveRec,
      derivedNames (bs.foldl runPure L) = derivedNames L ++ bs.map (fun b => b.name) := by
  induction bs with
  | nil => intro L; simp
  | cons b bs ih =>
    intro L
    rw [List.foldl_cons, ih, runPure_names]
    simp

theorem attach_fresh (L : List DeriveRec) (r : DeriveRec) (comps : List StateRange)
    (h : r.derive_name ∉ derivedNames L) :
    attach (L ++ [r]) r.derive_name comps = L ++ [{ r with rng := r.rng ++ comps }] := by
  induction L with
  | nil => simp [attach]
  | cons x xs ih =>
    simp only [derivedNames, List.map_cons, List.mem_cons, not_or] at h
    have hx : ¬ x.derive_name = r.derive_name := fun e => h.1 e.symm
    rw [List.cons_append, attach, if_neg hx, ih (by simpa [derivedNames] using h.2)]
    rfl

theorem attach_mem_other {L : List DeriveRec} {r : DeriveRec} (hr : r ∈ L) {name : String}
    (hne : r.derive_name ≠ name) (comps : List StateRange) : r ∈ attach L name comps := by
  induction L with
  | nil => simp at hr
  | cons x xs ih =>
    unfold attach
    rcases List.mem_cons.mp hr with rfl | hr
    · simp [hne]
    · split
      · exact List.mem_cons_of_mem _ hr
      · exact List.mem_cons_of_mem _ (ih hr)

theorem runPure_mem_other {L : List DeriveRec} {r : DeriveRec} (hr : r ∈ L)
    {b : DeriveBlock} (hne : r.derive_name ≠ b.name) : r ∈ runPure L b := by
  unfold runPure
  exact attach_mem_other (by simp [add, hr]) hne _

theorem foldl_runPure_mem_other (bs : List DeriveBlock) :
    ∀ (L : List DeriveRec) (r : DeriveRec), r ∈ L →
      (∀ b ∈ bs, r.derive_name ≠ b.name) → r ∈ bs.foldl runPure L := by
  induction bs with
  | nil => intro L r hr _; exact hr
  | cons b bs ih =>
    intro L r hr hne
    rw [List.foldl_cons]
    exact ih _ r (runPure_mem_other hr (hne b (by simp)))
      (fun b' hb' => hne b' (by simp [hb']))

/-- A block whose name no other block and no earlier record carries leaves a record with
exactly its own ranges. -/
theorem foldl_runPure_mem {L : List DeriveRec} {pre post : List DeriveBlock}
    {b : DeriveBlock} (hL : b.name ∉ derivedNames L)
    (hpre : ∀ x ∈ pre, x.name ≠ b.name) (hpost : ∀ x ∈ post, x.name ≠ b.name) :
    (⟨b.name, b.nvar, b.bx_map, b.comps⟩ : DeriveRec)
      ∈ (pre ++ b :: post).foldl runPure L := by
  rw [List.foldl_append, List.foldl_cons]
  apply foldl_runPure_mem_other
  · have hn : b.name ∉ derivedNames (pre.foldl runPure L) := by
      rw [foldl_runPure_names]
      simp only [List.mem_append, List.mem_map, not_or, not_exists, not_and]
      exact ⟨hL, fun x hx => hpre x hx⟩
    have := attach_fresh (pre.foldl runPure L)
      ⟨b.name, b.nvar, b.bx_map, []⟩ b.comps hn
    simp only [List.nil_append] at this
    show _ ∈ attach (pre.foldl runPure L ++ [⟨b.name, b.nvar, b.bx_map, []⟩]) b.name b.comps
    rw [this]
    simp
  · intro x hx
    exact fun e => hpost x hx e.symm

theorem errorIf_ok_iff (cond : Prop) [Decidable cond] (msg : String) (u : Unit) :
    errorIf cond msg = Except.ok u ↔ ¬ cond := by
  unfold errorIf
  split <;> simp [*]

theorem magvort_eq (L : List DeriveRec) (s : Castro) :
    addComponent (add L "magvort" 1 DeriveBoxMap.grow_box_by_one) "magvort"
        StateType.State_Type s.Density 4
      = Except.ok (runPure L (magvortBlock s)) := by
  rw [addComponent_eq (by simp [add_names])]
  rfl

theorem deriveNeutrinoGroups_inv {cfg : Config} {L L' : List DeriveRec}
    (h : deriveNeutrinoGroups cfg L = Except.ok L') :
    ∃ nb : List DeriveBlock, L' = nb.foldl runPure L ∧ ∀ b ∈ nb, neutrinoBlock b := by
  unfold deriveNeutrinoGroups at h
  split at h
  · refine neutrinoLoop_invariant
      (fun l => ∃ nb : List DeriveBlock, l = nb.foldl runPure L ∧ ∀ b ∈ nb, neutrinoBlock b) ?_
      ⟨[], rfl, by simp⟩ h
    intro a j i indx b ⟨nb, ha, hnb⟩ hb
    simp only [bind_ok_iff] at hb
    obtain ⟨nm, hnm, hb⟩ := hb
    rw [addComponent_eq (by simp [add_names])] at hb
    cases hb
    have hnm' : nm = "Neuts" ++ toString j ++ "g" ++ toString i := by
      unfold sprintf at hnm
      split at hnm
      · cases hnm; rfl
      · cases hnm
    refine ⟨nb ++ [⟨nm, 1, DeriveBoxMap.the_same_box, [⟨StateType.Rad_Type, indx, 1⟩]⟩], ?_, ?_⟩
    · rw [List.foldl_append, ← ha]
      rfl
    · intro b hb
      rcases List.mem_append.mp hb with hb | hb
      · exact hnb b hb
      · simp only [List.mem_singleton] at hb
        subst hb
        exact ⟨rfl, rfl, j, i, indx, hnm', rfl⟩
  · rw [pure_ok_iff] at h
    subst h
    exact ⟨[], rfl, fun b hb => absurd hb (List.not_mem_nil b)⟩

theorem deriveNeutrino_inv {cfg : Config} {s : Castro} {L L' : List DeriveRec}
    (h : deriveNeutrino cfg s L = Except.ok L') :
    ∃ nb lb : List DeriveBlock, L' = (nb ++ lb).foldl runPure L ∧
      (∀ b ∈ nb, neutrinoBlock b) ∧
      (lb = [] ∨ lb = leptonBlocks cfg s) ∧ (cfg.NEUTRINO = false → nb = [] ∧ lb = []) := by
  unfold deriveNeutrino at h
  split at h
  · rename_i hN
    simp only [bind_ok_iff] at h
    obtain ⟨L1, h1, en, -, h2⟩ := h
    obtain ⟨nb, rfl, hnb⟩ := deriveNeutrinoGroups_inv h1
    rw [runBlocks_eq] at h2
    cases h2
    refine ⟨nb, if en = true then leptonBlocks cfg s else [], ?_, hnb, ?_, ?_⟩
    · rw [List.foldl_append]
    · cases en <;> simp
    · intro hf
      rw [hf] at hN
      cases hN
  · simp only [pure_ok_iff] at h
    subst h
    exact ⟨[], [], rfl, by simp, Or.inl rfl, fun _ => ⟨rfl, rfl⟩⟩

/-- The catalogue of a completed `defineDerived` is the result of running its blocks in
order. -/
theorem defineDerived_inv {cfg : Config} {s : Castro} {L dl : List DeriveRec}
    (h : defineDerived cfg s L = Except.ok dl) :
    ∃ nb lb : List DeriveBlock, dl = (allBlocks cfg s (nb ++ lb)).foldl runPure L ∧
      (∀ b ∈ nb, neutrinoBlock b) ∧ (lb = [] ∨ lb = leptonBlocks cfg s) ∧
      (cfg.NEUTRINO = false → nb = [] ∧ lb = []) ∧ s.Xmom = s.Density + 1 := by
  unfold defineDerived at h
  simp only [bind_ok_iff, runBlocks_eq, magvort_eq] at h
  obtain ⟨L1, h1, u, hu, L2, h2, L3, h3, L4, h4, h5⟩ := h
  cases h1
  cases h2
  cases h3
  cases h5
  obtain ⟨nb, lb, rfl, hnb, hlb, hoff⟩ := deriveNeutrino_inv h4
  refine ⟨nb, lb, ?_, hnb, hlb, hoff, ?_⟩
  · simp only [allBlocks, List.foldl_append, List.foldl_cons, List.foldl_nil]
  · have := (errorIf_ok_iff _ _ u).mp hu
    exact not_not.mp this

theorem defineDerived_ok {cfg : Config} {s : Castro} (L : List DeriveRec)
    (hX : s.Xmom = s.Density + 1) (hN : cfg.NEUTRINO = false) :
    defineDerived cfg s L = Except.ok ((allBlocks cfg s []).foldl runPure L) := by
  unfold defineDerived deriveNeutrino
  have he : errorIf (s.Xmom ≠ s.Density + 1)
      "We are assuming Xmom = Density + 1 in Castro_setup.cpp" = Except.ok () := by
    unfold errorIf
    rw [if_neg (by simp [hX])]
  simp only [runBlocks_eq, magvort_eq, ok_bind, he, hN, Bool.false_eq_true, if_false, pure,
    Except.pure]
  simp only [allBlocks, List.foldl_append, List.foldl_cons, List.foldl_nil, List.append_nil]

/-! ## A run without radiation in closed form -/

theorem base_not_late (cfg : Config) (s : Castro) (interp : Interpolater) :
    ∀ d ∈ descriptorsAdded cfg s interp,
      d.typ ≠ StateType.Knapsack_Weight_Type ∧ d.typ ≠ StateType.Rad_Type := by
  unfold descriptorsAdded
  cases cfg.SELF_GRAVITY <;> cases cfg.ROTATION <;> cases cfg.REACTIONS <;> cases cfg.SDC <;>
    simp [StateDescriptor.define]

theorem nameKnapsack_eq {cfg : Config} (s : Castro) (bc : BCRec FillCode)
    (L : List StateDescriptor) (hL : ∀ d ∈ L, d.typ ≠ StateType.Knapsack_Weight_Type) :
    nameKnapsack cfg s bc L
      = Except.ok (L ++ (if cfg.use_custom_knapsack_weights then
                          [knapsackDescriptor cfg.BL_SPACEDIM bc] else []),
          if cfg.use_custom_knapsack_weights then (L.length : Int)
          else s.Knapsack_Weight_Type) := by
  unfold nameKnapsack
  cases cfg.use_custom_knapsack_weights
  · simp [pure, Except.pure]
  · simp only [if_true, addDescriptor]
    rw [setComponent_at hL rfl]
    have a1 : assign (StateDescriptor.define cfg.BL_SPACEDIM StateType.Knapsack_Weight_Type 0 1
        Interpolater.pc_interp false true).names 0 "KnapsackWeight"
        = Except.ok ["KnapsackWeight"] := rfl
    have a2 : assign (StateDescriptor.define cfg.BL_SPACEDIM StateType.Knapsack_Weight_Type 0 1
        Interpolater.pc_interp false true).bc 0 bc = Except.ok [bc] := rfl
    simp only [a1, a2, ok_bind]
    rfl

theorem BL_ASSERT_ok {debug : Bool} {cond : Prop} [Decidable cond] {text : String}
    (h : debug = true → cond) : BL_ASSERT debug cond text = Except.ok () := by
  unfold BL_ASSERT
  rw [if_neg]
  rintro ⟨hd, hc⟩
  exact hc (h hd)

/-- A run without radiation completes, and its result is `finalState`. -/
theorem variableSetUp_eq {cfg : Config} {s : Castro} (hr : cfg.ready s)
    (hR : cfg.RADIATION = false) (hNu : cfg.NEUTRINO = false)
    (hdbg : cfg.DEBUG = true → cfg.state_nghost ≥ 0)
    (hspec : cfg.REACTIONS = true → 0 ≤ cfg.ca_get_num_spec) :
    Castro.variableSetUp cfg s = Except.ok (finalState cfg s) := by
  obtain ⟨hdim, hp, hs, hfit⟩ := hr
  obtain ⟨hD, hX, -, -, -, -, -, -, hNS, -, hL, hDL, -⟩ := assignIndices_fixed cfg s
  have hcount := assignIndices_count cfg s hfit
  unfold Castro.variableSetUp
  rw [BL_ASSERT_ok (by intro _; simp [hs]),
    BL_ASSERT_ok (by intro hd; simpa [ngrow_state, hR] using hdbg hd)]
  simp only [ok_bind]
  rw [nameState_eq cfg _ hdim hp _ (unset_sized _) hcount]
  simp only [ok_bind, Naming.filled, List.replicate_zero, List.append_nil]
  rw [hL, hs, addDescriptors_eq, List.nil_append, hD]
  have hB := base_nodup cfg (assignIndices cfg s) (chooseInterp cfg)
  have m0 : StateDescriptor.define cfg.BL_SPACEDIM StateType.State_Type (ngrow_state cfg)
      (assignIndices cfg s).NUM_STATE (chooseInterp cfg) false true
      ∈ descriptorsAdded cfg (assignIndices cfg s) (chooseInterp cfg) := by
    simp [descriptorsAdded]
  have hfill := fill_map hB (gentleOn_id _) m0 (stateNameList cfg (assignIndices cfg s))
    (stateBcList cfg (assignIndices cfg s)) (by simp [StateDescriptor.define, hcount])
    (by simp [StateDescriptor.define, hcount]) (stateBcList_length _ _)
  simp only [StateDescriptor.define, List.map_id, Function.comp_id] at hfill
  rw [hfill]
  simp only [ok_bind]
  have g0 : gentleOn (descriptorsAdded cfg (assignIndices cfg s) (chooseInterp cfg))
      (fill StateType.State_Type (stateNameList cfg (assignIndices cfg s))
        (stateBcList cfg (assignIndices cfg s))) := by
    have := gentleOn_fill (gentleOn_id (descriptorsAdded cfg (assignIndices cfg s)
      (chooseInterp cfg))) StateType.State_Type (stateNameList cfg (assignIndices cfg s))
      (stateBcList cfg (assignIndices cfg s)) (fun d hd ht => by
        have := eq_of_typ hB hd m0 (by rw [ht]; rfl)
        subst this
        simp [StateDescriptor.define, hcount, stateBcList_length])
    simpa using this
  obtain ⟨e1, g1⟩ := nameGravity_map (assignIndices cfg s) (chooseInterp cfg) hdim hp g0
    (scalarRec_sized hp)
  rw [e1]
  simp only [ok_bind]
  obtain ⟨e2, g2⟩ := @nameRotation_map cfg (assignIndices cfg s) (chooseInterp cfg) hdim hp _ g1
    (if cfg.SELF_GRAVITY then velRec 2 cfg.phys_bc else scalarRec cfg.phys_bc)
    (by split; exact velRec_sized 2 hp; exact scalarRec_sized hp)
  rw [e2]
  simp only [ok_bind]
  obtain ⟨e3, g3⟩ := nameSource_map (assignIndices cfg s) (chooseInterp cfg) g2 hcount hD
  rw [e3]
  simp only [ok_bind]
  have hbc : (if cfg.ROTATION then velRec 2 cfg.phys_bc
      else if cfg.SELF_GRAVITY then velRec 2 cfg.phys_bc else scalarRec cfg.phys_bc)
      = bcAfterRotation cfg := by
    unfold bcAfterRotation
    cases cfg.ROTATION <;> cases cfg.SELF_GRAVITY <;> rfl
  rw [hbc]
  obtain ⟨e4, g4⟩ := nameReactions_map (assignIndices cfg s) (chooseInterp cfg) hdim hp g3
    (by rw [hNS]; exact hspec)
  rw [e4]
  simp only [ok_bind]
  obtain ⟨e5, g5⟩ := nameSDC_map (assignIndices cfg s) (chooseInterp cfg) hdim hp g4 hcount hD
  rw [e5]
  simp only [ok_bind]
  unfold nameRadiation
  simp only [hR, Bool.false_eq_true, if_false, pure, Except.pure, ok_bind]
  rw [nameKnapsack_eq _ _ _ (by
    intro d hd
    obtain ⟨d', hd', rfl⟩ := List.mem_map.mp hd
    rw [(g5 d' hd').1]
    exact (base_not_late _ _ _ d' hd').1)]
  simp only [ok_bind]
  rw [defineDerived_ok _ (by
    show (assignIndices cfg s).Xmom = (assignIndices cfg s).Density + 1
    rw [hX, hD]; rfl) hNu]
  simp only [finalState, finalDescriptors, finalKnapsack, phasesMap, Castro.withDescriptors,
    Castro.withDerived, hDL, List.length_map]
  rfl

/-! ## Subscripts into the array of names -/

theorem subscript_append_left {α : Type} {l1 : List α} (l2 : List α) {k : Int} {v : α}
    (h : subscript l1 k = Except.ok v) : subscript (l1 ++ l2) k = Except.ok v := by
  unfold subscript at h ⊢
  split at h
  · cases h
  · rename_i hk
    rw [if_neg hk]
    split at h
    · rename_i w hw
      cases h
      have hlt : k.toNat < l1.length := by
        rcases Nat.lt_or_ge k.toNat l1.length with hlt | hge
        · exact hlt
        · rw [List.getElem?_eq_none hge] at hw
          cases hw
      rw [List.getElem?_append_left hlt, hw]
    · cases h

theorem subscript_append_right {α : Type} (l1 : List α) {l2 : List α} {k : Int} {i : Nat}
    (hk : k = ((l1.length + i : Nat) : Int)) {v : α} (h : l2[i]? = some v) :
    subscript (l1 ++ l2) k = Except.ok v := by
  subst hk
  apply subscript_of_get?
  rw [List.getElem?_append_right (by omega), Nat.add_sub_cancel_left, h]

theorem assignIndices_hybrid (cfg : Config) (s : Castro) (h : cfg.HYBRID_MOMENTUM = true) :
    (assignIndices cfg s).Rmom = 4 ∧ (assignIndices cfg s).Lmom = 5 ∧
    (assignIndices cfg s).Pmom = 6 := by
  unfold assignIndices
  rw [h]
  cases cfg.SHOCK_VAR <;> simp <;> split_ifs <;> simp

theorem stateNameList_fixed (cfg : Config) (s : Castro) :
    subscript (stateNameList cfg s) 0 = Except.ok "density" ∧
    subscript (stateNameList cfg s) 1 = Except.ok "xmom" ∧
    subscript (stateNameList cfg s) 2 = Except.ok "ymom" ∧
    subscript (stateNameList cfg s) 3 = Except.ok "zmom" ∧
    (cfg.HYBRID_MOMENTUM = true →
      subscript (stateNameList cfg s) 4 = Except.ok "rmom" ∧
      subscript (stateNameList cfg s) 5 = Except.ok "lmom" ∧
      subscript (stateNameList cfg s) 6 = Except.ok "pmom") ∧
    subscript (stateNameList cfg s) (4 + hybridCount cfg) = Except.ok "rho_E" ∧
    subscript (stateNameList cfg s) (5 + hybridCount cfg) = Except.ok "rho_e" ∧
    subscript (stateNameList cfg s) (6 + hybridCount cfg) = Except.ok "Temp" := by
  unfold stateNameList hybridCount
  cases cfg.HYBRID_MOMENTUM <;>
    simp only [Bool.false_eq_true, if_false, if_true, List.append_assoc, List.cons_append,
      List.nil_append, false_implies, true_implies] <;>
    refine ⟨rfl, rfl, rfl, rfl, ?_⟩ <;> simp [subscript]

theorem stateNameList_adv (cfg : Config) (s : Castro) {i : Nat} (hi : i < s.NumAdv.toNat) :
    subscript (stateNameList cfg s) (7 + hybridCount cfg + (i : Int))
      = Except.ok ("adv_" ++ toString i) := by
  unfold stateNameList
  refine subscript_append_left _ (subscript_append_left _ (subscript_append_left _
    (subscript_append_right _ (i := i) ?_ (by simp [hi]))))
  unfold hybridCount
  cases cfg.HYBRID_MOMENTUM <;> simp

theorem stateNameList_spec (cfg : Config) (s : Castro) {i : Nat} (hi : i < s.NumSpec.toNat) :
    subscript (stateNameList cfg s) (7 + hybridCount cfg + (s.NumAdv.toNat : Int) + (i : Int))
      = Except.ok ("rho_" ++ cfg.ca_get_spec_names i) := by
  unfold stateNameList
  refine subscript_append_left _ (subscript_append_left _
    (subscript_append_right _ (i := i) ?_ (by simp [hi])))
  unfold hybridCount
  cases cfg.HYBRID_MOMENTUM <;> simp <;> omega

theorem stateNameList_aux (cfg : Config) (s : Castro) {i : Nat} (hi : i < s.NumAux.toNat) :
    subscript (stateNameList cfg s)
        (7 + hybridCount cfg + (s.NumAdv.toNat : Int) + (s.NumSpec.toNat : Int) + (i : Int))
      = Except.ok ("rho_" ++ cfg.ca_get_aux_names i) := by
  unfold stateNameList
  refine subscript_append_left _ (subscript_append_right _ (i := i) ?_ (by simp [hi]))
  unfold hybridCount
  cases cfg.HYBRID_MOMENTUM <;> simp <;> omega

theorem stateNameList_shock (cfg : Config) (s : Castro) (h : cfg.SHOCK_VAR = true) :
    subscript (stateNameList cfg s)
        (7 + hybridCount cfg + (s.NumAdv.toNat : Int) + (s.NumSpec.toNat : Int)
          + (s.NumAux.toNat : Int))
      = Except.ok "Shock" := by
  unfold stateNameList
  refine subscript_append_right _ (i := 0) ?_ (by simp [h])
  unfold hybridCount
  cases cfg.HYBRID_MOMENTUM <;> simp <;> omega

/-! ## Claims on the translation tables and the assemblers -/

/-- C1: for each of the three tables and each of the six boundary types `Interior` ..
`NoSlipWall` the subscript is inside the table and yields the fill code of the spec's table:
`INT_DIR`, `EXT_DIR`, `FOEXTRAP` for the first three types in all tables, and for
`Symmetry`, `SlipWall`, `NoSlipWall` the code `REFLECT_EVEN` in `scalar_bc` and `tang_vel_bc`
and `REFLECT_ODD` in `norm_vel_bc`. -/
theorem C1_translation_tables :
    [Interior, Inflow, Outflow, Symmetry, SlipWall, NoSlipWall].map (subscript scalar_bc)
      = [Except.ok INT_DIR, Except.ok EXT_DIR, Except.ok FOEXTRAP, Except.ok REFLECT_EVEN,
          Except.ok REFLECT_EVEN, Except.ok REFLECT_EVEN] ∧
    [Interior, Inflow, Outflow, Symmetry, SlipWall, NoSlipWall].map (subscript norm_vel_bc)
      = [Except.ok INT_DIR, Except.ok EXT_DIR, Except.ok FOEXTRAP, Except.ok REFLECT_ODD,
          Except.ok REFLECT_ODD, Except.ok REFLECT_ODD] ∧
    [Interior, Inflow, Outflow, Symmetry, SlipWall, NoSlipWall].map (subscript tang_vel_bc)
      = [Except.ok INT_DIR, Except.ok EXT_DIR, Except.ok FOEXTRAP, Except.ok REFLECT_EVEN,
          Except.ok REFLECT_EVEN, Except.ok REFLECT_EVEN] := by
  refine ⟨?_, ?_, ?_⟩ <;> rfl

/-- C2: in a domain of one, two or three dimensions whose faces carry boundary types `0..5`,
`set_scalar_bc` returns a record that holds on every axis `i` what `scalar_bc` gives for the
two face types of axis `i` itself, and the velocity assembler with principal axis `P`
(`set_x_vel_bc`: 0, `set_y_vel_bc`: 1, `set_z_vel_bc`: 2) returns a record that holds on
axis `i` what `norm_vel_bc` (when `i = P`) or `tang_vel_bc` (when `i ≠ P`) gives for the two
face types of axis `i` itself. -/
theorem C2_assemblers_use_own_axis (dim : Nat) (hdim : 1 ≤ dim ∧ dim ≤ 3)
    (bc : BCRec FillCode) (hbc : bc.sized dim) (phys_bc : BCRec Int)
    (hp : validPhys dim phys_bc) :
    (∃ r, set_scalar_bc dim bc phys_bc = Except.ok r ∧
      ∀ i < dim, rowOn scalar_bc r phys_bc i) ∧
    (∃ r, set_x_vel_bc dim bc phys_bc = Except.ok r ∧
      ∀ i < dim, rowOn (if i = 0 then norm_vel_bc else tang_vel_bc) r phys_bc i) ∧
    (∃ r, set_y_vel_bc dim bc phys_bc = Except.ok r ∧
      ∀ i < dim, rowOn (if i = 1 then norm_vel_bc else tang_vel_bc) r phys_bc i) ∧
    (∃ r, set_z_vel_bc dim bc phys_bc = Except.ok r ∧
      ∀ i < dim, rowOn (if i = 2 then norm_vel_bc else tang_vel_bc) r phys_bc i) :=
  ⟨⟨_, set_scalar_bc_eq hdim hbc hp, fun _ hi => rowOn_scalarRec hp hi⟩,
   ⟨_, set_x_vel_bc_eq hdim hbc hp, fun _ hi => rowOn_velRec 0 hp hi⟩,
   ⟨_, set_y_vel_bc_eq hdim hbc hp, fun _ hi => rowOn_velRec 1 hp hi⟩,
   ⟨_, set_z_vel_bc_eq hdim hbc hp, fun _ hi => rowOn_velRec 2 hp hi⟩⟩

theorem samplePhys_valid : validPhys 3 samplePhys := by
  refine ⟨⟨rfl, rfl⟩, ?_, ?_⟩ <;> decide

/-- C2 at the three-dimensional domain `samplePhys`. -/
theorem C2_assemblers_use_own_axis_witness :
    (∃ r, set_scalar_bc 3 (BCRec.unset 3) samplePhys = Except.ok r ∧
      ∀ i < 3, rowOn scalar_bc r samplePhys i) ∧
    (∃ r, set_x_vel_bc 3 (BCRec.unset 3) samplePhys = Except.ok r ∧
      ∀ i < 3, rowOn (if i = 0 then norm_vel_bc else tang_vel_bc) r samplePhys i) ∧
    (∃ r, set_y_vel_bc 3 (BCRec.unset 3) samplePhys = Except.ok r ∧
      ∀ i < 3, rowOn (if i = 1 then norm_vel_bc else tang_vel_bc) r samplePhys i) ∧
    (∃ r, set_z_vel_bc 3 (BCRec.unset 3) samplePhys = Except.ok r ∧
      ∀ i < 3, rowOn (if i = 2 then norm_vel_bc else tang_vel_bc) r samplePhys i) :=
  C2_assemblers_use_own_axis 3 ⟨by decide, by decide⟩ (BCRec.unset 3) ⟨rfl, rfl⟩ samplePhys
    samplePhys_valid

/-- C4: in three dimensions, when the low face of axis X is `Symmetry`, the record of
`set_x_vel_bc` has `REFLECT_ODD` on the low face of axis X and `REFLECT_EVEN` on every face
of the axes Y and Z whose boundary type is `Symmetry`. -/
theorem C4_symmetry_parity (bc : BCRec FillCode) (hbc : bc.sized 3) (phys_bc : BCRec Int)
    (hp : validPhys 3 phys_bc) (hx : phys_bc.lo[0]? = some Symmetry) :
    ∃ r, set_x_vel_bc 3 bc phys_bc = Except.ok r ∧
      r.lo[0]? = some REFLECT_ODD ∧
      ∀ i, i = 1 ∨ i = 2 →
        (phys_bc.lo[i]? = some Symmetry → r.lo[i]? = some REFLECT_EVEN) ∧
        (phys_bc.hi[i]? = some Symmetry → r.hi[i]? = some REFLECT_EVEN) := by
  refine ⟨_, set_x_vel_bc_eq ⟨by decide, by decide⟩ hbc hp, ?_, ?_⟩
  · obtain ⟨l, h, a, b, hl, -, ha, -, hra, -⟩ := rowOn_velRec 0 hp (i := 0) (by decide)
    rw [hx] at hl
    cases hl
    rw [hra]
    have : subscript (velTable 0 0) Symmetry = Except.ok REFLECT_ODD := rfl
    rw [this] at ha
    cases ha
    rfl
  · intro i hi
    have hlt : i < 3 := by omega
    have hne : velTable 0 i = tang_vel_bc := by
      rcases hi with rfl | rfl <;> rfl
    obtain ⟨l, h, a, b, hl, hh, ha, hb, hra, hrb⟩ := rowOn_velRec 0 hp hlt
    rw [hne] at ha hb
    have hs : subscript tang_vel_bc Symmetry = Except.ok REFLECT_EVEN := rfl
    constructor
    · intro hsym
      rw [hsym] at hl
      cases hl
      rw [hs] at ha
      cases ha
      exact hra
    · intro hsym
      rw [hsym] at hh
      cases hh
      rw [hs] at hb
      cases hb
      exact hrb

/-- C4 at the domain `samplePhys`, whose low faces of the axes X and Z are `Symmetry`. -/
theorem C4_symmetry_parity_witness :
    ∃ r, set_x_vel_bc 3 (BCRec.unset 3) samplePhys = Except.ok r ∧
      r.lo[0]? = some REFLECT_ODD ∧
      ∀ i, i = 1 ∨ i = 2 →
        (samplePhys.lo[i]? = some Symmetry → r.lo[i]? = some REFLECT_EVEN) ∧
        (samplePhys.hi[i]? = some Symmetry → r.hi[i]? = some REFLECT_EVEN) :=
  C4_symmetry_parity (BCRec.unset 3) ⟨rfl, rfl⟩ samplePhys samplePhys_valid rfl

/-! ## Claims on the Butcher tableaux -/

/-- C6 (the code at the five tableau blocks): in every block the weights `b_mol` sum to `1`
and `c_mol[0] = 0`; the matrix `a_mol` is strictly lower-triangular in the blocks
`THIRDORDER`, `THIRDORDER_TVD`, `SECONDORDER` and `SECONDORDER_TVD`; in the block
`FIRSTORDER` the diagonal entry `a_mol[0][0]` is `1`, so that `a_mol` is not strictly
lower-triangular there. -/
theorem C6_firstorder_diagonal :
    (∀ kind, (molBlock kind).b_mol.sum = 1 ∧ (molBlock kind).c_mol[0]? = some 0) ∧
    (∀ kind, kind ≠ TableauKind.FIRSTORDER →
      strictlyLower (molBlock kind).MOL_STAGES (molBlock kind).a_mol) ∧
    entry (molBlock TableauKind.FIRSTORDER).a_mol 0 0 = 1 ∧
    ¬ strictlyLower (molBlock TableauKind.FIRSTORDER).MOL_STAGES
        (molBlock TableauKind.FIRSTORDER).a_mol := by
  refine ⟨?_, ?_, ?_, ?_⟩
  · intro kind
    cases kind <;> constructor <;> norm_num [molBlock]
  · intro kind hk
    cases kind <;> first | exact absurd rfl hk | decide
  · rfl
  · decide

/-- C7: whatever the tableau members held before, the blocks of the source leave the
tableau of the block `THIRDORDER_TVD`, the only name that is defined: three stages, weights
`(1/6, 1/6, 2/3)`, stage times `(0, 1, 1/2)`, coupling matrix
`[[0,0,0],[1,0,0],[1/4,1/4,0]]`; the matrix has `MOL_STAGES` rows of `MOL_STAGES` entries and
both vectors have `MOL_STAGES` entries; and every completed run of `variableSetUp` leaves
this tableau in the static members. -/
theorem C7_third_order_tvd_installed (t : MolTableau) :
    (∀ kind, molDefined kind = true ↔ kind = TableauKind.THIRDORDER_TVD) ∧
    (setTableau molDefined t).MOL_STAGES = 3 ∧
    (setTableau molDefined t).b_mol = [1/6, 1/6, 2/3] ∧
    (setTableau molDefined t).c_mol = [0, 1, 1/2] ∧
    (setTableau molDefined t).a_mol = [[0, 0, 0], [1, 0, 0], [1/4, 1/4, 0]] ∧
    (setTableau molDefined t).a_mol.length = (setTableau molDefined t).MOL_STAGES ∧
    (∀ row ∈ (setTableau molDefined t).a_mol,
      row.length = (setTableau molDefined t).MOL_STAGES) ∧
    (setTableau molDefined t).b_mol.length = (setTableau molDefined t).MOL_STAGES ∧
    (setTableau molDefined t).c_mol.length = (setTableau molDefined t).MOL_STAGES ∧
    (∀ (cfg : Config) (s s' : Castro), Castro.variableSetUp cfg s = Except.ok s' →
      s'.mol = setTableau molDefined t) := by
  have h : setTableau molDefined t = molBlock TableauKind.THIRDORDER_TVD := rfl
  rw [h]
  refine ⟨?_, rfl, rfl, rfl, rfl, rfl, ?_, rfl, rfl, ?_⟩
  · intro kind
    cases kind <;> simp [molDefined]
  · intro row hrow
    simp [molBlock] at hrow
    rcases hrow with rfl | rfl | rfl <;> rfl
  · intro cfg s s' hrun
    obtain ⟨st, d0, dg, bcg, d1, bc1, d2, src, d3, bc3, d4, bc4, d5, bc5, d6, k, dl,
      -, -, -, -, -, -, -, -, -, -, rfl⟩ := variableSetUp_inv hrun
    rfl

/-! ## The assemblers outside the six boundary types -/

theorem subscript_outside {t : List FillCode} (ht : t.length = 6) {v : Int}
    (hv : ¬ (0 ≤ v ∧ v ≤ 5)) : subscript t v = Except.error Abort.OutOfRange := by
  unfold subscript
  split
  · rfl
  · have hlen : t.length ≤ v.toNat := by omega
    rw [List.getElem?_eq_none hlen]

theorem setFaces_unchecked {t : List FillCode} (ht : t.length = 6) {i : Nat}
    {bc : BCRec FillCode} {p : BCRec Int} {l h : Int}
    (hl : p.lo[i]? = some l) (hh : p.hi[i]? = some h) :
    setFaces t i bc p
      = if (0 ≤ l ∧ l ≤ 5) ∧ (0 ≤ h ∧ h ≤ 5) then
          Except.ok ((bc.setLo i (lookup t l)).setHi i (lookup t h))
        else Except.error Abort.OutOfRange := by
  by_cases hlv : 0 ≤ l ∧ l ≤ 5
  · by_cases hhv : 0 ≤ h ∧ h ≤ 5
    · rw [if_pos ⟨hlv, hhv⟩]
      exact setFaces_eq ht hl hh hlv hhv
    · rw [if_neg (fun hc => hhv hc.2)]
      simp [setFaces, subscript_of_get? hl, subscript_of_get? hh, subscript_table ht hlv,
        subscript_outside ht hhv, bind, Except.bind]
  · rw [if_neg (fun hc => hlv hc.1)]
    simp [setFaces, subscript_of_get? hl, subscript_outside ht hlv, bind, Except.bind]

theorem runFaces_unchecked (p : BCRec Int) :
    ∀ (steps : List (List FillCode × Nat)) (bc : BCRec FillCode),
      (∀ st ∈ steps, st.1.length = 6 ∧ st.2 < p.lo.length ∧ st.2 < p.hi.length) →
      ((∀ st ∈ steps, facesInTable p st.2) → ∃ r, runFaces steps bc p = Except.ok r) ∧
      (¬ (∀ st ∈ steps, facesInTable p st.2) →
        runFaces steps bc p = Except.error Abort.OutOfRange) := by
  intro steps
  induction steps with
  | nil =>
    intro bc _
    exact ⟨fun _ => ⟨bc, rfl⟩, fun h => absurd (fun st hst => by cases hst) h⟩
  | cons st rest ih =>
    intro bc hs
    obtain ⟨ht, h1, h2⟩ := hs st (List.mem_cons_self _ _)
    have hl : p.lo[st.2]? = some p.lo[st.2] := List.getElem?_eq_getElem h1
    have hh : p.hi[st.2]? = some p.hi[st.2] := List.getElem?_eq_getElem h2
    have hrest := fun bc => ih bc (fun x hx => hs x (List.mem_cons_of_mem _ hx))
    have hrun : runFaces (st :: rest) bc p
        = setFaces st.1 st.2 bc p >>= fun b => runFaces rest b p := by
      simp [runFaces, List.foldlM]
    rw [hrun, setFaces_unchecked ht hl hh]
    by_cases hv : (0 ≤ p.lo[st.2] ∧ p.lo[st.2] ≤ 5) ∧ (0 ≤ p.hi[st.2] ∧ p.hi[st.2] ≤ 5)
    · rw [if_pos hv, ok_bind]
      constructor
      · intro hall
        exact (hrest _).1 (fun x hx => hall x (List.mem_cons_of_mem _ hx))
      · intro hnot
        refine (hrest _).2 (fun hall => hnot ?_)
        intro x hx
        rcases List.mem_cons.mp hx with rfl | hx
        · intro l h el eh
          rw [hl] at el
          rw [hh] at eh
          cases el
          cases eh
          exact hv
        · exact hall x hx
    · rw [if_neg hv]
      constructor
      · intro hall
        exact absurd (hall st (List.mem_cons_self _ _) _ _ hl hh) hv
      · intro _
        rfl

theorem set_scalar_bc_steps (dim : Nat) (bc : BCRec FillCode) (p : BCRec Int) :
    set_scalar_bc dim bc p = runFaces (scalarSteps dim) bc p := by
  simp [set_scalar_bc, runFaces, scalarSteps, List.foldlM_map]

theorem set_vel_bc_steps (P : Nat) (hP : P < 3) {dim : Nat} (hdim : 1 ≤ dim ∧ dim ≤ 3)
    (bc : BCRec FillCode) (p : BCRec Int) :
    set_vel_bc P dim bc p = runFaces (velSteps P dim) bc p := by
  obtain ⟨h1, h3⟩ := hdim
  interval_cases P <;> interval_cases dim <;>
    simp [set_vel_bc, set_x_vel_bc, set_y_vel_bc, set_z_vel_bc, runFaces, velSteps, velTable,
      List.range_succ, List.foldlM]

theorem validPhys_iff_faces {dim : Nat} {p : BCRec Int} (hs : p.sized dim) :
    validPhys dim p ↔ ∀ i < dim, facesInTable p i := by
  obtain ⟨hl, hh⟩ := hs
  constructor
  · rintro ⟨-, hlo, hhi⟩ i _ l h el eh
    exact ⟨hlo l (List.getElem?_mem el), hhi h (List.getElem?_mem eh)⟩
  · intro hall
    refine ⟨⟨hl, hh⟩, ?_, ?_⟩
    · intro v hv
      obtain ⟨i, hi, rfl⟩ := List.mem_iff_getElem.mp hv
      have hi2 : i < p.hi.length := by omega
      exact (hall i (by omega) _ _ (List.getElem?_eq_getElem hi)
        (List.getElem?_eq_getElem hi2)).1
    · intro v hv
      obtain ⟨i, hi, rfl⟩ := List.mem_iff_getElem.mp hv
      have hi2 : i < p.lo.length := by omega
      exact (hall i (by omega) _ _ (List.getElem?_eq_getElem hi2)
        (List.getElem?_eq_getElem hi)).2

/-- An assembler given by statement pairs on the axes `0 .. dim - 1` with six-entry tables
makes no check: it returns a record when every face carries one of the six boundary types,
and subscripts a table outside its bounds otherwise. -/
theorem steps_unchecked {dim : Nat} (tbl : Nat → List FillCode) (ht : ∀ i, (tbl i).length = 6)
    (bc : BCRec FillCode) {p : BCRec Int} (hs : p.sized dim) :
    (validPhys dim p → ∃ r, runFaces ((List.range dim).map (fun i => (tbl i, i))) bc p
        = Except.ok r) ∧
    (¬ validPhys dim p → runFaces ((List.range dim).map (fun i => (tbl i, i))) bc p
        = Except.error Abort.OutOfRange) := by
  have hsteps : ∀ st ∈ (List.range dim).map (fun i => (tbl i, i)),
      st.1.length = 6 ∧ st.2 < p.lo.length ∧ st.2 < p.hi.length := by
    intro st hst
    obtain ⟨i, hi, rfl⟩ := List.mem_map.mp hst
    have := List.mem_range.mp hi
    exact ⟨ht i, by rw [hs.1]; exact this, by rw [hs.2]; exact this⟩
  have hiff : (∀ st ∈ (List.range dim).map (fun i => (tbl i, i)), facesInTable p st.2)
      ↔ validPhys dim p := by
    rw [validPhys_iff_faces hs]
    constructor
    · intro h i hi
      exact h (tbl i, i) (List.mem_map.mpr ⟨i, List.mem_range.mpr hi, rfl⟩)
    · intro h st hst
      obtain ⟨i, hi, rfl⟩ := List.mem_map.mp hst
      exact h i (List.mem_range.mp hi)
  obtain ⟨a, b⟩ := runFaces_unchecked p _ bc hsteps
  exact ⟨fun hv => a (hiff.mpr hv), fun hv => b (fun hc => hv (hiff.mp hc))⟩

/-! ## Velocity records against the scalar record -/

theorem scalarRec_lo (p : BCRec Int) (i : Nat) :
    (scalarRec p).lo[i]? = (p.lo[i]?).map (lookup scalar_bc) := by
  simp [scalarRec]

theorem scalarRec_hi (p : BCRec Int) (i : Nat) :
    (scalarRec p).hi[i]? = (p.hi[i]?).map (lookup scalar_bc) := by
  simp [scalarRec]

theorem velRec_lo (P : Nat) (p : BCRec Int) (i : Nat) :
    (velRec P p).lo[i]? = (p.lo[i]?).map (lookup (velTable P i)) := by
  cases h : p.lo[i]? <;> simp [velRec, List.getElem?_enum, h]

theorem velRec_hi (P : Nat) (p : BCRec Int) (i : Nat) :
    (velRec P p).hi[i]? = (p.hi[i]?).map (lookup (velTable P i)) := by
  cases h : p.hi[i]? <;> simp [velRec, List.getElem?_enum, h]

theorem lookup_tang (v : Int) : lookup tang_vel_bc v = lookup scalar_bc v := rfl

theorem lookup_norm_iff {v : Int} (hv : 0 ≤ v ∧ v ≤ 5) :
    (lookup norm_vel_bc v = lookup scalar_bc v ↔ nonReflecting v) ∧
    (reflecting v ↔ ¬ nonReflecting v) ∧
    (reflecting v → lookup norm_vel_bc v = REFLECT_ODD ∧ lookup scalar_bc v = REFLECT_EVEN) := by
  obtain ⟨h0, h5⟩ := hv
  interval_cases v <;>
    simp [lookup, norm_vel_bc, scalar_bc, nonReflecting, reflecting, Interior, Inflow, Outflow,
      Symmetry, SlipWall, NoSlipWall]

theorem lookup_velTable_off {P i : Nat} (h : i ≠ P) (v : Int) :
    lookup (velTable P i) v = lookup scalar_bc v := by
  simp [velTable, h, lookup_tang]

theorem lookup_velTable_plain (P i : Nat) {v : Int} (hv : 0 ≤ v ∧ v ≤ 5)
    (hn : ¬ reflecting v) : lookup (velTable P i) v = lookup scalar_bc v := by
  unfold velTable
  split
  · obtain ⟨a, b, -⟩ := lookup_norm_iff hv
    exact a.mpr (by_contra fun hc => hn (b.mpr hc))
  · rfl

theorem set_vel_bc_eq (P : Nat) (hP : P < 3) {dim : Nat} (hdim : 1 ≤ dim ∧ dim ≤ 3)
    {bc : BCRec FillCode} (hbc : bc.sized dim) {p : BCRec Int} (hp : validPhys dim p) :
    set_vel_bc P dim bc p = Except.ok (velRec P p) := by
  interval_cases P
  · exact set_x_vel_bc_eq hdim hbc hp
  · exact set_y_vel_bc_eq hdim hbc hp
  · exact set_z_vel_bc_eq hdim hbc hp

/-! ## Names of the derived catalogue -/

theorem foldl_runPure_unique {L : List DeriveRec} {bs : List DeriveBlock} {b : DeriveBlock}
    (hL : b.name ∉ derivedNames L) (hb : b ∈ bs)
    (hc : (bs.map blockName).count b.name ≤ 1) :
    recordOf b ∈ bs.foldl runPure L := by
  obtain ⟨pre, post, rfl⟩ := List.append_of_mem hb
  have hcount : (pre.map blockName).count b.name + 1 + (post.map blockName).count b.name ≤ 1 := by
    have e : ((pre ++ b :: post).map blockName).count b.name
        = (pre.map blockName).count b.name + 1 + (post.map blockName).count b.name := by
      simp [List.count_append, List.count_cons, blockName]
      omega
    omega
  have h1 : (pre.map blockName).count b.name = 0 := by omega
  have h2 : (post.map blockName).count b.name = 0 := by omega
  rw [List.count_eq_zero] at h1 h2
  refine foldl_runPure_mem hL ?_ ?_
  · intro x hx e
    exact h1 (List.mem_map.mpr ⟨x, hx, e⟩)
  · intro x hx e
    exact h2 (List.mem_map.mpr ⟨x, hx, e⟩)

theorem species_name_data (a : String) :
    ("X(" ++ a ++ ")").data = 'X' :: '(' :: (a.data ++ [')']) := by
  simp [String.data_append]

theorem neutrino_name_data (a : String) :
    ("Neuts" ++ a).data = 'N' :: 'e' :: 'u' :: 't' :: 's' :: a.data := by
  simp [String.data_append]

theorem fixedDerived_heads : ∀ m ∈ fixedDerived,
    m.data.head? ≠ some 'X' ∧ m.data.take 5 ≠ ['N', 'e', 'u', 't', 's'] := by
  decide

theorem species_not_fixed (a : String) : "X(" ++ a ++ ")" ∉ fixedDerived := by
  intro h
  have := (fixedDerived_heads _ h).1
  rw [species_name_data] at this
  exact this rfl

theorem neutrinoBlock_name {b : DeriveBlock} (h : neutrinoBlock b) :
    b.name.data.take 5 = ['N', 'e', 'u', 't', 's'] := by
  obtain ⟨-, -, j, i, indx, hn, -⟩ := h
  rw [hn]
  have e : "Neuts" ++ toString j ++ "g" ++ toString i
      = "Neuts" ++ (toString j ++ "g" ++ toString i) := by
    simp [String.append_assoc]
  rw [e, neutrino_name_data]
  rfl

theorem neutrino_not_fixed {b : DeriveBlock} (h : neutrinoBlock b) : b.name ∉ fixedDerived :=
  fun hm => (fixedDerived_heads _ hm).2 (neutrinoBlock_name h)

theorem speciesBlocks_names (cfg : Config) (s : Castro) :
    (speciesBlocks cfg s).map blockName = speciesDerived cfg s := by
  unfold speciesBlocks speciesDerived
  rw [List.map_map]
  apply List.map_congr_left
  intro i hi
  have hi' := List.mem_range.mp hi
  simp [blockName, spec_names, List.getD, hi']

theorem auxBlocks_names (cfg : Config) (s : Castro) :
    (auxBlocks cfg s).map blockName = auxDerived cfg s := by
  unfold auxBlocks auxDerived
  rw [List.map_map]
  apply List.map_congr_left
  intro i hi
  have hi' := List.mem_range.mp hi
  simp [blockName, aux_names, List.getD, hi']

theorem derivesBefore_names (cfg : Config) (s : Castro) :
    (derivesBeforeVorticity cfg s).map blockName = namesBefore cfg := by
  unfold derivesBeforeVorticity namesBefore
  simp only [List.map_append]
  congr 1
  · congr 1
    · congr 1
      split <;> rfl
  · split <;> rfl

theorem derivesAfter_names (cfg : Config) (s : Castro) :
    (derivesAfterVorticity cfg s).map blockName
      = ["divu", "eint_E", "eint_e", "logden", "StateErr"] ++ speciesDerived cfg s
          ++ namesAfter cfg := by
  unfold derivesAfterVorticity namesAfter
  simp only [List.map_append, speciesBlocks_names, List.append_assoc]
  congr 1
  congr 1
  congr 1
  congr 1
  · split <;> rfl
  · congr 1
    congr 1
    · split <;> rfl
    · congr 1
      · split <;> rfl
      · split <;> rfl

theorem allBlocks_names (cfg : Config) (s : Castro) (nbs : List DeriveBlock) :
    (allBlocks cfg s nbs).map blockName
      = namesBefore cfg ++ ["magvort"] ++ ["divu", "eint_E", "eint_e", "logden", "StateErr"]
          ++ speciesDerived cfg s ++ namesAfter cfg ++ nbs.map blockName
          ++ auxDerived cfg s := by
  unfold allBlocks
  simp only [List.map_append, derivesBefore_names, derivesAfter_names, auxBlocks_names,
    List.append_assoc]
  rfl

theorem fixedDerived_nodup : fixedDerived.Nodup := by
  decide

theorem namesBefore_sublist (cfg : Config) :
    List.Sublist (namesBefore cfg)
      ["pressure", "kineng", "soundspeed", "MachNumber", "uplusc", "uminusc", "entropy",
        "thermal_cond", "diff_coeff", "diff_term"] := by
  unfold namesBefore
  split <;> split <;> decide

theorem namesAfter_sublist (cfg : Config) :
    List.Sublist (namesAfter cfg)
      ["x_velocity", "y_velocity", "z_velocity", "t_sound_t_enuc", "magvel", "radvel",
        "magmom", "angular_momentum_x", "angular_momentum_y", "angular_momentum_z", "maggrav",
        "particle_count", "total_particle_count", "Ertot"] := by
  unfold namesAfter
  split <;> split <;> split <;> split <;> decide

theorem lepton_sublist {cfg : Config} {s : Castro} {lb : List DeriveBlock}
    (h : lb = [] ∨ lb = leptonBlocks cfg s) :
    List.Sublist (lb.map blockName) ["Enue", "Enuae", "rho_Yl", "Yl", "Ynue", "Ynuae"] := by
  rcases h with rfl | rfl
  · exact List.nil_sublist _
  · exact List.Sublist.refl _

theorem fixed_part_sublist {cfg : Config} {s : Castro} {lb : List DeriveBlock}
    (h : lb = [] ∨ lb = leptonBlocks cfg s) :
    List.Sublist
      (namesBefore cfg ++ (["magvort"] ++ (["divu", "eint_E", "eint_e", "logden", "StateErr"]
        ++ (namesAfter cfg ++ lb.map blockName))))
      fixedDerived :=
  (namesBefore_sublist cfg).append ((List.Sublist.refl _).append ((List.Sublist.refl _).append
    ((namesAfter_sublist cfg).append (lepton_sublist h))))

/-- How often a name occurs among the blocks of `defineDerived`. -/
theorem allBlocks_count {cfg : Config} {s : Castro} (nb : List DeriveBlock)
    {lb : List DeriveBlock} (h : lb = [] ∨ lb = leptonBlocks cfg s) (n : String) :
    ((allBlocks cfg s (nb ++ lb)).map blockName).count n
      ≤ fixedDerived.count n + (speciesDerived cfg s).count n + (nb.map blockName).count n
          + (auxDerived cfg s).count n := by
  have hsub := (fixed_part_sublist h).count_le n
  rw [allBlocks_names]
  simp only [List.map_append, List.count_append] at hsub ⊢
  omega

/-- The derived catalogue of a completed run. -/
theorem catalogue_of_run {cfg : Config} {s s' : Castro}
    (h : Castro.variableSetUp cfg s = Except.ok s') :
    ∃ nb lb : List DeriveBlock,
      s'.derive_lst = (allBlocks cfg (assignIndices cfg s) (nb ++ lb)).foldl runPure s.derive_lst ∧
      (∀ b ∈ nb, neutrinoBlock b) ∧
      (lb = [] ∨ lb = leptonBlocks cfg (assignIndices cfg s)) ∧
      (cfg.NEUTRINO = false → nb = [] ∧ lb = []) := by
  obtain ⟨st, d0, dg, bcg, d1, bc1, d2, src, d3, bc3, d4, bc4, d5, bc5, d6, k, dl,
    -, -, -, -, -, -, -, -, -, hdl, rfl⟩ := variableSetUp_inv h
  obtain ⟨nb, lb, e, hnb, hlb, hoff, -⟩ := defineDerived_inv hdl
  have hd : (assignIndices cfg s).derive_lst = s.derive_lst :=
    (assignIndices_fixed cfg s).2.2.2.2.2.2.2.2.2.2.2.1
  refine ⟨nb, lb, ?_, hnb, hlb, hoff⟩
  show dl = _
  rw [e, hd]
  rfl

theorem unique_of_count {α β : Type} [DecidableEq β] (f : α → β) (n : β) :
    ∀ {l : List α}, (l.map f).count n ≤ 1 → ∀ {x y : α}, x ∈ l → y ∈ l →
      f x = n → f y = n → x = y := by
  intro l
  induction l with
  | nil => intro _ x y hx; cases hx
  | cons a l ih =>
    intro hc x y hx hy fx fy
    simp only [List.map_cons, List.count_cons] at hc
    by_cases ha : f a = n
    · have hz : (l.map f).count n = 0 := by
        simp only [ha, beq_self_eq_true, if_true] at hc
        omega
      rw [List.count_eq_zero] at hz
      have hnot : ∀ z ∈ l, f z ≠ n := fun z hz' e => hz (List.mem_map.mpr ⟨z, hz', e⟩)
      rcases List.mem_cons.mp hx with rfl | hx'
      · rcases List.mem_cons.mp hy with rfl | hy'
        · rfl
        · exact absurd fy (hnot _ hy')
      · exact absurd fx (hnot _ hx')
    · have hc' : (l.map f).count n ≤ 1 := by
        have : (f a == n) = false := by simpa using ha
        simp only [this] at hc
        simpa using hc
      rcases List.mem_cons.mp hx with rfl | hx'
      · exact absurd fx ha
      · rcases List.mem_cons.mp hy with rfl | hy'
        · exact absurd fy ha
        · exact ih hc' hx' hy' fx fy

/-- A block whose name occurs once among the blocks of a completed run, in a catalogue that
was empty before the run, leaves its record in the catalogue, and this is the only record
with its name. -/
theorem record_of_run {cfg : Config} {s s' : Castro} (hL : s.derive_lst = [])
    {nb lb : List DeriveBlock}
    (he : s'.derive_lst
      = (allBlocks cfg (assignIndices cfg s) (nb ++ lb)).foldl runPure s.derive_lst)
    {b : DeriveBlock} (hb : b ∈ allBlocks cfg (assignIndices cfg s) (nb ++ lb))
    (hc : ((allBlocks cfg (assignIndices cfg s) (nb ++ lb)).map blockName).count b.name ≤ 1) :
    recordOf b ∈ s'.derive_lst ∧
      ∀ r ∈ s'.derive_lst, r.derive_name = b.name → r = recordOf b := by
  have hmem : recordOf b ∈ s'.derive_lst := by
    rw [he]
    exact foldl_runPure_unique (by rw [hL]; simp [derivedNames]) hb hc
  refine ⟨hmem, fun r hr hn => ?_⟩
  have hnames : (s'.derive_lst.map (fun r => r.derive_name)).count b.name ≤ 1 := by
    have := foldl_runPure_names (allBlocks cfg (assignIndices cfg s) (nb ++ lb)) s.derive_lst
    rw [← he, hL] at this
    simp only [derivedNames, List.map_nil, List.nil_append] at this
    rw [this]
    exact hc
  exact unique_of_count (fun r => r.derive_name) b.name hnames hr hmem hn rfl

theorem not_mem_of_count {n : String} {l : List String} (h : n ∉ l) : l.count n = 0 :=
  List.count_eq_zero.mpr h

/-- A block with one of the names the source writes out leaves its record in the catalogue of
a completed run, as the only record of its name, when no auxiliary quantity has this name. -/
theorem fixed_record {cfg : Config} {s s' : Castro}
    (h : Castro.variableSetUp cfg s = Except.ok s') (hL : s.derive_lst = [])
    {b : DeriveBlock} (hn : b.name ∈ fixedDerived)
    (hb : ∀ nbs, b ∈ allBlocks cfg (assignIndices cfg s) nbs)
    (haux : b.name ∉ auxDerived cfg (assignIndices cfg s)) :
    recordOf b ∈ s'.derive_lst ∧
      ∀ r ∈ s'.derive_lst, r.derive_name = b.name → r = recordOf b := by
  obtain ⟨nb, lb, he, hnb, hlb, -⟩ := catalogue_of_run h
  refine record_of_run hL he (hb _) ?_
  have hcount := allBlocks_count nb hlb b.name
  have h1 : fixedDerived.count b.name ≤ 1 :=
    List.nodup_iff_count_le_one.mp fixedDerived_nodup _
  have h2 : (speciesDerived cfg (assignIndices cfg s)).count b.name = 0 := by
    apply not_mem_of_count
    intro hm
    obtain ⟨i, -, e⟩ := List.mem_map.mp hm
    exact species_not_fixed _ (e ▸ hn)
  have h3 : (nb.map blockName).count b.name = 0 := by
    apply not_mem_of_count
    intro hm
    obtain ⟨x, hx, e⟩ := List.mem_map.mp hm
    have := neutrino_not_fixed (hnb x hx)
    rw [show x.name = b.name from e] at this
    exact this hn
  have h4 := not_mem_of_count haux
  omega

/-- The index members after a completed run are those of the first pass. -/
theorem run_indices {cfg : Config} {s s' : Castro}
    (h : Castro.variableSetUp cfg s = Except.ok s') :
    s'.Density = (assignIndices cfg s).Density ∧ s'.Xmom = (assignIndices cfg s).Xmom ∧
    s'.Ymom = (assignIndices cfg s).Ymom ∧ s'.Zmom = (assignIndices cfg s).Zmom ∧
    s'.Temp = (assignIndices cfg s).Temp ∧ s'.NUM_STATE = (assignIndices cfg s).NUM_STATE ∧
    s'.NumSpec = (assignIndices cfg s).NumSpec ∧ s'.FirstSpec = (assignIndices cfg s).FirstSpec ∧
    s'.NumAux = (assignIndices cfg s).NumAux ∧ s'.FirstAux = (assignIndices cfg s).FirstAux := by
  obtain ⟨st, d0, dg, bcg, d1, bc1, d2, src, d3, bc3, d4, bc4, d5, bc5, d6, k, dl,
    -, -, -, -, -, -, -, -, -, -, rfl⟩ := variableSetUp_inv h
  exact ⟨rfl, rfl, rfl, rfl, rfl, rfl, rfl, rfl, rfl, rfl⟩

theorem setComponent_nonneg {l l' : List StateDescriptor} {typ : StateType} {comp : Int}
    {nm : String} {bc : BCRec FillCode} (h : setComponent l typ comp nm bc = Except.ok l') :
    0 ≤ comp := by
  induction l generalizing l' with
  | nil => simp [setComponent] at h
  | cons d ds ih =>
    rw [setComponent] at h
    split at h
    · simp only [bind_ok_iff] at h
      obtain ⟨names, hn, -⟩ := h
      unfold assign at hn
      split at hn
      · rename_i hc
        exact hc.1
      · cases hn
    · simp only [bind_ok_iff, pure_ok_iff] at h
      obtain ⟨ds', hds, -⟩ := h
      exact ih hds

theorem nameReactions_nonneg {cfg : Config} {s : Castro} {bc : BCRec FillCode}
    {l : List StateDescriptor} {r : List StateDescriptor × BCRec FillCode}
    (h : nameReactions cfg s bc l = Except.ok r) (hR : cfg.REACTIONS = true) :
    0 ≤ s.NumSpec := by
  unfold nameReactions at h
  rw [if_pos hR] at h
  simp only [bind_ok_iff] at h
  obtain ⟨p, -, l2, h2, -⟩ := h
  exact setComponent_nonneg h2

theorem setComponent_other {t : StateType} {d : StateDescriptor} {l l' : List StateDescriptor}
    {typ : StateType} (hne : t ≠ typ) {comp : Int} {nm : String}
    {bc : BCRec FillCode} (hl : descOf l t = some d)
    (h : setComponent l typ comp nm bc = Except.ok l') : descOf l' t = some d := by
  rw [setComponent_descOf hne h, hl]

theorem nameRadComponents_other {t : StateType} (ht : t ≠ StateType.Rad_Type) {cfg : Config}
    {d : StateDescriptor} {bc : BCRec FillCode} {l l' : List StateDescriptor}
    (hl : descOf l t = some d) (h : nameRadComponents cfg bc l = Except.ok l') :
    descOf l' t = some d := by
  unfold nameRadComponents at h
  split at h
  · exact setComponent_other ht hl h
  · simp only [bind_ok_iff] at h
    obtain ⟨photons, -, h⟩ := h
    split at h
    · refine foldlM_invariant (fun l => descOf l t = some d) _ ?_ _ _ _ hl h
      intro a x b ha hb
      simp only [bind_ok_iff] at hb
      obtain ⟨nm, -, hb⟩ := hb
      exact setComponent_other ht ha hb
    · refine neutrinoLoop_invariant (fun l => descOf l t = some d) ?_ hl h
      intro a j i indx b ha hb
      simp only [bind_ok_iff] at hb
      obtain ⟨nm, -, hb⟩ := hb
      exact setComponent_other ht ha hb

theorem nameRadiation_other {t : StateType} (ht : t ≠ StateType.Rad_Type) {cfg : Config}
    {s : Castro} {d : StateDescriptor} {interp : Interpolater} {bc bc' : BCRec FillCode}
    {l l' : List StateDescriptor} (hl : descOf l t = some d)
    (h : nameRadiation cfg s interp bc l = Except.ok (l', bc')) :
    descOf l' t = some d := by
  unfold nameRadiation at h
  split at h
  · simp only [bind_ok_iff, pure_ok_iff, Prod.mk.injEq] at h
    obtain ⟨b1, -, _, -, l1, h1, rfl, -⟩ := h
    exact nameRadComponents_other ht
      (@addDescriptor_descOf cfg.BL_SPACEDIM _ StateType.Rad_Type _ _ hl 1
        cfg.nGroups interp false true) h1
  · simp only [pure_ok_iff, Prod.mk.injEq] at h
    obtain ⟨rfl, -⟩ := h
    exact hl

theorem nameKnapsack_other {t : StateType} (ht : t ≠ StateType.Knapsack_Weight_Type)
    {cfg : Config} {s : Castro} {d : StateDescriptor}
    {bc : BCRec FillCode} {k : Int} {l l' : List StateDescriptor}
    (hl : descOf l t = some d) (h : nameKnapsack cfg s bc l = Except.ok (l', k)) :
    descOf l' t = some d := by
  unfold nameKnapsack at h
  split at h
  · simp only [bind_ok_iff, pure_ok_iff, Prod.mk.injEq] at h
    obtain ⟨l1, h1, rfl, -⟩ := h
    exact setComponent_other ht
      (@addDescriptor_descOf cfg.BL_SPACEDIM _ StateType.Knapsack_Weight_Type _ _
        hl 0 1 Interpolater.pc_interp false true) h1
  · simp only [pure_ok_iff, Prod.mk.injEq] at h
    obtain ⟨rfl, -⟩ := h
    exact hl

/-- In every completed run the phases up to line 549 leave the descriptors added at the
start, each changed by `phasesMap`, and the record `bcAfterSDC`; the radiation phase and the
knapsack phase start from these. -/
theorem phases_of_run {cfg : Config} {s s' : Castro} (hr : cfg.ready s)
    (h : Castro.variableSetUp cfg s = Except.ok s') :
    ∃ d5 bc5 k,
      nameRadiation cfg (assignIndices cfg s) (chooseInterp cfg) (bcAfterSDC cfg (assignIndices cfg s))
        ((descriptorsAdded cfg (assignIndices cfg s) (chooseInterp cfg)).map
          (phasesMap cfg (assignIndices cfg s))) = Except.ok (d5, bc5) ∧
      nameKnapsack cfg (assignIndices cfg s) bc5 d5 = Except.ok (s'.desc_lst, k) ∧
      gentleOn (descriptorsAdded cfg (assignIndices cfg s) (chooseInterp cfg))
        (phasesMap cfg (assignIndices cfg s)) ∧
      (cfg.REACTIONS = true → 0 ≤ cfg.ca_get_num_spec) := by
  obtain ⟨hdim, hp, hs, hfit⟩ := hr
  obtain ⟨hD, hX, -, -, -, -, -, -, hNS, -, hL, hDL, -⟩ := assignIndices_fixed cfg s
  have hcount := assignIndices_count cfg s hfit
  obtain ⟨st, d0, dg, bcg, d1, bc1, d2, src, d3, bc3, d4, bc4, d5, bc5, d6, k, dl,
    h1, h2, h3, h4, h5, h6, h7, h8, h9, -, rfl⟩ := variableSetUp_inv h
  have hspec : cfg.REACTIONS = true → 0 ≤ (assignIndices cfg s).NumSpec :=
    fun hR => nameReactions_nonneg h6 hR
  rw [nameState_eq cfg _ hdim hp _ (unset_sized _) hcount] at h1
  cases h1
  simp only [Naming.filled, List.replicate_zero, List.append_nil] at h2 h3 h5 h7
  rw [hL, hs, addDescriptors_eq, List.nil_append, hD] at h2
  have hB := base_nodup cfg (assignIndices cfg s) (chooseInterp cfg)
  have m0 : StateDescriptor.define cfg.BL_SPACEDIM StateType.State_Type (ngrow_state cfg)
      (assignIndices cfg s).NUM_STATE (chooseInterp cfg) false true
      ∈ descriptorsAdded cfg (assignIndices cfg s) (chooseInterp cfg) := by
    simp [descriptorsAdded]
  have hfill := fill_map hB (gentleOn_id _) m0 (stateNameList cfg (assignIndices cfg s))
    (stateBcList cfg (assignIndices cfg s)) (by simp [StateDescriptor.define, hcount])
    (by simp [StateDescriptor.define, hcount]) (stateBcList_length _ _)
  simp only [StateDescriptor.define, List.map_id, Function.comp_id] at hfill
  rw [hfill] at h2
  cases h2
  have g0 : gentleOn (descriptorsAdded cfg (assignIndices cfg s) (chooseInterp cfg))
      (fill StateType.State_Type (stateNameList cfg (assignIndices cfg s))
        (stateBcList cfg (assignIndices cfg s))) := by
    have := gentleOn_fill (gentleOn_id (descriptorsAdded cfg (assignIndices cfg s)
      (chooseInterp cfg))) StateType.State_Type (stateNameList cfg (assignIndices cfg s))
      (stateBcList cfg (assignIndices cfg s)) (fun d hd ht => by
        have := eq_of_typ hB hd m0 (by rw [ht]; rfl)
        subst this
        simp [StateDescriptor.define, hcount, stateBcList_length])
    simpa using this
  obtain ⟨e1, g1⟩ := nameGravity_map (assignIndices cfg s) (chooseInterp cfg) hdim hp g0
    (scalarRec_sized hp)
  rw [e1] at h3
  cases h3
  obtain ⟨e2, g2⟩ := @nameRotation_map cfg (assignIndices cfg s) (chooseInterp cfg) hdim hp _ g1
    (if cfg.SELF_GRAVITY then velRec 2 cfg.phys_bc else scalarRec cfg.phys_bc)
    (by split; exact velRec_sized 2 hp; exact scalarRec_sized hp)
  rw [e2] at h4
  cases h4
  obtain ⟨e3, g3⟩ := nameSource_map (assignIndices cfg s) (chooseInterp cfg) g2 hcount hD
  rw [e3] at h5
  cases h5
  have hbc : (if cfg.ROTATION then velRec 2 cfg.phys_bc
      else if cfg.SELF_GRAVITY then velRec 2 cfg.phys_bc else scalarRec cfg.phys_bc)
      = bcAfterRotation cfg := by
    unfold bcAfterRotation
    cases cfg.ROTATION <;> cases cfg.SELF_GRAVITY <;> rfl
  rw [hbc] at h6
  obtain ⟨e4, g4⟩ := nameReactions_map (assignIndices cfg s) (chooseInterp cfg) hdim hp g3
    hspec
  rw [e4] at h6
  cases h6
  obtain ⟨e5, g5⟩ := nameSDC_map (assignIndices cfg s) (chooseInterp cfg) hdim hp g4 hcount hD
  rw [e5] at h7
  cases h7
  exact ⟨d5, bc5, k, h8, h9, g5, fun hR => by rw [← hNS]; exact hspec hR⟩

theorem descOf_map {B : List StateDescriptor} (hB : (B.map (fun d => d.typ)).Nodup)
    {G : StateDescriptor → StateDescriptor} (hG : gentleOn B G) {d0 : StateDescriptor}
    (hd0 : d0 ∈ B) : descOf (B.map G) d0.typ = some (G d0) := by
  obtain ⟨pre, post, rfl, hpre, -⟩ := split_at_typ hB hd0
  unfold descOf
  rw [List.map_append, List.find?_append, List.map_cons, List.find?_cons]
  have h1 : List.find? (fun d => decide (d.typ = d0.typ)) (pre.map G) = none := by
    rw [List.find?_eq_none]
    intro x hx
    obtain ⟨y, hy, rfl⟩ := List.mem_map.mp hx
    have : (G y).typ = y.typ := (hG y (List.mem_append_left _ hy)).1
    simp [this, hpre y hy]
  have h2 : (G d0).typ = d0.typ := (hG d0 (by simp)).1
  simp [h1, h2]

/-- In every completed run, a descriptor added at the start whose type is neither `Rad_Type`
nor `Knapsack_Weight_Type` ends as `phasesMap` leaves it. -/
theorem descOf_of_run {cfg : Config} {s s' : Castro} (hr : cfg.ready s)
    (h : Castro.variableSetUp cfg s = Except.ok s') {d0 : StateDescriptor}
    (hd0 : d0 ∈ descriptorsAdded cfg (assignIndices cfg s) (chooseInterp cfg)) :
    descOf s'.desc_lst d0.typ = some (phasesMap cfg (assignIndices cfg s) d0) := by
  obtain ⟨d5, bc5, k, h8, h9, g, -⟩ := phases_of_run hr h
  obtain ⟨n1, n2⟩ := base_not_late cfg (assignIndices cfg s) (chooseInterp cfg) d0 hd0
  have hB := base_nodup cfg (assignIndices cfg s) (chooseInterp cfg)
  exact nameKnapsack_other n1 (nameRadiation_other n2 (descOf_map hB g hd0) h8) h9

theorem source_added (cfg : Config) (s : Castro) (interp : Interpolater) :
    StateDescriptor.define cfg.BL_SPACEDIM StateType.Source_Type s.NUM_GROW s.NUM_STATE
      Interpolater.cell_cons_interp false true ∈ descriptorsAdded cfg s interp := by
  simp [descriptorsAdded]

theorem phasesMap_source (cfg : Config) (s : Castro) (d : StateDescriptor)
    (hd : d.typ = StateType.Source_Type) :
    phasesMap cfg s d
      = { d with names := (stateNameList cfg s).map (fun nm => nm ++ "_source"),
                 bc := stateBcList cfg s } := by
  simp only [phasesMap, sdcMap, reactionsMap, sourceMap, rotationMap, gravityMap,
    Function.comp]
  cases cfg.SDC <;> cases cfg.REACTIONS <;> cases cfg.ROTATION <;> cases cfg.SELF_GRAVITY <;>
    simp [fill, fillFirst, upd, hd]

theorem num_state_nonneg (cfg : Config) (s : Castro) (hf : stateCount cfg ≤ INT_MAX) :
    0 ≤ (assignIndices cfg s).NUM_STATE := by
  rw [assignIndices_NUM_STATE cfg s hf]
  have n1 := added_nonneg (numAdv cfg)
  have n2 := added_nonneg cfg.ca_get_num_spec
  have n3 := added_nonneg cfg.ca_get_num_aux
  unfold hybridCount
  cases cfg.HYBRID_MOMENTUM <;> cases cfg.SHOCK_VAR <;> simp <;> omega

/-! ## The radiation and knapsack phases -/

theorem setComponent_types {l l' : List StateDescriptor} {typ : StateType} {comp : Int}
    {nm : String} {bc : BCRec FillCode} (h : setComponent l typ comp nm bc = Except.ok l') :
    l'.map (fun d => d.typ) = l.map (fun d => d.typ) := by
  induction l generalizing l' with
  | nil => simp [setComponent] at h
  | cons d ds ih =>
    rw [setComponent] at h
    split at h
    · simp only [bind_ok_iff, pure_ok_iff] at h
      obtain ⟨names, -, bcs, -, rfl⟩ := h
      rfl
    · simp only [bind_ok_iff, pure_ok_iff] at h
      obtain ⟨ds', hds, rfl⟩ := h
      simp [ih hds]

theorem assign_ok {α : Type} {a a' : List α} {i : Int} {v : α}
    (h : assign a i v = Except.ok a') :
    0 ≤ i ∧ i.toNat < a.length ∧ a' = a.set i.toNat v := by
  unfold assign at h
  split at h
  · rename_i hc
    cases h
    exact ⟨hc.1, hc.2, rfl⟩
  · cases h

theorem setComponent_same {l l' : List StateDescriptor} {typ : StateType}
    {d : StateDescriptor} (hl : descOf l typ = some d) {comp : Int} {nm : String}
    {bc : BCRec FillCode} (h : setComponent l typ comp nm bc = Except.ok l') :
    ∃ c : Nat, comp = (c : Int) ∧ c < d.names.length ∧ c < d.bc.length ∧
      descOf l' typ = some { d with names := d.names.set c nm, bc := d.bc.set c bc } := by
  induction l generalizing l' with
  | nil => simp [setComponent] at h
  | cons x xs ih =>
    rw [setComponent] at h
    split at h
    · rename_i hx
      simp only [bind_ok_iff, pure_ok_iff] at h
      obtain ⟨names, hn, bcs, hb, rfl⟩ := h
      have hd : x = d := by
        simp only [descOf, List.find?_cons, hx, decide_True] at hl
        exact Option.some.inj hl
      subst hd
      obtain ⟨h0, hlt, rfl⟩ := assign_ok hn
      obtain ⟨-, hlt2, rfl⟩ := assign_ok hb
      refine ⟨comp.toNat, (Int.toNat_of_nonneg h0).symm, hlt, hlt2, ?_⟩
      simp [descOf, List.find?_cons, hx]
    · rename_i hx
      simp only [bind_ok_iff, pure_ok_iff] at h
      obtain ⟨ds', hds, rfl⟩ := h
      have hl' : descOf xs typ = some d := by
        simpa [descOf, List.find?_cons, hx] using hl
      obtain ⟨c, hc, h1, h2, h3⟩ := ih hl' hds
      refine ⟨c, hc, h1, h2, ?_⟩
      simpa [descOf, List.find?_cons, hx] using h3

theorem registeredWith_define (S : BCRec FillCode) (dim : Nat) (typ : StateType)
    (ngrow ncomp : Int) (interp : Interpolater) (e c : Bool) :
    registeredWith S dim (StateDescriptor.define dim typ ngrow ncomp interp e c) := by
  intro i nm b hn hb
  simp only [StateDescriptor.define] at hn hb
  have h1 := List.getElem?_mem hn
  have h2 := List.getElem?_mem hb
  exact Or.inr ⟨List.eq_of_mem_replicate h1, List.eq_of_mem_replicate h2⟩

theorem registeredWith_set {S : BCRec FillCode} {dim : Nat} {d : StateDescriptor}
    (h : registeredWith S dim d) (c : Nat) (nm : String) :
    registeredWith S dim { d with names := d.names.set c nm, bc := d.bc.set c S } := by
  intro i nm' b hn hb
  simp only at hn hb
  by_cases hi : c = i
  · subst hi
    rw [List.getElem?_set, if_pos rfl] at hb
    split at hb
    · exact Or.inl (Option.some.inj hb).symm
    · cases hb
  · rw [List.getElem?_set_ne hi] at hn hb
    exact h i nm' b hn hb

theorem nameRadComponents_registered {cfg : Config} {S : BCRec FillCode} {dim : Nat}
    {l l' : List StateDescriptor} {d : StateDescriptor}
    (hl : descOf l StateType.Rad_Type = some d) (hd : registeredWith S dim d)
    (h : nameRadComponents cfg S l = Except.ok l') :
    ∃ d', descOf l' StateType.Rad_Type = some d' ∧ registeredWith S dim d' := by
  have step : ∀ (a b : List StateDescriptor) (comp : Int) (nm : String),
      (∃ x, descOf a StateType.Rad_Type = some x ∧ registeredWith S dim x) →
      setComponent a StateType.Rad_Type comp nm S = Except.ok b →
      ∃ x, descOf b StateType.Rad_Type = some x ∧ registeredWith S dim x := by
    rintro a b comp nm ⟨x, hx, hr⟩ hb
    obtain ⟨c, -, -, -, hc⟩ := setComponent_same hx hb
    exact ⟨_, hc, registeredWith_set hr c nm⟩
  unfold nameRadComponents at h
  split at h
  · exact step _ _ _ _ ⟨d, hl, hd⟩ h
  · simp only [bind_ok_iff] at h
    obtain ⟨photons, -, h⟩ := h
    split at h
    · refine foldlM_invariant
        (fun l => ∃ x, descOf l StateType.Rad_Type = some x ∧ registeredWith S dim x)
        _ ?_ _ _ _ ⟨d, hl, hd⟩ h
      intro a x b ha hb
      simp only [bind_ok_iff] at hb
      obtain ⟨nm, -, hb⟩ := hb
      exact step _ _ _ _ ha hb
    · refine neutrinoLoop_invariant
        (fun l => ∃ x, descOf l StateType.Rad_Type = some x ∧ registeredWith S dim x)
        ?_ ⟨d, hl, hd⟩ h
      intro a j i indx b ha hb
      simp only [bind_ok_iff] at hb
      obtain ⟨nm, -, hb⟩ := hb
      exact step _ _ _ _ ha hb

theorem nameRadComponents_types {cfg : Config} {S : BCRec FillCode}
    {l l' : List StateDescriptor} (h : nameRadComponents cfg S l = Except.ok l') :
    l'.map (fun d => d.typ) = l.map (fun d => d.typ) := by
  unfold nameRadComponents at h
  split at h
  · exact setComponent_types h
  · simp only [bind_ok_iff] at h
    obtain ⟨photons, -, h⟩ := h
    split at h
    · refine foldlM_invariant
        (fun x => x.map (fun d => d.typ) = l.map (fun d => d.typ)) _ ?_ _ _ _ rfl h
      intro a x b ha hb
      simp only [bind_ok_iff] at hb
      obtain ⟨nm, -, hb⟩ := hb
      rw [setComponent_types hb, ha]
    · refine neutrinoLoop_invariant
        (fun x => x.map (fun d => d.typ) = l.map (fun d => d.typ)) ?_ rfl h
      intro a j i indx b ha hb
      simp only [bind_ok_iff] at hb
      obtain ⟨nm, -, hb⟩ := hb
      rw [setComponent_types hb, ha]

theorem descOf_append_new {l : List StateDescriptor} {d : StateDescriptor}
    (hl : ∀ x ∈ l, x.typ ≠ d.typ) : descOf (l ++ [d]) d.typ = some d := by
  unfold descOf
  rw [List.find?_append]
  have h1 : List.find? (fun x => decide (x.typ = d.typ)) l = none := by
    rw [List.find?_eq_none]
    intro x hx
    simp [hl x hx]
  simp [h1]

/-- The radiation phase: the record it leaves, the types of the list it leaves, and the
records of the components of `Rad_Type`. -/
theorem nameRadiation_result {cfg : Config} {s : Castro} {interp : Interpolater}
    (hdim : 1 ≤ cfg.BL_SPACEDIM ∧ cfg.BL_SPACEDIM ≤ 3)
    (hp : validPhys cfg.BL_SPACEDIM cfg.phys_bc) {bc bc' : BCRec FillCode}
    (hbc : bc.sized cfg.BL_SPACEDIM) {l l' : List StateDescriptor}
    (hl : ∀ x ∈ l, x.typ ≠ StateType.Rad_Type)
    (h : nameRadiation cfg s interp bc l = Except.ok (l', bc')) :
    bc' = (if cfg.RADIATION then scalarRec cfg.phys_bc else bc) ∧
    l'.map (fun d => d.typ)
      = l.map (fun d => d.typ) ++ (if cfg.RADIATION then [StateType.Rad_Type] else []) ∧
    (cfg.RADIATION = true →
      ∃ d, descOf l' StateType.Rad_Type = some d ∧
        registeredWith (scalarRec cfg.phys_bc) cfg.BL_SPACEDIM d) := by
  unfold nameRadiation at h
  split at h
  · rename_i hR
    rw [set_scalar_bc_eq hdim hbc hp] at h
    simp only [ok_bind, bind_ok_iff, pure_ok_iff, Prod.mk.injEq] at h
    obtain ⟨_, -, l1, h1, rfl, rfl⟩ := h
    refine ⟨by simp [hR], ?_, fun _ => ?_⟩
    · rw [nameRadComponents_types h1]
      simp [addDescriptor, StateDescriptor.define, hR]
    · refine nameRadComponents_registered (d := StateDescriptor.define cfg.BL_SPACEDIM
        StateType.Rad_Type 1 cfg.nGroups interp false true) ?_
        (registeredWith_define _ _ _ _ _ _ _ _) h1
      exact descOf_append_new (d := StateDescriptor.define cfg.BL_SPACEDIM
        StateType.Rad_Type 1 cfg.nGroups interp false true) hl
  · rename_i hR
    simp only [pure_ok_iff, Prod.mk.injEq] at h
    obtain ⟨rfl, rfl⟩ := h
    refine ⟨by simp [hR], by simp [hR], fun hc => absurd hc hR⟩

/-! ## The descriptors of a completed run, type by type -/

theorem bcAfterSDC_sized {cfg : Config} (s : Castro)
    (hp : validPhys cfg.BL_SPACEDIM cfg.phys_bc) :
    (bcAfterSDC cfg s).sized cfg.BL_SPACEDIM := by
  unfold bcAfterSDC
  split
  · exact scalarRec_sized hp
  · exact bcAfterReactions_sized s hp

/-- In every completed run the components of `Rad_Type` that were given a name carry the
record of `set_scalar_bc`, and `KnapsackWeight` carries the record `bcAtKnapsack`. -/
theorem late_descriptors {cfg : Config} {s s' : Castro} (hr : cfg.ready s)
    (h : Castro.variableSetUp cfg s = Except.ok s') :
    (cfg.RADIATION = true →
      ∃ d, descOf s'.desc_lst StateType.Rad_Type = some d ∧
        registeredWith (scalarRec cfg.phys_bc) cfg.BL_SPACEDIM d) ∧
    (cfg.use_custom_knapsack_weights = true →
      descOf s'.desc_lst StateType.Knapsack_Weight_Type
        = some (knapsackDescriptor cfg.BL_SPACEDIM (bcAtKnapsack cfg (assignIndices cfg s)))) := by
  obtain ⟨d5, bc5, k, h8, h9, g, -⟩ := phases_of_run hr h
  obtain ⟨hdim, hp, hs, hfit⟩ := hr
  have hbase : ∀ x ∈ (descriptorsAdded cfg (assignIndices cfg s) (chooseInterp cfg)).map
      (phasesMap cfg (assignIndices cfg s)),
      x.typ ≠ StateType.Knapsack_Weight_Type ∧ x.typ ≠ StateType.Rad_Type := by
    intro x hx
    obtain ⟨y, hy, rfl⟩ := List.mem_map.mp hx
    rw [(g y hy).1]
    exact base_not_late _ _ _ y hy
  obtain ⟨ebc, etyp, hrad⟩ := nameRadiation_result hdim hp (bcAfterSDC_sized _ hp)
    (fun x hx => (hbase x hx).2) h8
  have hk5 : ∀ d ∈ d5, d.typ ≠ StateType.Knapsack_Weight_Type := by
    intro d hd
    have hm : d.typ ∈ d5.map (fun d => d.typ) := List.mem_map.mpr ⟨d, hd, rfl⟩
    rw [etyp, List.mem_append] at hm
    rcases hm with hm | hm
    · obtain ⟨y, hy, e⟩ := List.mem_map.mp hm
      rw [← e]
      exact (hbase y hy).1
    · split at hm
      · simp only [List.mem_singleton] at hm
        rw [hm]
        decide
      · cases hm
  constructor
  · intro hR
    obtain ⟨d, hd, hreg⟩ := hrad hR
    exact ⟨d, nameKnapsack_other (by decide) hd h9, hreg⟩
  · intro hK
    rw [nameKnapsack_eq _ _ _ hk5] at h9
    have e : s'.desc_lst = d5 ++ [knapsackDescriptor cfg.BL_SPACEDIM bc5] := by
      have := (Prod.mk.inj (Except.ok.inj h9)).1
      rw [← this, if_pos hK]
    rw [e, ebc]
    exact descOf_append_new (d := knapsackDescriptor cfg.BL_SPACEDIM
      (if cfg.RADIATION then scalarRec cfg.phys_bc else bcAfterSDC cfg (assignIndices cfg s)))
      hk5

theorem stateBcList_scalar (cfg : Config) (s : Castro) {i : Nat} {b : BCRec FillCode}
    (hb : (stateBcList cfg s)[i]? = some b) (h1 : i ≠ 1) (h2 : i ≠ 2) (h3 : i ≠ 3) :
    b = scalarRec cfg.phys_bc := by
  unfold stateBcList at hb
  rcases Nat.lt_or_ge i 4 with hlt | hge
  · have h0 : i = 0 := by omega
    subst h0
    simpa using hb.symm
  · rw [List.getElem?_append_right (by simpa using hge)] at hb
    exact List.eq_of_mem_replicate (List.getElem?_mem hb)

theorem phasesMap_sdc_source (cfg : Config) (s : Castro) (d : StateDescriptor)
    (hd : d.typ = StateType.SDC_Source_Type) (hS : cfg.SDC = true) :
    phasesMap cfg s d
      = { d with names := (stateNameList cfg s).map (fun nm => "sdc_sources_" ++ nm),
                 bc := stateBcList cfg s } := by
  simp only [phasesMap, sdcMap, reactionsMap, sourceMap, rotationMap, gravityMap,
    Function.comp, hS]
  cases cfg.REACTIONS <;> cases cfg.ROTATION <;> cases cfg.SELF_GRAVITY <;>
    simp [fill, fillFirst, upd, hd]

theorem phasesMap_phigrav (cfg : Config) (s : Castro) (d : StateDescriptor)
    (hd : d.typ = StateType.PhiGrav_Type) (hG : cfg.SELF_GRAVITY = true) :
    phasesMap cfg s d
      = { d with names := d.names.set 0 "phiGrav",
                 bc := d.bc.set 0 (scalarRec cfg.phys_bc) } := by
  simp only [phasesMap, sdcMap, reactionsMap, sourceMap, rotationMap, gravityMap,
    Function.comp, hG]
  cases cfg.SDC <;> cases cfg.REACTIONS <;> cases cfg.ROTATION <;>
    simp [fill, fillFirst, upd, hd]

theorem phasesMap_phirot (cfg : Config) (s : Castro) (d : StateDescriptor)
    (hd : d.typ = StateType.PhiRot_Type) (hG : cfg.ROTATION = true) :
    phasesMap cfg s d
      = { d with names := d.names.set 0 "phiRot",
                 bc := d.bc.set 0 (scalarRec cfg.phys_bc) } := by
  simp only [phasesMap, sdcMap, reactionsMap, sourceMap, rotationMap, gravityMap,
    Function.comp, hG]
  cases cfg.SDC <;> cases cfg.REACTIONS <;> cases cfg.SELF_GRAVITY <;>
    simp [fill, fillFirst, upd, hd]

theorem phasesMap_reactions (cfg : Config) (s : Castro) (d : StateDescriptor)
    (hd : d.typ = StateType.Reactions_Type) (hG : cfg.REACTIONS = true) :
    phasesMap cfg s d
      = upd StateType.Reactions_Type (s.NumSpec.toNat + 1) "rho_enuc" (bcAtEnuc cfg s)
          (upd StateType.Reactions_Type s.NumSpec.toNat "enuc" (bcAtEnuc cfg s)
            (fillFirst StateType.Reactions_Type s.NumSpec.toNat
              (fun i => "omegadot_" ++ cfg.ca_get_spec_names i) (scalarRec cfg.phys_bc) d)) := by
  simp only [phasesMap, sdcMap, reactionsMap, sourceMap, rotationMap, gravityMap,
    Function.comp, hG]
  cases cfg.SDC <;> cases cfg.ROTATION <;> cases cfg.SELF_GRAVITY <;>
    simp [fill, fillFirst, upd, hd]

theorem phasesMap_sdc_react (cfg : Config) (s : Castro) (d : StateDescriptor)
    (hd : d.typ = StateType.SDC_React_Type) (hS : cfg.SDC = true)
    (hG : cfg.REACTIONS = true) :
    phasesMap cfg s d
      = fillFirst StateType.SDC_React_Type s.QVAR.toNat
          (fun i => "sdc_react_source_" ++ toString i) (scalarRec cfg.phys_bc) d := by
  simp only [phasesMap, sdcMap, reactionsMap, sourceMap, rotationMap, gravityMap,
    Function.comp, hG, hS]
  cases cfg.ROTATION <;> cases cfg.SELF_GRAVITY <;>
    simp [fill, fillFirst, upd, hd]
theorem reactions_closed (dim : Nat) (m : Int) (n : Nat) (hlen : m.toNat = n + 2)
    (f : Nat → String) (S E : BCRec FillCode) (ngrow : Int) (interp : Interpolater)
    (e c : Bool) :
    (upd StateType.Reactions_Type (n + 1) "rho_enuc" E
      (upd StateType.Reactions_Type n "enuc" E
        (fillFirst StateType.Reactions_Type n f S
          (StateDescriptor.define dim StateType.Reactions_Type ngrow m interp e c)))).names
      = (List.range n).map f ++ ["enuc", "rho_enuc"] ∧
    (upd StateType.Reactions_Type (n + 1) "rho_enuc" E
      (upd StateType.Reactions_Type n "enuc" E
        (fillFirst StateType.Reactions_Type n f S
          (StateDescriptor.define dim StateType.Reactions_Type ngrow m interp e c)))).bc
      = List.replicate n S ++ [E, E] := by
  have h1 : ∀ (l : List String) (a b x y : String), l.length = n →
      ((l ++ [a, b]).set n x).set (n + 1) y = l ++ [x, y] := by
    intro l a b x y hl
    subst hl
    simp [List.set_append]
  have h2 : ∀ (l : List (BCRec FillCode)) (a b x y : BCRec FillCode), l.length = n →
      ((l ++ [a, b]).set n x).set (n + 1) y = l ++ [x, y] := by
    intro l a b x y hl
    subst hl
    simp [List.set_append]
  have r2 : ∀ {α : Type} (a : α), List.replicate 2 a = [a, a] := fun _ => rfl
  constructor
  · simp only [upd, fillFirst, StateDescriptor.define, if_true, hlen, List.drop_replicate,
      Nat.add_sub_cancel_left, r2]
    exact h1 _ _ _ _ _ (by simp)
  · simp only [upd, fillFirst, StateDescriptor.define, if_true, hlen, List.drop_replicate,
      Nat.add_sub_cancel_left, r2]
    exact h2 _ _ _ _ _ (by simp)

theorem append_two_get {α : Type} (l : List α) (x y : α) {n : Nat} (hl : l.length = n) :
    (l ++ [x, y])[n]? = some x ∧ (l ++ [x, y])[n + 1]? = some y ∧
      ∀ i < n, (l ++ [x, y])[i]? = l[i]? := by
  subst hl
  refine ⟨?_, ?_, fun i hi => List.getElem?_append_left hi⟩
  · rw [List.getElem?_append_right (Nat.le_refl _)]
    simp
  · rw [List.getElem?_append_right (by omega)]
    simp

/-! ## The names of the registry in closed form -/

theorem next_wrote {n w : Nat} {st st' : Naming}
    {f : BCRec FillCode → Except Abort (BCRec FillCode)} {nm : String}
    (hw : st.wrote n w) (h : st.next f nm = Except.ok st') : st'.wrote n (w + 1) := by
  obtain ⟨hl, hc, -⟩ := hw
  unfold Naming.next Naming.put at h
  simp only [bind_ok_iff, pure_ok_iff] at h
  obtain ⟨bc, -, bcs, -, name, hname, rfl⟩ := h
  obtain ⟨h0, hlt, rfl⟩ := assign_ok hname
  refine ⟨by simp [hl], ?_, ?_⟩
  · show st.cnt + 1 + 1 = ((w + 1 : Nat) : Int)
    rw [hc]
    push_cast
    rfl
  · have : (st.cnt + 1).toNat = w := by omega
    rw [this, hl] at hlt
    omega

theorem put_wrote {n : Nat} {st st' : Naming}
    {f : BCRec FillCode → Except Abort (BCRec FillCode)} {nm : String}
    (hl : st.name.length = n) (hc : st.cnt = 0) (h : st.put f nm = Except.ok st') :
    st'.wrote n 1 := by
  unfold Naming.put at h
  simp only [bind_ok_iff, pure_ok_iff] at h
  obtain ⟨bc, -, bcs, -, name, hname, rfl⟩ := h
  obtain ⟨h0, hlt, rfl⟩ := assign_ok hname
  refine ⟨by simp [hl], ?_, ?_⟩
  · show st.cnt + 1 = ((1 : Nat) : Int)
    rw [hc]
    rfl
  · rw [hl] at hlt
    omega

theorem loop_wrote {n : Nat} (g : Naming → Nat → Except Abort Naming)
    (hg : ∀ st i st' w, st.wrote n w → g st i = Except.ok st' → st'.wrote n (w + 1)) :
    ∀ (l : List Nat) (w : Nat) (st st' : Naming), st.wrote n w →
      l.foldlM g st = Except.ok st' → st'.wrote n (w + l.length) := by
  intro l
  induction l with
  | nil =>
    intro w st st' hw h
    simp only [List.foldlM_nil, pure_ok_iff] at h
    subst h
    exact hw
  | cons i l ih =>
    intro w st st' hw h
    simp only [List.foldlM_cons, bind_ok_iff] at h
    obtain ⟨st1, h1, h2⟩ := h
    have := ih (w + 1) st1 st' (hg _ _ _ _ hw h1) h2
    rw [List.length_cons]
    have e : w + (l.length + 1) = w + 1 + l.length := by omega
    rw [e]
    exact this

/-- A naming pass that completes has stored one entry for every name of `stateNameList`, in
arrays of `NUM_STATE` elements. -/
theorem nameState_wrote {cfg : Config} {s : Castro} {bc : BCRec FillCode} {st : Naming}
    (h : nameState cfg s bc = Except.ok st) :
    (stateNameList cfg s).length ≤ s.NUM_STATE.toNat := by
  unfold nameState at h
  simp only [bind_ok_iff] at h
  obtain ⟨s1, h1, s2, h2, s3, h3, s4, h4, s5, h5, s6, h6, s7, h7, s8, h8, s9, h9, s10, h10,
    s11, h11, h12⟩ := h
  have w1 := put_wrote (n := s.NUM_STATE.toNat) (by simp) rfl h1
  have w2 := next_wrote w1 h2
  have w3 := next_wrote w2 h3
  have w4 := next_wrote w3 h4
  have w5 : s5.wrote s.NUM_STATE.toNat (4 + (if cfg.HYBRID_MOMENTUM then 3 else 0)) := by
    unfold nameHybrid at h5
    split at h5
    · rename_i hH
      simp only [bind_ok_iff] at h5
      obtain ⟨a, ha, b, hb, hc⟩ := h5
      simp only [hH, if_true]
      exact next_wrote (next_wrote (next_wrote w4 ha) hb) hc
    · rename_i hH
      rw [pure_ok_iff] at h5
      subst h5
      simp only [hH, Bool.false_eq_true, if_false, Nat.add_zero]
      exact w4
  have w6 := next_wrote w5 h6
  have w7 := next_wrote w6 h7
  have w8 := next_wrote w7 h8
  have w9 := loop_wrote _ (fun st i st' w hw hg => next_wrote hw hg) _ _ _ _ w8 h9
  have w10 := loop_wrote _ (fun st i st' w hw hg => by
    simp only [bind_ok_iff] at hg
    obtain ⟨nm, -, hg⟩ := hg
    exact next_wrote hw hg) _ _ _ _ w9 h10
  have w11 := loop_wrote _ (fun st i st' w hw hg => by
    simp only [bind_ok_iff] at hg
    obtain ⟨nm, -, hg⟩ := hg
    exact next_wrote hw hg) _ _ _ _ w10 h11
  have w12 : st.wrote s.NUM_STATE.toNat
      (4 + (if cfg.HYBRID_MOMENTUM then 3 else 0) + 1 + 1 + 1
        + (List.range s.NumAdv.toNat).length + (List.range s.NumSpec.toNat).length
        + (List.range s.NumAux.toNat).length + (if cfg.SHOCK_VAR then 1 else 0)) := by
    unfold nameShock at h12
    split at h12
    · rename_i hS
      simp only [hS, if_true]
      exact next_wrote w11 h12
    · rename_i hS
      rw [pure_ok_iff] at h12
      subst h12
      simp only [hS, Bool.false_eq_true, if_false, Nat.add_zero]
      exact w11
  have hle := w12.2.2
  rw [stateNameList_length]
  simp only [List.length_range] at hle
  omega

/-- A run that completes has a component count that an `int` holds: the precondition
`stateCount cfg ≤ INT_MAX` excludes no completed run. -/
theorem fits_of_run {cfg : Config} {s s' : Castro}
    (h : Castro.variableSetUp cfg s = Except.ok s') : stateCount cfg ≤ INT_MAX := by
  obtain ⟨st, d0, dg, bcg, d1, bc1, d2, src, d3, bc3, d4, bc4, d5, bc5, d6, k, dl,
    hst, -⟩ := variableSetUp_inv h
  have hle := nameState_wrote hst
  obtain ⟨-, -, -, -, -, -, -, hA, hS, hX, -⟩ := assignIndices_fixed cfg s
  rw [stateNameList_length, hA, hS, hX, assignIndices_wraps] at hle
  have h1 := added_toNat (numAdv cfg)
  have h2 := added_toNat cfg.ca_get_num_spec
  have h3 := added_toNat cfg.ca_get_num_aux
  obtain ⟨n0, n1, n2, n3⟩ := stateCount_fixed cfg
  have hsc : stateCount cfg = 7 + hybridCount cfg + added (numAdv cfg)
      + added cfg.ca_get_num_spec + added cfg.ca_get_num_aux
      + (if cfg.SHOCK_VAR then 1 else 0) := rfl
  unfold INT_MAX
  unfold wrapInt at hle
  unfold hybridCount at hsc n0
  revert hle hsc
  cases cfg.HYBRID_MOMENTUM <;> cases cfg.SHOCK_VAR <;> simp <;> omega

/-! ## Claims on the field registry -/

/-- C3: with no species, no auxiliary and no advected quantity, without hybrid momentum and
shock variable, without radiation, in three dimensions with `SlipWall` on all six faces,
`variableSetUp` completes; `NUM_STATE` is 7; the descriptor of `State_Type` has 7 components
named density, xmom, ymom, zmom, rho_E, rho_e, Temp at the offsets `Density = 0` ..
`Temp = 6`; xmom, ymom and zmom have `REFLECT_ODD` on both faces of their own axis and
`REFLECT_EVEN` on the other four faces; the other four components have `REFLECT_EVEN` on all
six faces. -/
theorem C3_plain_state_group (cfg : Config) (s : Castro)
    (hflags : cfg.HYBRID_MOMENTUM = false ∧ cfg.SHOCK_VAR = false ∧ cfg.RADIATION = false ∧
      cfg.NEUTRINO = false)
    (hcounts : cfg.NUM_ADV = none ∧ cfg.ca_get_num_spec = 0 ∧ cfg.ca_get_num_aux = 0)
    (hdom : cfg.BL_SPACEDIM = 3 ∧
      cfg.phys_bc = ⟨[SlipWall, SlipWall, SlipWall], [SlipWall, SlipWall, SlipWall]⟩)
    (hfresh : s.desc_lst = []) (hdbg : cfg.DEBUG = true → cfg.state_nghost ≥ 0) :
    ∃ s' d, Castro.variableSetUp cfg s = Except.ok s' ∧
      s'.NUM_STATE = 7 ∧
      [s'.Density, s'.Xmom, s'.Ymom, s'.Zmom, s'.Eden, s'.Eint, s'.Temp] = [0, 1, 2, 3, 4, 5, 6] ∧
      descOf s'.desc_lst StateType.State_Type = some d ∧
      d.ncomp = 7 ∧
      d.names = ["density", "xmom", "ymom", "zmom", "rho_E", "rho_e", "Temp"] ∧
      d.bc = [⟨[REFLECT_EVEN, REFLECT_EVEN, REFLECT_EVEN], [REFLECT_EVEN, REFLECT_EVEN, REFLECT_EVEN]⟩,
              ⟨[REFLECT_ODD, REFLECT_EVEN, REFLECT_EVEN], [REFLECT_ODD, REFLECT_EVEN, REFLECT_EVEN]⟩,
              ⟨[REFLECT_EVEN, REFLECT_ODD, REFLECT_EVEN], [REFLECT_EVEN, REFLECT_ODD, REFLECT_EVEN]⟩,
              ⟨[REFLECT_EVEN, REFLECT_EVEN, REFLECT_ODD], [REFLECT_EVEN, REFLECT_EVEN, REFLECT_ODD]⟩,
              ⟨[REFLECT_EVEN, REFLECT_EVEN, REFLECT_EVEN], [REFLECT_EVEN, REFLECT_EVEN, REFLECT_EVEN]⟩,
              ⟨[REFLECT_EVEN, REFLECT_EVEN, REFLECT_EVEN], [REFLECT_EVEN, REFLECT_EVEN, REFLECT_EVEN]⟩,
              ⟨[REFLECT_EVEN, REFLECT_EVEN, REFLECT_EVEN], [REFLECT_EVEN, REFLECT_EVEN, REFLECT_EVEN]⟩] := by
  obtain ⟨hH, hSh, hR, hNu⟩ := hflags
  obtain ⟨hA, hS, hX⟩ := hcounts
  obtain ⟨hd, hphys⟩ := hdom
  have hdim : 1 ≤ cfg.BL_SPACEDIM ∧ cfg.BL_SPACEDIM ≤ 3 := by omega
  have hp : validPhys cfg.BL_SPACEDIM cfg.phys_bc := by
    rw [hd, hphys]
    refine ⟨⟨rfl, rfl⟩, ?_, ?_⟩ <;> decide
  have hna : numAdv cfg = 0 := by simp [numAdv, hA]
  have hhy : hybridCount cfg = 0 := by simp [hybridCount, hH]
  have hfit : stateCount cfg ≤ INT_MAX := by
    simp [stateCount, INT_MAX, hna, hS, hX, hhy, added, hSh]
  have hrun := @variableSetUp_eq cfg s ⟨hdim, hp, hfresh, hfit⟩ hR hNu hdbg
    (by intro _; omega)
  have hdesc := state_descriptor hdim hp hfresh hfit hrun
  obtain ⟨hD, hXm, hY, hZ, hEd, hEi, hT, hNA, hNS, hNX, -⟩ := assignIndices_fixed cfg s
  have hNum : (assignIndices cfg s).NUM_STATE = 7 := by
    rw [assignIndices_NUM_STATE cfg s hfit, hna, hS, hX, hhy]
    simp [added, hSh]
  refine ⟨finalState cfg s, stateDescriptor cfg (assignIndices cfg s), hrun, hNum, ?_, hdesc,
    hNum, ?_, ?_⟩
  · show [(assignIndices cfg s).Density, (assignIndices cfg s).Xmom,
      (assignIndices cfg s).Ymom, (assignIndices cfg s).Zmom, (assignIndices cfg s).Eden,
      (assignIndices cfg s).Eint, (assignIndices cfg s).Temp] = _
    rw [hD, hXm, hY, hZ, hEd, hEi, hT, hhy]
    rfl
  · have hnames : stateNameList cfg (assignIndices cfg s)
        = ["density", "xmom", "ymom", "zmom", "rho_E", "rho_e", "Temp"] := by
      simp [stateNameList, hH, hSh, hNA, hNS, hNX, hna, hS, hX]
    exact hnames
  · have hnames : stateNameList cfg (assignIndices cfg s)
        = ["density", "xmom", "ymom", "zmom", "rho_E", "rho_e", "Temp"] := by
      simp [stateNameList, hH, hSh, hNA, hNS, hNX, hna, hS, hX]
    show stateBcList cfg (assignIndices cfg s) = _
    rw [stateBcList, hnames, hphys]
    rfl

/-- C3 at the configuration `plainConfig`, started from the initial static members. -/
theorem C3_plain_state_group_witness :
    ∃ s' d, Castro.variableSetUp plainConfig (Castro.initial (-1)) = Except.ok s' ∧
      s'.NUM_STATE = 7 ∧
      [s'.Density, s'.Xmom, s'.Ymom, s'.Zmom, s'.Eden, s'.Eint, s'.Temp] = [0, 1, 2, 3, 4, 5, 6] ∧
      descOf s'.desc_lst StateType.State_Type = some d ∧
      d.ncomp = 7 ∧
      d.names = ["density", "xmom", "ymom", "zmom", "rho_E", "rho_e", "Temp"] ∧
      d.bc = [⟨[REFLECT_EVEN, REFLECT_EVEN, REFLECT_EVEN], [REFLECT_EVEN, REFLECT_EVEN, REFLECT_EVEN]⟩,
              ⟨[REFLECT_ODD, REFLECT_EVEN, REFLECT_EVEN], [REFLECT_ODD, REFLECT_EVEN, REFLECT_EVEN]⟩,
              ⟨[REFLECT_EVEN, REFLECT_ODD, REFLECT_EVEN], [REFLECT_EVEN, REFLECT_ODD, REFLECT_EVEN]⟩,
              ⟨[REFLECT_EVEN, REFLECT_EVEN, REFLECT_ODD], [REFLECT_EVEN, REFLECT_EVEN, REFLECT_ODD]⟩,
              ⟨[REFLECT_EVEN, REFLECT_EVEN, REFLECT_EVEN], [REFLECT_EVEN, REFLECT_EVEN, REFLECT_EVEN]⟩,
              ⟨[REFLECT_EVEN, REFLECT_EVEN, REFLECT_EVEN], [REFLECT_EVEN, REFLECT_EVEN, REFLECT_EVEN]⟩,
              ⟨[REFLECT_EVEN, REFLECT_EVEN, REFLECT_EVEN], [REFLECT_EVEN, REFLECT_EVEN, REFLECT_EVEN]⟩] :=
  C3_plain_state_group plainConfig (Castro.initial (-1)) ⟨rfl, rfl, rfl, rfl⟩ ⟨rfl, rfl, rfl⟩
    ⟨rfl, rfl⟩ rfl (fun _ => by decide)

theorem added_eq_toNat (n : Int) : added n = (n.toNat : Int) := by
  unfold added
  split <;> omega

/-- C10 fails as stated: in the configuration `overflowConfig`, whose number of species is
`2147483647`, an `int`, the configuration asks for `2147483654` components; the counter of the
first pass is an `int` and leaves `NUM_STATE = -2147483642`, the naming pass stores no entry
and the run does not complete. -/
theorem C10_count_overflows_int :
    0 ≤ overflowConfig.ca_get_num_spec ∧ overflowConfig.ca_get_num_spec ≤ INT_MAX ∧
    stateCount overflowConfig = 2147483654 ∧
    (assignIndices overflowConfig (Castro.initial (-1))).NUM_STATE = -2147483642 ∧
    (¬ ∃ st, nameState overflowConfig (assignIndices overflowConfig (Castro.initial (-1)))
      (BCRec.unset overflowConfig.BL_SPACEDIM) = Except.ok st) ∧
    (¬ ∃ s', Castro.variableSetUp overflowConfig (Castro.initial (-1)) = Except.ok s') := by
  have h1 : nameState overflowConfig (assignIndices overflowConfig (Castro.initial (-1)))
      (BCRec.unset overflowConfig.BL_SPACEDIM) = Except.error Abort.OutOfRange := rfl
  have h2 : Castro.variableSetUp overflowConfig (Castro.initial (-1))
      = Except.error Abort.OutOfRange := rfl
  refine ⟨by decide, by decide, by decide, by decide, ?_, ?_⟩
  · rintro ⟨st, h⟩
    rw [h1] at h
    cases h
  · rintro ⟨s', h⟩
    rw [h2] at h
    cases h

/-- The naming pass and the first pass when the number of components fits the type `int`. -/
theorem offsets_address_names (cfg : Config) (s : Castro)
    (hdim : 1 ≤ cfg.BL_SPACEDIM ∧ cfg.BL_SPACEDIM ≤ 3)
    (hp : validPhys cfg.BL_SPACEDIM cfg.phys_bc) (hfit : stateCount cfg ≤ INT_MAX) :
    ∃ st, nameState cfg (assignIndices cfg s) (BCRec.unset cfg.BL_SPACEDIM) = Except.ok st ∧
      (st.written.length : Int) = (assignIndices cfg s).NUM_STATE ∧
      st.written = (List.range (assignIndices cfg s).NUM_STATE.toNat).map (fun (i : Nat) => (i : Int)) ∧
      (st.name.length : Int) = (assignIndices cfg s).NUM_STATE ∧
      (st.bcs.length : Int) = (assignIndices cfg s).NUM_STATE ∧
      subscript st.name (assignIndices cfg s).Density = Except.ok "density" ∧
      subscript st.name (assignIndices cfg s).Xmom = Except.ok "xmom" ∧
      subscript st.name (assignIndices cfg s).Ymom = Except.ok "ymom" ∧
      subscript st.name (assignIndices cfg s).Zmom = Except.ok "zmom" ∧
      (cfg.HYBRID_MOMENTUM = true →
        subscript st.name (assignIndices cfg s).Rmom = Except.ok "rmom" ∧
        subscript st.name (assignIndices cfg s).Lmom = Except.ok "lmom" ∧
        subscript st.name (assignIndices cfg s).Pmom = Except.ok "pmom") ∧
      subscript st.name (assignIndices cfg s).Eden = Except.ok "rho_E" ∧
      subscript st.name (assignIndices cfg s).Eint = Except.ok "rho_e" ∧
      subscript st.name (assignIndices cfg s).Temp = Except.ok "Temp" ∧
      (∀ i : Nat, (i : Int) < (assignIndices cfg s).NumAdv →
        subscript st.name ((assignIndices cfg s).FirstAdv + i) = Except.ok ("adv_" ++ toString i)) ∧
      (∀ i : Nat, (i : Int) < (assignIndices cfg s).NumSpec →
        ∃ nm, subscript (spec_names cfg (assignIndices cfg s)) i = Except.ok nm ∧
          subscript st.name ((assignIndices cfg s).FirstSpec + i) = Except.ok ("rho_" ++ nm)) ∧
      (∀ i : Nat, (i : Int) < (assignIndices cfg s).NumAux →
        ∃ nm, subscript (aux_names cfg (assignIndices cfg s)) i = Except.ok nm ∧
          subscript st.name ((assignIndices cfg s).FirstAux + i) = Except.ok ("rho_" ++ nm)) ∧
      (cfg.SHOCK_VAR = true → subscript st.name (assignIndices cfg s).Shock = Except.ok "Shock") ∧
      (∀ s₂ : Castro,
        (assignIndices cfg s₂).NUM_STATE = (assignIndices cfg s).NUM_STATE ∧
        [(assignIndices cfg s₂).Density, (assignIndices cfg s₂).Xmom,
          (assignIndices cfg s₂).Ymom, (assignIndices cfg s₂).Zmom,
          (assignIndices cfg s₂).Eden, (assignIndices cfg s₂).Eint,
          (assignIndices cfg s₂).Temp]
          = [(assignIndices cfg s).Density, (assignIndices cfg s).Xmom, (assignIndices cfg s).Ymom, (assignIndices cfg s).Zmom, (assignIndices cfg s).Eden, (assignIndices cfg s).Eint, (assignIndices cfg s).Temp] ∧
        ((assignIndices cfg s).NumAdv > 0 → (assignIndices cfg s₂).FirstAdv = (assignIndices cfg s).FirstAdv) ∧
        ((assignIndices cfg s).NumSpec > 0 → (assignIndices cfg s₂).FirstSpec = (assignIndices cfg s).FirstSpec) ∧
        ((assignIndices cfg s).NumAux > 0 → (assignIndices cfg s₂).FirstAux = (assignIndices cfg s).FirstAux) ∧
        (cfg.SHOCK_VAR = true → (assignIndices cfg s₂).Shock = (assignIndices cfg s).Shock)) ∧
      (s.desc_lst = [] → ∀ s', Castro.variableSetUp cfg s = Except.ok s' →
        ∃ d, descOf s'.desc_lst StateType.State_Type = some d ∧
          d.ncomp = (assignIndices cfg s).NUM_STATE ∧ s'.NUM_STATE = d.ncomp ∧
          d.names = st.name ∧ d.bc = st.bcs) ∧
      (s.desc_lst = [] → cfg.RADIATION = false → cfg.NEUTRINO = false →
        (cfg.DEBUG = true → cfg.state_nghost ≥ 0) →
        (cfg.REACTIONS = true → 0 ≤ cfg.ca_get_num_spec) →
        ∃ s', Castro.variableSetUp cfg s = Except.ok s') := by
  have hnew : s.desc_lst = [] → ∀ s', Castro.variableSetUp cfg s = Except.ok s' →
      ∃ d, descOf s'.desc_lst StateType.State_Type = some d ∧
        d.ncomp = (assignIndices cfg s).NUM_STATE ∧ s'.NUM_STATE = d.ncomp ∧
        d.names = stateNameList cfg (assignIndices cfg s) ∧
        d.bc = stateBcList cfg (assignIndices cfg s) := fun hs s' h =>
    ⟨_, state_descriptor hdim hp hs hfit h, rfl, (run_indices h).2.2.2.2.2.1, rfl, rfl⟩
  have hdone : s.desc_lst = [] → cfg.RADIATION = false → cfg.NEUTRINO = false →
      (cfg.DEBUG = true → cfg.state_nghost ≥ 0) →
      (cfg.REACTIONS = true → 0 ≤ cfg.ca_get_num_spec) →
      ∃ s', Castro.variableSetUp cfg s = Except.ok s' := fun hs hR hNu hdbg hspec =>
    ⟨_, variableSetUp_eq ⟨hdim, hp, hs, hfit⟩ hR hNu hdbg hspec⟩
  have hdet : ∀ s₂ : Castro,
      (assignIndices cfg s₂).NUM_STATE = (assignIndices cfg s).NUM_STATE ∧
      [(assignIndices cfg s₂).Density, (assignIndices cfg s₂).Xmom,
        (assignIndices cfg s₂).Ymom, (assignIndices cfg s₂).Zmom,
        (assignIndices cfg s₂).Eden, (assignIndices cfg s₂).Eint,
        (assignIndices cfg s₂).Temp]
        = [(assignIndices cfg s).Density, (assignIndices cfg s).Xmom,
            (assignIndices cfg s).Ymom, (assignIndices cfg s).Zmom,
            (assignIndices cfg s).Eden, (assignIndices cfg s).Eint,
            (assignIndices cfg s).Temp] ∧
      ((assignIndices cfg s).NumAdv > 0 →
        (assignIndices cfg s₂).FirstAdv = (assignIndices cfg s).FirstAdv) ∧
      ((assignIndices cfg s).NumSpec > 0 →
        (assignIndices cfg s₂).FirstSpec = (assignIndices cfg s).FirstSpec) ∧
      ((assignIndices cfg s).NumAux > 0 →
        (assignIndices cfg s₂).FirstAux = (assignIndices cfg s).FirstAux) ∧
      (cfg.SHOCK_VAR = true → (assignIndices cfg s₂).Shock = (assignIndices cfg s).Shock) := by
    intro s₂
    obtain ⟨hD, hXm, hY, hZ, hEd, hEi, hT, hNA, hNS, hNX, -⟩ := assignIndices_fixed cfg s
    obtain ⟨hFA, hFS, hFX, hSh⟩ := assignIndices_First cfg s hfit
    obtain ⟨kD, kXm, kY, kZ, kEd, kEi, kT, kNA, kNS, kNX, -⟩ := assignIndices_fixed cfg s₂
    obtain ⟨kFA, kFS, kFX, kSh⟩ := assignIndices_First cfg s₂ hfit
    have hNum := assignIndices_NUM_STATE cfg s hfit
    have kNum := assignIndices_NUM_STATE cfg s₂ hfit
    generalize assignIndices cfg s = a at *
    generalize assignIndices cfg s₂ = b at *
    refine ⟨by rw [hNum, kNum], ?_, ?_, ?_, ?_, ?_⟩
    · rw [hD, hXm, hY, hZ, hEd, hEi, hT, kD, kXm, kY, kZ, kEd, kEi, kT]
    · intro h
      rw [hNA] at h
      rw [hFA, kFA, if_pos h, if_pos h]
    · intro h
      rw [hNS] at h
      rw [hFS, kFS, if_pos h, if_pos h]
    · intro h
      rw [hNX] at h
      rw [hFX, kFX, if_pos h, if_pos h]
    · intro h
      rw [hSh, kSh, if_pos h, if_pos h]
  obtain ⟨hD, hXm, hY, hZ, hEd, hEi, hT, hNA, hNS, hNX, -⟩ := assignIndices_fixed cfg s
  obtain ⟨hFA, hFS, hFX, hSh⟩ := assignIndices_First cfg s hfit
  have hcount := assignIndices_count cfg s hfit
  have hNum := assignIndices_NUM_STATE cfg s hfit
  have hhyb : cfg.HYBRID_MOMENTUM = true →
      (assignIndices cfg s).Rmom = 4 ∧ (assignIndices cfg s).Lmom = 5 ∧
      (assignIndices cfg s).Pmom = 6 := assignIndices_hybrid cfg s
  have hst := nameState_eq cfg (assignIndices cfg s) hdim hp _ (unset_sized _) hcount
  obtain ⟨f0, f1, f2, f3, fH, fE, fe, fT⟩ := stateNameList_fixed cfg (assignIndices cfg s)
  have fadv := fun i => @stateNameList_adv cfg (assignIndices cfg s) i
  have fspec := fun i => @stateNameList_spec cfg (assignIndices cfg s) i
  have faux := fun i => @stateNameList_aux cfg (assignIndices cfg s) i
  have fshock := stateNameList_shock cfg (assignIndices cfg s)
  have hbl := stateBcList_length cfg (assignIndices cfg s)
  have hsp : ∀ i, i < (assignIndices cfg s).NumSpec.toNat →
      subscript (spec_names cfg (assignIndices cfg s)) (i : Int)
        = Except.ok (cfg.ca_get_spec_names i) := fun i hi => subscript_map_range _ hi
  have hax : ∀ i, i < (assignIndices cfg s).NumAux.toNat →
      subscript (aux_names cfg (assignIndices cfg s)) (i : Int)
        = Except.ok (cfg.ca_get_aux_names i) := fun i hi => subscript_map_range _ hi
  generalize assignIndices cfg s = a at *
  have hnn : 0 ≤ a.NUM_STATE := by
    rw [hNum]
    have n1 := added_nonneg (numAdv cfg)
    have n2 := added_nonneg cfg.ca_get_num_spec
    have n3 := added_nonneg cfg.ca_get_num_aux
    unfold hybridCount
    cases cfg.HYBRID_MOMENTUM <;> cases cfg.SHOCK_VAR <;> simp <;> omega
  have hlen : (((stateNameList cfg a).length : Nat) : Int) = a.NUM_STATE := by
    rw [← hcount]
    exact Int.toNat_of_nonneg hnn
  refine ⟨Naming.filled cfg.BL_SPACEDIM (stateNameList cfg a) (stateBcList cfg a) 0
    (scalarRec cfg.phys_bc), hst, ?_⟩
  simp only [Naming.filled, List.replicate_zero, List.append_nil, List.length_map,
    List.length_range]
  refine ⟨hlen, by rw [hcount], hlen, by rw [hbl]; exact hlen, ?_, ?_, ?_, ?_,
    ?_, ?_, ?_, ?_, ?_, ?_, ?_, ?_, hdet, hnew, hdone⟩
  · rw [hD]; exact f0
  · rw [hXm]; exact f1
  · rw [hY]; exact f2
  · rw [hZ]; exact f3
  · intro hH
    obtain ⟨r1, r2, r3⟩ := hhyb hH
    rw [r1, r2, r3]
    exact fH hH
  · rw [hEd]; exact fE
  · rw [hEi]; exact fe
  · rw [hT]; exact fT
  · intro i hi
    rw [hNA] at hi
    have hpos : numAdv cfg > 0 := by omega
    rw [hFA, if_pos hpos]
    exact fadv i (by rw [hNA]; omega)
  · intro i hi
    rw [hNS] at hi
    have hpos : cfg.ca_get_num_spec > 0 := by omega
    have hi' : i < a.NumSpec.toNat := by rw [hNS]; omega
    refine ⟨cfg.ca_get_spec_names i, hsp i hi', ?_⟩
    rw [hFS, if_pos hpos, added_eq_toNat, ← hNA]
    exact fspec i hi'
  · intro i hi
    rw [hNX] at hi
    have hpos : cfg.ca_get_num_aux > 0 := by omega
    have hi' : i < a.NumAux.toNat := by rw [hNX]; omega
    refine ⟨cfg.ca_get_aux_names i, hax i hi', ?_⟩
    rw [hFX, if_pos hpos, added_eq_toNat, added_eq_toNat, ← hNA, ← hNS]
    exact faux i hi'
  · intro hS
    rw [hSh, if_pos hS, added_eq_toNat, added_eq_toNat, added_eq_toNat, ← hNA, ← hNS, ← hNX]
    exact fshock hS

theorem richConfig_valid : validPhys richConfig.BL_SPACEDIM richConfig.phys_bc := by
  refine ⟨⟨rfl, rfl⟩, ?_, ?_⟩ <;> decide

/-- C10 as amended: when the number of components that the configuration asks for,
`stateCount cfg`, is at most `INT_MAX = 2147483647`, the naming pass completes and writes
`NUM_STATE` entries, at the subscripts `0, 1, .., NUM_STATE - 1` in this order (no gap, no
repeat) of two arrays of `NUM_STATE` elements; every index member assigned in the first pass
is the subscript of the entry of its own field (`name[Density] = "density"`, ..,
`name[FirstAdv + i] = "adv_i"`, `name[FirstSpec + i] = "rho_" + spec_names[i]`,
`name[FirstAux + i] = "rho_" + aux_names[i]`, `name[Shock] = "Shock"`); the offsets the first
pass assigns do not depend on the static members before the call, only on the configuration;
in every completed run that started without descriptors the descriptor of `State_Type` has
`ncomp = NUM_STATE` and carries exactly the names and boundary records of the naming pass;
and such a run without radiation completes. When the number of components exceeds `INT_MAX`,
the counter of the first pass, an `int`, leaves another value in `NUM_STATE` and no run
completes. -/
theorem C10_offsets_address_names (cfg : Config) (s : Castro)
    (hdim : 1 ≤ cfg.BL_SPACEDIM ∧ cfg.BL_SPACEDIM ≤ 3)
    (hp : validPhys cfg.BL_SPACEDIM cfg.phys_bc) :
    (stateCount cfg ≤ INT_MAX →
      ∃ st, nameState cfg (assignIndices cfg s) (BCRec.unset cfg.BL_SPACEDIM) = Except.ok st ∧
        (st.written.length : Int) = (assignIndices cfg s).NUM_STATE ∧
        st.written = (List.range (assignIndices cfg s).NUM_STATE.toNat).map (fun (i : Nat) => (i : Int)) ∧
        (st.name.length : Int) = (assignIndices cfg s).NUM_STATE ∧
        (st.bcs.length : Int) = (assignIndices cfg s).NUM_STATE ∧
        subscript st.name (assignIndices cfg s).Density = Except.ok "density" ∧
        subscript st.name (assignIndices cfg s).Xmom = Except.ok "xmom" ∧
        subscript st.name (assignIndices cfg s).Ymom = Except.ok "ymom" ∧
        subscript st.name (assignIndices cfg s).Zmom = Except.ok "zmom" ∧
        (cfg.HYBRID_MOMENTUM = true →
          subscript st.name (assignIndices cfg s).Rmom = Except.ok "rmom" ∧
          subscript st.name (assignIndices cfg s).Lmom = Except.ok "lmom" ∧
          subscript st.name (assignIndices cfg s).Pmom = Except.ok "pmom") ∧
        subscript st.name (assignIndices cfg s).Eden = Except.ok "rho_E" ∧
        subscript st.name (assignIndices cfg s).Eint = Except.ok "rho_e" ∧
        subscript st.name (assignIndices cfg s).Temp = Except.ok "Temp" ∧
        (∀ i : Nat, (i : Int) < (assignIndices cfg s).NumAdv →
          subscript st.name ((assignIndices cfg s).FirstAdv + i) = Except.ok ("adv_" ++ toString i)) ∧
        (∀ i : Nat, (i : Int) < (assignIndices cfg s).NumSpec →
          ∃ nm, subscript (spec_names cfg (assignIndices cfg s)) i = Except.ok nm ∧
            subscript st.name ((assignIndices cfg s).FirstSpec + i) = Except.ok ("rho_" ++ nm)) ∧
        (∀ i : Nat, (i : Int) < (assignIndices cfg s).NumAux →
          ∃ nm, subscript (aux_names cfg (assignIndices cfg s)) i = Except.ok nm ∧
            subscript st.name ((assignIndices cfg s).FirstAux + i) = Except.ok ("rho_" ++ nm)) ∧
        (cfg.SHOCK_VAR = true → subscript st.name (assignIndices cfg s).Shock = Except.ok "Shock") ∧
        (∀ s₂ : Castro,
          (assignIndices cfg s₂).NUM_STATE = (assignIndices cfg s).NUM_STATE ∧
          [(assignIndices cfg s₂).Density, (assignIndices cfg s₂).Xmom,
            (assignIndices cfg s₂).Ymom, (assignIndices cfg s₂).Zmom,
            (assignIndices cfg s₂).Eden, (assignIndices cfg s₂).Eint,
            (assignIndices cfg s₂).Temp]
            = [(assignIndices cfg s).Density, (assignIndices cfg s).Xmom, (assignIndices cfg s).Ymom, (assignIndices cfg s).Zmom, (assignIndices cfg s).Eden, (assignIndices cfg s).Eint, (assignIndices cfg s).Temp] ∧
          ((assignIndices cfg s).NumAdv > 0 → (assignIndices cfg s₂).FirstAdv = (assignIndices cfg s).FirstAdv) ∧
          ((assignIndices cfg s).NumSpec > 0 → (assignIndices cfg s₂).FirstSpec = (assignIndices cfg s).FirstSpec) ∧
          ((assignIndices cfg s).NumAux > 0 → (assignIndices cfg s₂).FirstAux = (assignIndices cfg s).FirstAux) ∧
          (cfg.SHOCK_VAR = true → (assignIndices cfg s₂).Shock = (assignIndices cfg s).Shock)) ∧
        (s.desc_lst = [] → ∀ s', Castro.variableSetUp cfg s = Except.ok s' →
          ∃ d, descOf s'.desc_lst StateType.State_Type = some d ∧
            d.ncomp = (assignIndices cfg s).NUM_STATE ∧ s'.NUM_STATE = d.ncomp ∧
            d.names = st.name ∧ d.bc = st.bcs) ∧
        (s.desc_lst = [] → cfg.RADIATION = false → cfg.NEUTRINO = false →
          (cfg.DEBUG = true → cfg.state_nghost ≥ 0) →
          (cfg.REACTIONS = true → 0 ≤ cfg.ca_get_num_spec) →
          ∃ s', Castro.variableSetUp cfg s = Except.ok s')) ∧
    (¬ stateCount cfg ≤ INT_MAX →
      (assignIndices cfg s).NUM_STATE = wrapInt (stateCount cfg) ∧
      (assignIndices cfg s).NUM_STATE ≠ stateCount cfg ∧
      ¬ ∃ s', Castro.variableSetUp cfg s = Except.ok s') := by
  refine ⟨fun hfit => offsets_address_names cfg s hdim hp hfit, fun hno => ⟨?_, ?_, ?_⟩⟩
  · exact assignIndices_wraps cfg s
  · rw [assignIndices_wraps]
    have := wrapInt_le (stateCount cfg)
    omega
  · rintro ⟨s', h⟩
    exact hno (fits_of_run h)

/-- C10 as amended, at the configuration `richConfig`, whose number of components fits the
type `int`, started from the initial static members. -/
theorem C10_offsets_address_names_witness :
    stateCount richConfig ≤ INT_MAX ∧
    (∃ st, nameState richConfig (assignIndices richConfig (Castro.initial (-1))) (BCRec.unset richConfig.BL_SPACEDIM) = Except.ok st ∧
        (st.written.length : Int) = (assignIndices richConfig (Castro.initial (-1))).NUM_STATE ∧
        st.written = (List.range (assignIndices richConfig (Castro.initial (-1))).NUM_STATE.toNat).map (fun (i : Nat) => (i : Int)) ∧
        (st.name.length : Int) = (assignIndices richConfig (Castro.initial (-1))).NUM_STATE ∧
        (st.bcs.length : Int) = (assignIndices richConfig (Castro.initial (-1))).NUM_STATE ∧
        subscript st.name (assignIndices richConfig (Castro.initial (-1))).Density = Except.ok "density" ∧
        subscript st.name (assignIndices richConfig (Castro.initial (-1))).Xmom = Except.ok "xmom" ∧
        subscript st.name (assignIndices richConfig (Castro.initial (-1))).Ymom = Except.ok "ymom" ∧
        subscript st.name (assignIndices richConfig (Castro.initial (-1))).Zmom = Except.ok "zmom" ∧
        (richConfig.HYBRID_MOMENTUM = true →
          subscript st.name (assignIndices richConfig (Castro.initial (-1))).Rmom = Except.ok "rmom" ∧
          subscript st.name (assignIndices richConfig (Castro.initial (-1))).Lmom = Except.ok "lmom" ∧
          subscript st.name (assignIndices richConfig (Castro.initial (-1))).Pmom = Except.ok "pmom") ∧
        subscript st.name (assignIndices richConfig (Castro.initial (-1))).Eden = Except.ok "rho_E" ∧
        subscript st.name (assignIndices richConfig (Castro.initial (-1))).Eint = Except.ok "rho_e" ∧
        subscript st.name (assignIndices richConfig (Castro.initial (-1))).Temp = Except.ok "Temp" ∧
        (∀ i : Nat, (i : Int) < (assignIndices richConfig (Castro.initial (-1))).NumAdv →
          subscript st.name ((assignIndices richConfig (Castro.initial (-1))).FirstAdv + i) = Except.ok ("adv_" ++ toString i)) ∧
        (∀ i : Nat, (i : Int) < (assignIndices richConfig (Castro.initial (-1))).NumSpec →
          ∃ nm, subscript (spec_names richConfig (assignIndices richConfig (Castro.initial (-1)))) i = Except.ok nm ∧
            subscript st.name ((assignIndices richConfig (Castro.initial (-1))).FirstSpec + i) = Except.ok ("rho_" ++ nm)) ∧
        (∀ i : Nat, (i : Int) < (assignIndices richConfig (Castro.initial (-1))).NumAux →
          ∃ nm, subscript (aux_names richConfig (assignIndices richConfig (Castro.initial (-1)))) i = Except.ok nm ∧
            subscript st.name ((assignIndices richConfig (Castro.initial (-1))).FirstAux + i) = Except.ok ("rho_" ++ nm)) ∧
        (richConfig.SHOCK_VAR = true → subscript st.name (assignIndices richConfig (Castro.initial (-1))).Shock = Except.ok "Shock") ∧
        (∀ s₂ : Castro,
          (assignIndices richConfig s₂).NUM_STATE = (assignIndices richConfig (Castro.initial (-1))).NUM_STATE ∧
          [(assignIndices richConfig s₂).Density, (assignIndices richConfig s₂).Xmom,
            (assignIndices richConfig s₂).Ymom, (assignIndices richConfig s₂).Zmom,
            (assignIndices richConfig s₂).Eden, (assignIndices richConfig s₂).Eint,
            (assignIndices richConfig s₂).Temp]
            = [(assignIndices richConfig (Castro.initial (-1))).Density, (assignIndices richConfig (Castro.initial (-1))).Xmom, (assignIndices richConfig (Castro.initial (-1))).Ymom, (assignIndices richConfig (Castro.initial (-1))).Zmom, (assignIndices richConfig (Castro.initial (-1))).Eden, (assignIndices richConfig (Castro.initial (-1))).Eint, (assignIndices richConfig (Castro.initial (-1))).Temp] ∧
          ((assignIndices richConfig (Castro.initial (-1))).NumAdv > 0 → (assignIndices richConfig s₂).FirstAdv = (assignIndices richConfig (Castro.initial (-1))).FirstAdv) ∧
          ((assignIndices richConfig (Castro.initial (-1))).NumSpec > 0 → (assignIndices richConfig s₂).FirstSpec = (assignIndices richConfig (Castro.initial (-1))).FirstSpec) ∧
          ((assignIndices richConfig (Castro.initial (-1))).NumAux > 0 → (assignIndices richConfig s₂).FirstAux = (assignIndices richConfig (Castro.initial (-1))).FirstAux) ∧
          (richConfig.SHOCK_VAR = true → (assignIndices richConfig s₂).Shock = (assignIndices richConfig (Castro.initial (-1))).Shock)) ∧
        ((Castro.initial (-1)).desc_lst = [] → ∀ s', Castro.variableSetUp richConfig (Castro.initial (-1)) = Except.ok s' →
          ∃ d, descOf s'.desc_lst StateType.State_Type = some d ∧
            d.ncomp = (assignIndices richConfig (Castro.initial (-1))).NUM_STATE ∧ s'.NUM_STATE = d.ncomp ∧
            d.names = st.name ∧ d.bc = st.bcs) ∧
        ((Castro.initial (-1)).desc_lst = [] → richConfig.RADIATION = false → richConfig.NEUTRINO = false →
          (richConfig.DEBUG = true → richConfig.state_nghost ≥ 0) →
          (richConfig.REACTIONS = true → 0 ≤ richConfig.ca_get_num_spec) →
          ∃ s', Castro.variableSetUp richConfig (Castro.initial (-1)) = Except.ok s')) :=
  ⟨by decide, (C10_offsets_address_names richConfig (Castro.initial (-1)) ⟨by decide, by decide⟩
    richConfig_valid).1 (by decide)⟩

/-! ## Order conditions of the tableaux -/

/-- C18 (the code at the five tableau blocks): every block satisfies the order conditions of
the order its name states (`Σ b = 1`; from order two on `Σ b c = 1/2`; for order three
`Σ b c² = 1/3` and `Σ b a c = 1/6`), and in the blocks `THIRDORDER`, `THIRDORDER_TVD`,
`SECONDORDER` and `SECONDORDER_TVD` every stage time is the sum of its row of `a_mol`; in the
block `FIRSTORDER` the stage time `c_mol[0]` is `0` while the row sum of `a_mol[0] = {1}` is
`1`. -/
theorem C18_firstorder_stage_time :
    (∀ kind, orderOne (molBlock kind)) ∧
    (∀ kind, 2 ≤ statedOrder kind → orderTwo (molBlock kind)) ∧
    (∀ kind, 3 ≤ statedOrder kind → orderThree (molBlock kind)) ∧
    (∀ kind, kind ≠ TableauKind.FIRSTORDER →
      (molBlock kind).c_mol = rowSums (molBlock kind)) ∧
    (molBlock TableauKind.FIRSTORDER).c_mol = [0] ∧
    rowSums (molBlock TableauKind.FIRSTORDER) = [1] ∧
    (molBlock TableauKind.FIRSTORDER).c_mol ≠ rowSums (molBlock TableauKind.FIRSTORDER) := by
  refine ⟨?_, ?_, ?_, ?_, rfl, ?_, ?_⟩
  · intro kind
    cases kind <;> norm_num [orderOne, molBlock]
  · intro kind hk
    cases kind <;> first
      | (exfalso; revert hk; decide)
      | norm_num [orderTwo, dot, molBlock]
  · intro kind hk
    cases kind <;> first
      | (exfalso; revert hk; decide)
      | (constructor <;> norm_num [orderThree, dot, molBlock])
  · intro kind hk
    cases kind <;> first
      | exact absurd rfl hk
      | norm_num [rowSums, molBlock]
  · norm_num [rowSums, molBlock]
  · norm_num [rowSums, molBlock]

/-! ## Claims on the assemblers outside and inside the six boundary types -/

/-- C11 fails as stated: with the value `6` on a face (low face of axis X in one dimension for
`set_scalar_bc` and `set_x_vel_bc`, of axis Y in two dimensions for `set_y_vel_bc`, of axis
Z in three dimensions for `set_z_vel_bc`) each assembler subscripts its six-entry table at
`6`, outside the table; no call of `amrex::Error` and no assertion is reached. -/
theorem C11_value_six_not_reported :
    set_scalar_bc 1 (BCRec.unset 1) ⟨[6], [Interior]⟩ = Except.error Abort.OutOfRange ∧
    set_x_vel_bc 1 (BCRec.unset 1) ⟨[6], [Interior]⟩ = Except.error Abort.OutOfRange ∧
    set_y_vel_bc 2 (BCRec.unset 2) ⟨[Interior, 6], [Interior, Interior]⟩
      = Except.error Abort.OutOfRange ∧
    set_z_vel_bc 3 (BCRec.unset 3) ⟨[Interior, Interior, 6], [Interior, Interior, Interior]⟩
      = Except.error Abort.OutOfRange ∧
    (∀ msg, set_scalar_bc 1 (BCRec.unset 1) ⟨[6], [Interior]⟩
      ≠ Except.error (Abort.Error msg)) := by
  refine ⟨rfl, rfl, rfl, rfl, ?_⟩
  intro msg h
  have e : set_scalar_bc 1 (BCRec.unset 1) ⟨[6], [Interior]⟩
      = Except.error Abort.OutOfRange := rfl
  rw [e] at h
  cases h

/-- C11 as amended: in one to three dimensions, for a domain record with one low and one high
entry per axis, none of the four assemblers checks the boundary types. When every face
carries a value `0..5` the assembler returns a record; when some face carries another value
the assembler subscripts its six-entry table outside the table, which the source leaves
without defined behaviour; on no input does an assembler call `amrex::Error` or fail an
assertion. -/
theorem C11_assemblers_make_no_check (dim : Nat) (hdim : 1 ≤ dim ∧ dim ≤ 3)
    (bc : BCRec FillCode) (phys_bc : BCRec Int) (hs : phys_bc.sized dim) :
    makesNoCheck set_scalar_bc dim bc phys_bc ∧ makesNoCheck set_x_vel_bc dim bc phys_bc ∧
    makesNoCheck set_y_vel_bc dim bc phys_bc ∧ makesNoCheck set_z_vel_bc dim bc phys_bc := by
  have key : ∀ f : Nat → BCRec FillCode → BCRec Int → Except Abort (BCRec FillCode),
      (∃ tbl : Nat → List FillCode, (∀ i, (tbl i).length = 6) ∧
        f dim bc phys_bc = runFaces ((List.range dim).map (fun i => (tbl i, i))) bc phys_bc) →
      makesNoCheck f dim bc phys_bc := by
    rintro f ⟨tbl, ht, hf⟩
    obtain ⟨a, b⟩ := steps_unchecked tbl ht bc hs
    rw [← hf] at a b
    refine ⟨a, b, fun msg => ?_⟩
    by_cases hv : validPhys dim phys_bc
    · obtain ⟨r, hr⟩ := a hv
      rw [hr]
      constructor <;> intro h <;> cases h
    · rw [b hv]
      constructor <;> intro h <;> cases h
  refine ⟨?_, ?_, ?_, ?_⟩
  · exact key _ ⟨fun _ => scalar_bc, fun _ => rfl, set_scalar_bc_steps dim bc phys_bc⟩
  · exact key _ ⟨velTable 0, velTable_length 0,
      set_vel_bc_steps 0 (by decide) hdim bc phys_bc⟩
  · exact key _ ⟨velTable 1, velTable_length 1,
      set_vel_bc_steps 1 (by decide) hdim bc phys_bc⟩
  · exact key _ ⟨velTable 2, velTable_length 2,
      set_vel_bc_steps 2 (by decide) hdim bc phys_bc⟩

/-- C11 as amended, at a one-dimensional domain whose low face carries the value `6`. -/
theorem C11_assemblers_make_no_check_witness :
    makesNoCheck set_scalar_bc 1 (BCRec.unset 1) ⟨[6], [Interior]⟩ ∧
    makesNoCheck set_x_vel_bc 1 (BCRec.unset 1) ⟨[6], [Interior]⟩ ∧
    makesNoCheck set_y_vel_bc 1 (BCRec.unset 1) ⟨[6], [Interior]⟩ ∧
    makesNoCheck set_z_vel_bc 1 (BCRec.unset 1) ⟨[6], [Interior]⟩ :=
  C11_assemblers_make_no_check 1 ⟨by decide, by decide⟩ (BCRec.unset 1) ⟨[6], [Interior]⟩
    ⟨rfl, rfl⟩

/-- C17: in one to three dimensions with a boundary type `0..5` on every face, the record of
the velocity assembler with principal axis `P` and the record of `set_scalar_bc` hold the
same code on both faces of every axis other than `P`; on a face of axis `P` they hold the
same code if and only if the face is `Interior`, `Inflow` or `Outflow`, and they differ
(`REFLECT_ODD` against `REFLECT_EVEN`) exactly when it is `Symmetry`, `SlipWall` or
`NoSlipWall`; when no face of the domain is reflecting, the velocity assembler of every
principal axis returns the record of `set_scalar_bc`. -/
theorem C17_velocity_against_scalar (dim : Nat) (hdim : 1 ≤ dim ∧ dim ≤ 3)
    (bc : BCRec FillCode) (hbc : bc.sized dim) (phys_bc : BCRec Int)
    (hp : validPhys dim phys_bc) (P : Nat) (hP : P < 3) :
    ∃ rv rs, set_vel_bc P dim bc phys_bc = Except.ok rv ∧
      set_scalar_bc dim bc phys_bc = Except.ok rs ∧
      (∀ i < dim, i ≠ P → rv.lo[i]? = rs.lo[i]? ∧ rv.hi[i]? = rs.hi[i]?) ∧
      (∀ l, phys_bc.lo[P]? = some l →
        (rv.lo[P]? = rs.lo[P]? ↔ nonReflecting l) ∧ (rv.lo[P]? ≠ rs.lo[P]? ↔ reflecting l) ∧
        (reflecting l → rv.lo[P]? = some REFLECT_ODD ∧ rs.lo[P]? = some REFLECT_EVEN)) ∧
      (∀ h, phys_bc.hi[P]? = some h →
        (rv.hi[P]? = rs.hi[P]? ↔ nonReflecting h) ∧ (rv.hi[P]? ≠ rs.hi[P]? ↔ reflecting h) ∧
        (reflecting h → rv.hi[P]? = some REFLECT_ODD ∧ rs.hi[P]? = some REFLECT_EVEN)) ∧
      ((∀ v ∈ phys_bc.lo ++ phys_bc.hi, ¬ reflecting v) → rv = rs) := by
  refine ⟨_, _, set_vel_bc_eq P hP hdim hbc hp, set_scalar_bc_eq hdim hbc hp, ?_, ?_, ?_, ?_⟩
  · intro i _ hne
    rw [velRec_lo, velRec_hi, scalarRec_lo, scalarRec_hi]
    constructor
    · cases phys_bc.lo[i]? <;> simp [lookup_velTable_off hne]
    · cases phys_bc.hi[i]? <;> simp [lookup_velTable_off hne]
  · intro l hl
    obtain ⟨a, b, c⟩ := lookup_norm_iff (hp.2.1 l (List.getElem?_mem hl))
    have hv : velTable P P = norm_vel_bc := by simp [velTable]
    rw [velRec_lo, scalarRec_lo, hl, hv]
    simp only [Option.map_some', Option.some.injEq, ne_eq]
    exact ⟨a, by rw [a, b], c⟩
  · intro h hh
    obtain ⟨a, b, c⟩ := lookup_norm_iff (hp.2.2 h (List.getElem?_mem hh))
    have hv : velTable P P = norm_vel_bc := by simp [velTable]
    rw [velRec_hi, scalarRec_hi, hh, hv]
    simp only [Option.map_some', Option.some.injEq, ne_eq]
    exact ⟨a, by rw [a, b], c⟩
  · intro hall
    have hlo : (velRec P phys_bc).lo = (scalarRec phys_bc).lo := by
      apply List.ext_getElem?
      intro i
      rw [velRec_lo, scalarRec_lo]
      cases h : phys_bc.lo[i]? with
      | none => rfl
      | some l =>
        have hm := List.getElem?_mem h
        simp only [Option.map_some', Option.some.injEq]
        exact lookup_velTable_plain P i (hp.2.1 l hm)
          (hall l (List.mem_append_left _ hm))
    have hhi : (velRec P phys_bc).hi = (scalarRec phys_bc).hi := by
      apply List.ext_getElem?
      intro i
      rw [velRec_hi, scalarRec_hi]
      cases h : phys_bc.hi[i]? with
      | none => rfl
      | some l =>
        have hm := List.getElem?_mem h
        simp only [Option.map_some', Option.some.injEq]
        exact lookup_velTable_plain P i (hp.2.2 l hm)
          (hall l (List.mem_append_right _ hm))
    cases hv : velRec P phys_bc
    cases hs : scalarRec phys_bc
    rw [hv] at hlo hhi
    rw [hs] at hlo hhi
    simp only at hlo hhi
    rw [hlo, hhi]

/-- C17 at the domain `samplePhys` and the principal axis X. -/
theorem C17_velocity_against_scalar_witness :
    ∃ rv rs, set_vel_bc 0 3 (BCRec.unset 3) samplePhys = Except.ok rv ∧
      set_scalar_bc 3 (BCRec.unset 3) samplePhys = Except.ok rs ∧
      (∀ i < 3, i ≠ 0 → rv.lo[i]? = rs.lo[i]? ∧ rv.hi[i]? = rs.hi[i]?) ∧
      (∀ l, samplePhys.lo[0]? = some l →
        (rv.lo[0]? = rs.lo[0]? ↔ nonReflecting l) ∧ (rv.lo[0]? ≠ rs.lo[0]? ↔ reflecting l) ∧
        (reflecting l → rv.lo[0]? = some REFLECT_ODD ∧ rs.lo[0]? = some REFLECT_EVEN)) ∧
      (∀ h, samplePhys.hi[0]? = some h →
        (rv.hi[0]? = rs.hi[0]? ↔ nonReflecting h) ∧ (rv.hi[0]? ≠ rs.hi[0]? ↔ reflecting h) ∧
        (reflecting h → rv.hi[0]? = some REFLECT_ODD ∧ rs.hi[0]? = some REFLECT_EVEN)) ∧
      ((∀ v ∈ samplePhys.lo ++ samplePhys.hi, ¬ reflecting v) → rv = rs) :=
  C17_velocity_against_scalar 3 ⟨by decide, by decide⟩ (BCRec.unset 3) ⟨rfl, rfl⟩ samplePhys
    samplePhys_valid 0 (by decide)

/-! ## Claims on the descriptor of `State_Type` -/

theorem plainConfig_valid : validPhys 3 plainConfig.phys_bc := by
  refine ⟨⟨rfl, rfl⟩, ?_, ?_⟩ <;> decide

theorem plainConfig_ready (u : Int) : plainConfig.ready (Castro.initial u) :=
  ⟨⟨by decide, by decide⟩, plainConfig_valid, rfl, by decide⟩

/-- C20: the interpolater `variableSetUp` chooses is `pc_interp` when radiation is compiled
in, the geometry is spherical and there is a neutrino species; otherwise it is `pc_interp`
for `state_interp_order = 0`, else `lincc_interp` for `lin_limit_state_interp = 1`, else
`cell_cons_interp`; it is always one of the three. In every completed run the descriptor of
`State_Type` carries this interpolater, and a run without radiation completes. -/
theorem C20_state_interpolater (cfg : Config) (s : Castro) (hr : cfg.ready s) :
    (chooseInterp cfg
      = if cfg.RADIATION = true ∧ cfg.IsSPHERICAL = true ∧ cfg.nNeutrinoSpecies > 0 then
          Interpolater.pc_interp
        else if cfg.state_interp_order = 0 then Interpolater.pc_interp
        else if cfg.lin_limit_state_interp = 1 then Interpolater.lincc_interp
        else Interpolater.cell_cons_interp) ∧
    (chooseInterp cfg = Interpolater.pc_interp ∨ chooseInterp cfg = Interpolater.lincc_interp ∨
      chooseInterp cfg = Interpolater.cell_cons_interp) ∧
    (∀ s', Castro.variableSetUp cfg s = Except.ok s' →
      ∃ d, descOf s'.desc_lst StateType.State_Type = some d ∧ d.interp = chooseInterp cfg) ∧
    (cfg.RADIATION = false → cfg.NEUTRINO = false →
      (cfg.DEBUG = true → cfg.state_nghost ≥ 0) →
      (cfg.REACTIONS = true → 0 ≤ cfg.ca_get_num_spec) →
      ∃ s', Castro.variableSetUp cfg s = Except.ok s') := by
  obtain ⟨hdim, hp, hfresh, hfit⟩ := hr
  refine ⟨?_, ?_, ?_, ?_⟩
  · unfold chooseInterp
    cases cfg.RADIATION <;> cases cfg.IsSPHERICAL <;>
      by_cases hn : cfg.nNeutrinoSpecies > 0 <;> simp [hn]
  · cases hc : chooseInterp cfg
    · exact Or.inl rfl
    · exact Or.inr (Or.inl rfl)
    · exact Or.inr (Or.inr rfl)
  · intro s' h
    exact ⟨_, state_descriptor hdim hp hfresh hfit h, rfl⟩
  · intro hR hNu hdbg hspec
    exact ⟨_, variableSetUp_eq ⟨hdim, hp, hfresh, hfit⟩ hR hNu hdbg hspec⟩

/-- C20 at the configuration `plainConfig`, started from the initial static members. -/
theorem C20_state_interpolater_witness :
    (chooseInterp plainConfig
      = if plainConfig.RADIATION = true ∧ plainConfig.IsSPHERICAL = true ∧
          plainConfig.nNeutrinoSpecies > 0 then
          Interpolater.pc_interp
        else if plainConfig.state_interp_order = 0 then Interpolater.pc_interp
        else if plainConfig.lin_limit_state_interp = 1 then Interpolater.lincc_interp
        else Interpolater.cell_cons_interp) ∧
    (chooseInterp plainConfig = Interpolater.pc_interp ∨
      chooseInterp plainConfig = Interpolater.lincc_interp ∨
      chooseInterp plainConfig = Interpolater.cell_cons_interp) ∧
    (∀ s', Castro.variableSetUp plainConfig (Castro.initial (-1)) = Except.ok s' →
      ∃ d, descOf s'.desc_lst StateType.State_Type = some d ∧
        d.interp = chooseInterp plainConfig) ∧
    (plainConfig.RADIATION = false → plainConfig.NEUTRINO = false →
      (plainConfig.DEBUG = true → plainConfig.state_nghost ≥ 0) →
      (plainConfig.REACTIONS = true → 0 ≤ plainConfig.ca_get_num_spec) →
      ∃ s', Castro.variableSetUp plainConfig (Castro.initial (-1)) = Except.ok s') :=
  C20_state_interpolater plainConfig (Castro.initial (-1)) (plainConfig_ready (-1))

/-- The ghost width of `State_Type`: with radiation it is `max(1, state_nghost)`, at least
`1`; without radiation it is `state_nghost`. Every completed run registers `State_Type` with
this width. The statement `BL_ASSERT(ngrow_state >= 0)` ends the run for a negative width in
a build that compiles assertions in, so every run that completes there has a width `>= 0`; in
a build without assertions and without radiation the run completes with the width
`state_nghost`. -/
theorem ghost_width_of_run (cfg : Config) (s : Castro) (hr : cfg.ready s) :
    (cfg.RADIATION = true →
      ngrow_state cfg = max 1 cfg.state_nghost ∧ 1 ≤ ngrow_state cfg) ∧
    (cfg.RADIATION = false → ngrow_state cfg = cfg.state_nghost) ∧
    (cfg.DEBUG = true → ngrow_state cfg < 0 →
      Castro.variableSetUp cfg s = Except.error (Abort.Assertion "ngrow_state >= 0")) ∧
    (∀ s', Castro.variableSetUp cfg s = Except.ok s' →
      ∃ d, descOf s'.desc_lst StateType.State_Type = some d ∧ d.ngrow = ngrow_state cfg ∧
        (cfg.DEBUG = true ∨ cfg.RADIATION = true → 0 ≤ d.ngrow)) ∧
    (cfg.DEBUG = false → cfg.RADIATION = false → cfg.NEUTRINO = false →
      (cfg.REACTIONS = true → 0 ≤ cfg.ca_get_num_spec) →
      ∃ s' d, Castro.variableSetUp cfg s = Except.ok s' ∧
        descOf s'.desc_lst StateType.State_Type = some d ∧ d.ngrow = cfg.state_nghost) := by
  obtain ⟨hdim, hp, hfresh, hfit⟩ := hr
  have hrad : cfg.RADIATION = true →
      ngrow_state cfg = max 1 cfg.state_nghost ∧ 1 ≤ ngrow_state cfg := by
    intro h
    simp only [ngrow_state, h, if_true, true_and]
    exact le_max_left _ _
  have hnorad : cfg.RADIATION = false → ngrow_state cfg = cfg.state_nghost := by
    intro h
    simp [ngrow_state, h]
  have hassert : cfg.DEBUG = true → ngrow_state cfg < 0 →
      Castro.variableSetUp cfg s = Except.error (Abort.Assertion "ngrow_state >= 0") := by
    intro hD hneg
    have hn : ¬ ngrow_state cfg ≥ 0 := by omega
    simp [Castro.variableSetUp, BL_ASSERT, hfresh, hD, hn, bind, Except.bind]
  refine ⟨hrad, hnorad, hassert, ?_, ?_⟩
  · intro s' h
    refine ⟨_, state_descriptor hdim hp hfresh hfit h, rfl, ?_⟩
    show cfg.DEBUG = true ∨ cfg.RADIATION = true → 0 ≤ ngrow_state cfg
    rintro (hD | hR)
    · by_contra hneg
      rw [hassert hD (by omega)] at h
      cases h
    · have := (hrad hR).2
      omega
  · intro hD hR hNu hspec
    have hrun := variableSetUp_eq ⟨hdim, hp, hfresh, hfit⟩ hR hNu
      (fun h => by rw [hD] at h; cases h) hspec
    exact ⟨_, _, hrun, state_descriptor hdim hp hfresh hfit hrun, hnorad hR⟩

/-- The ghost width at the configuration `negativeGhostConfig`. -/
theorem ghost_width_of_run_witness :
    (negativeGhostConfig.RADIATION = true →
      ngrow_state negativeGhostConfig = max 1 negativeGhostConfig.state_nghost ∧
        1 ≤ ngrow_state negativeGhostConfig) ∧
    (negativeGhostConfig.RADIATION = false →
      ngrow_state negativeGhostConfig = negativeGhostConfig.state_nghost) ∧
    (negativeGhostConfig.DEBUG = true → ngrow_state negativeGhostConfig < 0 →
      Castro.variableSetUp negativeGhostConfig (Castro.initial (-1))
        = Except.error (Abort.Assertion "ngrow_state >= 0")) ∧
    (∀ s', Castro.variableSetUp negativeGhostConfig (Castro.initial (-1)) = Except.ok s' →
      ∃ d, descOf s'.desc_lst StateType.State_Type = some d ∧
        d.ngrow = ngrow_state negativeGhostConfig ∧
        (negativeGhostConfig.DEBUG = true ∨ negativeGhostConfig.RADIATION = true →
          0 ≤ d.ngrow)) ∧
    (negativeGhostConfig.DEBUG = false → negativeGhostConfig.RADIATION = false →
      negativeGhostConfig.NEUTRINO = false →
      (negativeGhostConfig.REACTIONS = true → 0 ≤ negativeGhostConfig.ca_get_num_spec) →
      ∃ s' d, Castro.variableSetUp negativeGhostConfig (Castro.initial (-1)) = Except.ok s' ∧
        descOf s'.desc_lst StateType.State_Type = some d ∧
        d.ngrow = negativeGhostConfig.state_nghost) :=
  ghost_width_of_run negativeGhostConfig (Castro.initial (-1))
    ⟨⟨by decide, by decide⟩, plainConfig_valid, rfl, by decide⟩

/-- C12 (the code at `state_nghost = -1`): line 330 states `BL_ASSERT(ngrow_state >= 0)`. In
the build with assertions the run ends there with the failed assertion; in the build
without assertions and without radiation the same run-time parameter does not end the run:
the run completes and the descriptor of `State_Type` has the ghost width `-1`. -/
theorem C12_negative_width_registered :
    (∃ s' d, Castro.variableSetUp negativeGhostConfig (Castro.initial (-1)) = Except.ok s' ∧
      descOf s'.desc_lst StateType.State_Type = some d ∧ d.ngrow = -1) ∧
    negativeGhostConfig.DEBUG = false ∧
    Castro.variableSetUp { negativeGhostConfig with DEBUG := true } (Castro.initial (-1))
      = Except.error (Abort.Assertion "ngrow_state >= 0") := by
  have hr : negativeGhostConfig.ready (Castro.initial (-1)) :=
    ⟨⟨by decide, by decide⟩, plainConfig_valid, rfl, by decide⟩
  have hrun := variableSetUp_eq hr rfl rfl (fun h => by cases h) (fun h => by cases h)
  exact ⟨⟨_, _, hrun, state_descriptor hr.1 hr.2.1 rfl hr.2.2.2 hrun, rfl⟩, rfl, rfl⟩

/-! ## Claims on the derived catalogue -/

/-- C9 (the code at a configuration without species): `variableSetUp` completes for
`plainConfig`, whose `NumSpec` is `0`; the member `FirstSpec` is not assigned and keeps the
value `u` it had before the call, `State_Type` has `7` components, and the catalogue holds
the record of `StateErr` with the dependency `(State_Type, u, 1)`. With the value `u = -1`
the dependency starts below component `0`. -/
theorem C9_stateerr_reads_first_spec (u : Int) :
    ∃ s' d, Castro.variableSetUp plainConfig (Castro.initial u) = Except.ok s' ∧
      s'.NumSpec = 0 ∧ s'.FirstSpec = u ∧
      descOf s'.desc_lst StateType.State_Type = some d ∧ d.ncomp = 7 ∧
      (⟨"StateErr", 3, DeriveBoxMap.grow_box_by_one,
        [stateRange 0 1, stateRange 6 1, stateRange u 1]⟩ : DeriveRec) ∈ s'.derive_lst := by
  have hr := plainConfig_ready u
  have hrun := variableSetUp_eq hr rfl rfl (fun h => by cases h) (fun h => by cases h)
  have hrec := (@fixed_record plainConfig (Castro.initial u) _ hrun rfl
    ⟨"StateErr", 3, DeriveBoxMap.grow_box_by_one,
      [stateRange (assignIndices plainConfig (Castro.initial u)).Density 1,
        stateRange (assignIndices plainConfig (Castro.initial u)).Temp 1,
        stateRange (assignIndices plainConfig (Castro.initial u)).FirstSpec 1]⟩
    (by show "StateErr" ∈ fixedDerived; decide)
    (fun nbs => by simp [allBlocks, derivesAfterVorticity])
    (by simp [auxDerived, assignIndices, plainConfig])).1
  exact ⟨_, _, hrun, rfl, rfl, state_descriptor hr.1 hr.2.1 rfl hr.2.2.2 hrun, rfl, hrec⟩

/-- C19: in every completed run the descriptor of `Source_Type` is declared with `NUM_STATE`
components, as is the descriptor of `State_Type`; both hold `NUM_STATE` names and boundary
records; component `i` of `Source_Type` is named as component `i` of `State_Type` followed
by `_source` and carries the same boundary record; and the names and records of
`State_Type` are those the naming pass produced, unchanged by what follows. A run without
radiation completes. -/
theorem C19_source_mirrors_state (cfg : Config) (s : Castro) (hr : cfg.ready s) :
    (∀ s', Castro.variableSetUp cfg s = Except.ok s' →
      ∃ dS dQ st, descOf s'.desc_lst StateType.State_Type = some dS ∧
        descOf s'.desc_lst StateType.Source_Type = some dQ ∧
        nameState cfg (assignIndices cfg s) (BCRec.unset cfg.BL_SPACEDIM) = Except.ok st ∧
        dS.names = st.name ∧ dS.bc = st.bcs ∧
        dS.ncomp = s'.NUM_STATE ∧ dQ.ncomp = s'.NUM_STATE ∧
        (dS.names.length : Int) = s'.NUM_STATE ∧ (dS.bc.length : Int) = s'.NUM_STATE ∧
        dQ.names = dS.names.map (fun nm => nm ++ "_source") ∧
        dQ.bc = dS.bc ∧
        (∀ (i : Nat) nm, dS.names[i]? = some nm → dQ.names[i]? = some (nm ++ "_source")) ∧
        (∀ i : Nat, dQ.bc[i]? = dS.bc[i]?)) ∧
    (cfg.RADIATION = false → cfg.NEUTRINO = false →
      (cfg.DEBUG = true → cfg.state_nghost ≥ 0) →
      (cfg.REACTIONS = true → 0 ≤ cfg.ca_get_num_spec) →
      ∃ s', Castro.variableSetUp cfg s = Except.ok s') := by
  refine ⟨fun s' h => ?_, fun hR hNu hdbg hspec => ⟨_, variableSetUp_eq hr hR hNu hdbg hspec⟩⟩
  obtain ⟨hdim, hp, hs, hfit⟩ := hr
  have hcount := assignIndices_count cfg s hfit
  have hst := nameState_eq cfg (assignIndices cfg s) hdim hp _ (unset_sized _) hcount
  have hsrc := descOf_of_run ⟨hdim, hp, hs, hfit⟩ h
    (source_added cfg (assignIndices cfg s) (chooseInterp cfg))
  rw [phasesMap_source _ _ _ rfl] at hsrc
  obtain ⟨-, -, -, -, -, eN, -⟩ := run_indices h
  have hlen : (((stateNameList cfg (assignIndices cfg s)).length : Nat) : Int)
      = (assignIndices cfg s).NUM_STATE := by
    rw [← hcount]
    exact Int.toNat_of_nonneg (num_state_nonneg cfg s hfit)
  refine ⟨_, _, _, state_descriptor hdim hp hs hfit h, hsrc, hst, ?_, ?_, eN.symm, eN.symm, ?_, ?_,
    rfl, rfl, ?_, fun _ => rfl⟩
  · simp [stateDescriptor, Naming.filled]
  · simp [stateDescriptor, Naming.filled]
  · rw [eN]
    exact hlen
  · rw [eN]
    show (((stateBcList cfg (assignIndices cfg s)).length : Nat) : Int) = _
    rw [stateBcList_length]
    exact hlen
  · intro i nm hi
    show ((stateNameList cfg (assignIndices cfg s)).map (fun nm => nm ++ "_source"))[i]? = _
    have hi' : (stateNameList cfg (assignIndices cfg s))[i]? = some nm := hi
    simp [hi']

/-- C19 at the configuration `richConfig`, started from the initial static members. -/
theorem C19_source_mirrors_state_witness :
    (∀ s', Castro.variableSetUp richConfig (Castro.initial (-1)) = Except.ok s' →
      ∃ dS dQ st, descOf s'.desc_lst StateType.State_Type = some dS ∧
        descOf s'.desc_lst StateType.Source_Type = some dQ ∧
        nameState richConfig (assignIndices richConfig (Castro.initial (-1)))
          (BCRec.unset richConfig.BL_SPACEDIM) = Except.ok st ∧
        dS.names = st.name ∧ dS.bc = st.bcs ∧
        dS.ncomp = s'.NUM_STATE ∧ dQ.ncomp = s'.NUM_STATE ∧
        (dS.names.length : Int) = s'.NUM_STATE ∧ (dS.bc.length : Int) = s'.NUM_STATE ∧
        dQ.names = dS.names.map (fun nm => nm ++ "_source") ∧
        dQ.bc = dS.bc ∧
        (∀ (i : Nat) nm, dS.names[i]? = some nm → dQ.names[i]? = some (nm ++ "_source")) ∧
        (∀ i : Nat, dQ.bc[i]? = dS.bc[i]?)) ∧
    (richConfig.RADIATION = false → richConfig.NEUTRINO = false →
      (richConfig.DEBUG = true → richConfig.state_nghost ≥ 0) →
      (richConfig.REACTIONS = true → 0 ≤ richConfig.ca_get_num_spec) →
      ∃ s', Castro.variableSetUp richConfig (Castro.initial (-1)) = Except.ok s') :=
  C19_source_mirrors_state richConfig (Castro.initial (-1))
    ⟨⟨by decide, by decide⟩, richConfig_valid, rfl, by decide⟩

/-! ## Claims on the boundary records of the components that are not vector components -/

/-- C16 fails as stated: in the configuration `gravityKnapsackConfig` (self-gravity, knapsack
weight, three dimensions, `SlipWall` on all faces) the run completes and `KnapsackWeight` is
registered with the record the call `set_z_vel_bc` for `grav_z` left in `bc`, which has
`REFLECT_ODD` on both faces of axis Z, where the record of `set_scalar_bc` has
`REFLECT_EVEN`. -/
theorem C16_knapsack_keeps_velocity_record :
    ∃ s' d, Castro.variableSetUp gravityKnapsackConfig (Castro.initial (-1)) = Except.ok s' ∧
      descOf s'.desc_lst StateType.Knapsack_Weight_Type = some d ∧
      d.names = ["KnapsackWeight"] ∧
      d.bc = [⟨[REFLECT_EVEN, REFLECT_EVEN, REFLECT_ODD],
               [REFLECT_EVEN, REFLECT_EVEN, REFLECT_ODD]⟩] ∧
      set_scalar_bc 3 (BCRec.unset 3) gravityKnapsackConfig.phys_bc
        = Except.ok ⟨[REFLECT_EVEN, REFLECT_EVEN, REFLECT_EVEN],
                     [REFLECT_EVEN, REFLECT_EVEN, REFLECT_EVEN]⟩ := by
  have hr : gravityKnapsackConfig.ready (Castro.initial (-1)) :=
    ⟨⟨by decide, by decide⟩, plainConfig_valid, rfl, by decide⟩
  have hrun := variableSetUp_eq hr rfl rfl (fun h => by cases h) (fun h => by cases h)
  exact ⟨_, _, hrun, (late_descriptors hr hrun).2 rfl, rfl, rfl, rfl⟩

/-- C16 as amended: `set_scalar_bc` returns the record `scalarRec phys_bc`, and in every
completed run this record is carried by every component of `State_Type`, `Source_Type` and
`SDC_Source_Type` other than components 1, 2, 3 (the momenta), by `phiGrav` and `phiRot`, by
every `omegadot` component, by `enuc` and `rho_enuc` when there is a species, by every
component of `SDC_React_Type`, and by every component of `Rad_Type` that was given a name.
`KnapsackWeight` carries the record the last assembler call left in the shared variable
`bc`: the record of `set_scalar_bc` with radiation, without gravity and rotation, with
reactions and a species, or with the SDC reaction components; the record of `set_z_vel_bc`
with gravity or rotation when neither radiation nor reactions are compiled in. A run
without radiation completes. -/
theorem C16_scalar_records (cfg : Config) (s : Castro) (hr : cfg.ready s) :
    (∀ bc : BCRec FillCode, bc.sized cfg.BL_SPACEDIM →
      set_scalar_bc cfg.BL_SPACEDIM bc cfg.phys_bc = Except.ok (scalarRec cfg.phys_bc)) ∧
    (∀ s', Castro.variableSetUp cfg s = Except.ok s' →
      (∀ t, t = StateType.State_Type ∨ t = StateType.Source_Type ∨
          (t = StateType.SDC_Source_Type ∧ cfg.SDC = true) →
        ∃ d, descOf s'.desc_lst t = some d ∧
          ∀ (i : Nat) (b : BCRec FillCode), d.bc[i]? = some b → i ≠ 1 → i ≠ 2 → i ≠ 3 →
            b = scalarRec cfg.phys_bc) ∧
      (cfg.SELF_GRAVITY = true →
        ∃ d, descOf s'.desc_lst StateType.PhiGrav_Type = some d ∧
          d.names = ["phiGrav"] ∧ d.bc = [scalarRec cfg.phys_bc]) ∧
      (cfg.ROTATION = true →
        ∃ d, descOf s'.desc_lst StateType.PhiRot_Type = some d ∧
          d.names = ["phiRot"] ∧ d.bc = [scalarRec cfg.phys_bc]) ∧
      (cfg.REACTIONS = true →
        ∃ d, descOf s'.desc_lst StateType.Reactions_Type = some d ∧
          (∀ i : Nat, (i : Int) < cfg.ca_get_num_spec →
            d.names[i]? = some ("omegadot_" ++ cfg.ca_get_spec_names i) ∧
            d.bc[i]? = some (scalarRec cfg.phys_bc)) ∧
          d.names[cfg.ca_get_num_spec.toNat]? = some "enuc" ∧
          d.names[cfg.ca_get_num_spec.toNat + 1]? = some "rho_enuc" ∧
          (0 < cfg.ca_get_num_spec →
            d.bc[cfg.ca_get_num_spec.toNat]? = some (scalarRec cfg.phys_bc) ∧
            d.bc[cfg.ca_get_num_spec.toNat + 1]? = some (scalarRec cfg.phys_bc))) ∧
      (cfg.SDC = true → cfg.REACTIONS = true →
        ∃ d, descOf s'.desc_lst StateType.SDC_React_Type = some d ∧
          ∀ (i : Nat) (b : BCRec FillCode), d.bc[i]? = some b → b = scalarRec cfg.phys_bc) ∧
      (cfg.RADIATION = true →
        ∃ d, descOf s'.desc_lst StateType.Rad_Type = some d ∧
          registeredWith (scalarRec cfg.phys_bc) cfg.BL_SPACEDIM d) ∧
      (cfg.use_custom_knapsack_weights = true →
        ∃ d, descOf s'.desc_lst StateType.Knapsack_Weight_Type = some d ∧
          d.names = ["KnapsackWeight"] ∧
          d.bc = [bcAtKnapsack cfg (assignIndices cfg s)] ∧
          (cfg.RADIATION = true ∨ (cfg.SELF_GRAVITY = false ∧ cfg.ROTATION = false) ∨
              (cfg.REACTIONS = true ∧ 0 < cfg.ca_get_num_spec) ∨
              (cfg.SDC = true ∧ cfg.REACTIONS = true ∧ 0 < cfg.ca_get_qvar) →
            bcAtKnapsack cfg (assignIndices cfg s) = scalarRec cfg.phys_bc) ∧
          (cfg.RADIATION = false → cfg.REACTIONS = false →
            (cfg.SELF_GRAVITY = true ∨ cfg.ROTATION = true) →
            bcAtKnapsack cfg (assignIndices cfg s) = velRec 2 cfg.phys_bc))) ∧
    (cfg.RADIATION = false → cfg.NEUTRINO = false →
      (cfg.DEBUG = true → cfg.state_nghost ≥ 0) →
      (cfg.REACTIONS = true → 0 ≤ cfg.ca_get_num_spec) →
      ∃ s', Castro.variableSetUp cfg s = Except.ok s') := by
  refine ⟨fun bc hbc => set_scalar_bc_eq hr.1 hbc hr.2.1, fun s' h => ?_,
    fun hR hNu hdbg hspec => ⟨_, variableSetUp_eq hr hR hNu hdbg hspec⟩⟩
  obtain ⟨-, -, -, -, -, -, -, -, hNS, -, -, -, -, hQ, -⟩ := assignIndices_fixed cfg s
  obtain ⟨_, _, _, -, -, -, hspec⟩ := phases_of_run hr h
  have hrun := fun d0 => @descOf_of_run cfg s s' hr h d0
  refine ⟨?_, ?_, ?_, ?_, ?_, (late_descriptors hr h).1, ?_⟩
  · rintro t (rfl | rfl | ⟨rfl, hS⟩)
    · refine ⟨_, state_descriptor hr.1 hr.2.1 hr.2.2.1 hr.2.2.2 h, fun i b hb => ?_⟩
      exact stateBcList_scalar cfg _ hb
    · have := hrun _ (source_added cfg (assignIndices cfg s) (chooseInterp cfg))
      rw [phasesMap_source _ _ _ rfl] at this
      exact ⟨_, this, fun i b hb => stateBcList_scalar cfg _ hb⟩
    · have := hrun (StateDescriptor.define cfg.BL_SPACEDIM StateType.SDC_Source_Type
        (assignIndices cfg s).NUM_GROW (assignIndices cfg s).NUM_STATE
        Interpolater.cell_cons_interp false true) (by simp [descriptorsAdded, hS])
      rw [phasesMap_sdc_source _ _ _ rfl hS] at this
      exact ⟨_, this, fun i b hb => stateBcList_scalar cfg _ hb⟩
  · intro hG
    have := hrun (StateDescriptor.define cfg.BL_SPACEDIM StateType.PhiGrav_Type 1 1
      Interpolater.cell_cons_interp false true) (by simp [descriptorsAdded, hG])
    rw [phasesMap_phigrav _ _ _ rfl hG] at this
    exact ⟨_, this, rfl, rfl⟩
  · intro hG
    have := hrun (StateDescriptor.define cfg.BL_SPACEDIM StateType.PhiRot_Type 1 1
      Interpolater.cell_cons_interp false false) (by simp [descriptorsAdded, hG])
    rw [phasesMap_phirot _ _ _ rfl hG] at this
    exact ⟨_, this, rfl, rfl⟩
  · intro hG
    have hn := hspec hG
    have := hrun (StateDescriptor.define cfg.BL_SPACEDIM StateType.Reactions_Type 0
      ((assignIndices cfg s).NumSpec + 2) Interpolater.cell_cons_interp false true)
      (by simp [descriptorsAdded, hG])
    rw [phasesMap_reactions _ _ _ rfl hG, hNS] at this
    have hlen : (cfg.ca_get_num_spec + 2).toNat = cfg.ca_get_num_spec.toNat + 2 := by omega
    obtain ⟨en, eb⟩ := reactions_closed cfg.BL_SPACEDIM (cfg.ca_get_num_spec + 2)
      cfg.ca_get_num_spec.toNat hlen (fun i => "omegadot_" ++ cfg.ca_get_spec_names i)
      (scalarRec cfg.phys_bc) (bcAtEnuc cfg (assignIndices cfg s)) 0
      Interpolater.cell_cons_interp false true
    obtain ⟨n1, n2, n3⟩ := append_two_get
      ((List.range cfg.ca_get_num_spec.toNat).map
        (fun i => "omegadot_" ++ cfg.ca_get_spec_names i)) "enuc" "rho_enuc"
      (n := cfg.ca_get_num_spec.toNat) (by simp)
    obtain ⟨b1, b2, b3⟩ := append_two_get
      (List.replicate cfg.ca_get_num_spec.toNat (scalarRec cfg.phys_bc))
      (bcAtEnuc cfg (assignIndices cfg s)) (bcAtEnuc cfg (assignIndices cfg s))
      (n := cfg.ca_get_num_spec.toNat) (by simp)
    refine ⟨_, this, ?_, ?_, ?_, ?_⟩
    · intro i hi
      have hi' : i < cfg.ca_get_num_spec.toNat := by omega
      rw [en, eb, n3 i hi', b3 i hi']
      constructor
      · simp [hi']
      · simp [hi']
    · rw [en]
      exact n1
    · rw [en]
      exact n2
    · intro hpos
      have hne : ¬ cfg.ca_get_num_spec.toNat = 0 := by omega
      have hE : bcAtEnuc cfg (assignIndices cfg s) = scalarRec cfg.phys_bc := by
        simp [bcAtEnuc, hNS, hne]
      rw [eb, b1, b2, hE]
      exact ⟨rfl, rfl⟩
  · intro hS hG
    have := hrun (StateDescriptor.define cfg.BL_SPACEDIM StateType.SDC_React_Type
      (assignIndices cfg s).NUM_GROW (assignIndices cfg s).QVAR
      Interpolater.cell_cons_interp false true) (by simp [descriptorsAdded, hS, hG])
    rw [phasesMap_sdc_react _ _ _ rfl hS hG] at this
    refine ⟨_, this, fun i b hb => ?_⟩
    simp only [fillFirst, StateDescriptor.define, if_true, List.drop_replicate,
      Nat.sub_self, List.replicate_zero, List.append_nil] at hb
    exact List.eq_of_mem_replicate (List.getElem?_mem hb)
  · intro hK
    refine ⟨_, (late_descriptors hr h).2 hK, rfl, rfl, ?_, ?_⟩
    · intro hc
      unfold bcAtKnapsack bcAfterSDC bcAfterReactions bcAtEnuc bcAfterRotation
      rw [hNS, hQ]
      rcases hc with hR | ⟨h1, h2⟩ | ⟨h1, h2⟩ | ⟨h1, h2, h3⟩
      · simp [hR]
      · cases cfg.RADIATION <;> cases cfg.SDC <;> cases cfg.REACTIONS <;>
          simp [h1, h2]
      · have hne : ¬ cfg.ca_get_num_spec.toNat = 0 := by omega
        cases cfg.RADIATION <;> cases cfg.SDC <;> simp [h1, hne]
      · have hne : ¬ cfg.ca_get_qvar.toNat = 0 := by omega
        cases cfg.RADIATION <;> simp [h1, h2, hne]
    · intro hR hG hc
      unfold bcAtKnapsack bcAfterSDC bcAfterReactions bcAfterRotation
      rcases hc with hc | hc <;> simp [hR, hG, hc]

/-- C16 as amended, at the configuration `gravityKnapsackConfig`. -/
theorem C16_scalar_records_witness :
    (∀ bc : BCRec FillCode, bc.sized gravityKnapsackConfig.BL_SPACEDIM →
      set_scalar_bc gravityKnapsackConfig.BL_SPACEDIM bc gravityKnapsackConfig.phys_bc
        = Except.ok (scalarRec gravityKnapsackConfig.phys_bc)) ∧
    (∀ s', Castro.variableSetUp gravityKnapsackConfig (Castro.initial (-1)) = Except.ok s' →
      (∀ t, t = StateType.State_Type ∨ t = StateType.Source_Type ∨
          (t = StateType.SDC_Source_Type ∧ gravityKnapsackConfig.SDC = true) →
        ∃ d, descOf s'.desc_lst t = some d ∧
          ∀ (i : Nat) (b : BCRec FillCode), d.bc[i]? = some b → i ≠ 1 → i ≠ 2 → i ≠ 3 →
            b = scalarRec gravityKnapsackConfig.phys_bc) ∧
      (gravityKnapsackConfig.SELF_GRAVITY = true →
        ∃ d, descOf s'.desc_lst StateType.PhiGrav_Type = some d ∧
          d.names = ["phiGrav"] ∧ d.bc = [scalarRec gravityKnapsackConfig.phys_bc]) ∧
      (gravityKnapsackConfig.ROTATION = true →
        ∃ d, descOf s'.desc_lst StateType.PhiRot_Type = some d ∧
          d.names = ["phiRot"] ∧ d.bc = [scalarRec gravityKnapsackConfig.phys_bc]) ∧
      (gravityKnapsackConfig.REACTIONS = true →
        ∃ d, descOf s'.desc_lst StateType.Reactions_Type = some d ∧
          (∀ i : Nat, (i : Int) < gravityKnapsackConfig.ca_get_num_spec →
            d.names[i]? = some ("omegadot_" ++ gravityKnapsackConfig.ca_get_spec_names i) ∧
            d.bc[i]? = some (scalarRec gravityKnapsackConfig.phys_bc)) ∧
          d.names[gravityKnapsackConfig.ca_get_num_spec.toNat]? = some "enuc" ∧
          d.names[gravityKnapsackConfig.ca_get_num_spec.toNat + 1]? = some "rho_enuc" ∧
          (0 < gravityKnapsackConfig.ca_get_num_spec →
            d.bc[gravityKnapsackConfig.ca_get_num_spec.toNat]?
              = some (scalarRec gravityKnapsackConfig.phys_bc) ∧
            d.bc[gravityKnapsackConfig.ca_get_num_spec.toNat + 1]?
              = some (scalarRec gravityKnapsackConfig.phys_bc))) ∧
      (gravityKnapsackConfig.SDC = true → gravityKnapsackConfig.REACTIONS = true →
        ∃ d, descOf s'.desc_lst StateType.SDC_React_Type = some d ∧
          ∀ (i : Nat) (b : BCRec FillCode), d.bc[i]? = some b →
            b = scalarRec gravityKnapsackConfig.phys_bc) ∧
      (gravityKnapsackConfig.RADIATION = true →
        ∃ d, descOf s'.desc_lst StateType.Rad_Type = some d ∧
          registeredWith (scalarRec gravityKnapsackConfig.phys_bc)
            gravityKnapsackConfig.BL_SPACEDIM d) ∧
      (gravityKnapsackConfig.use_custom_knapsack_weights = true →
        ∃ d, descOf s'.desc_lst StateType.Knapsack_Weight_Type = some d ∧
          d.names = ["KnapsackWeight"] ∧
          d.bc = [bcAtKnapsack gravityKnapsackConfig
            (assignIndices gravityKnapsackConfig (Castro.initial (-1)))] ∧
          (gravityKnapsackConfig.RADIATION = true ∨
              (gravityKnapsackConfig.SELF_GRAVITY = false ∧
                gravityKnapsackConfig.ROTATION = false) ∨
              (gravityKnapsackConfig.REACTIONS = true ∧
                0 < gravityKnapsackConfig.ca_get_num_spec) ∨
              (gravityKnapsackConfig.SDC = true ∧ gravityKnapsackConfig.REACTIONS = true ∧
                0 < gravityKnapsackConfig.ca_get_qvar) →
            bcAtKnapsack gravityKnapsackConfig
                (assignIndices gravityKnapsackConfig (Castro.initial (-1)))
              = scalarRec gravityKnapsackConfig.phys_bc) ∧
          (gravityKnapsackConfig.RADIATION = false → gravityKnapsackConfig.REACTIONS = false →
            (gravityKnapsackConfig.SELF_GRAVITY = true ∨
              gravityKnapsackConfig.ROTATION = true) →
            bcAtKnapsack gravityKnapsackConfig
                (assignIndices gravityKnapsackConfig (Castro.initial (-1)))
              = velRec 2 gravityKnapsackConfig.phys_bc))) ∧
    (gravityKnapsackConfig.RADIATION = false → gravityKnapsackConfig.NEUTRINO = false →
      (gravityKnapsackConfig.DEBUG = true → gravityKnapsackConfig.state_nghost ≥ 0) →
      (gravityKnapsackConfig.REACTIONS = true → 0 ≤ gravityKnapsackConfig.ca_get_num_spec) →
      ∃ s', Castro.variableSetUp gravityKnapsackConfig (Castro.initial (-1))
        = Except.ok s') :=
  C16_scalar_records gravityKnapsackConfig (Castro.initial (-1))
    ⟨⟨by decide, by decide⟩, plainConfig_valid, rfl, by decide⟩

/-! ## Claims on the names of the registry -/

theorem attach_rules (name : String) (comps : List StateRange) :
    ∀ L : List DeriveRec, (attach L name comps).map ruleOf = L.map ruleOf := by
  intro L
  induction L with
  | nil => rfl
  | cons r rs ih =>
    simp only [attach]
    split
    · rfl
    · simp only [List.map_cons, ih]

theorem runPure_rules (L : List DeriveRec) (b : DeriveBlock) :
    (runPure L b).map ruleOf = L.map ruleOf ++ [blockRule b] := by
  unfold runPure add
  rw [attach_rules]
  simp only [List.map_append, List.map_cons, List.map_nil]
  rfl

theorem foldl_runPure_rules (bs : List DeriveBlock) :
    ∀ L : List DeriveRec,
      (bs.foldl runPure L).map ruleOf = L.map ruleOf ++ bs.map blockRule := by
  induction bs with
  | nil => intro L; simp
  | cons b bs ih =>
    intro L
    simp only [List.foldl_cons, ih, runPure_rules, List.map_cons, List.append_assoc,
      List.singleton_append]

/-- The names and box maps of the records that a completed run appends are those of the
blocks of `defineDerived`, in the order of the source. -/
theorem registered_rules {cfg : Config} {s s' : Castro}
    (h : Castro.variableSetUp cfg s = Except.ok s') :
    ∃ nb lb : List DeriveBlock,
      (registeredIn s s').map ruleOf
        = (allBlocks cfg (assignIndices cfg s) (nb ++ lb)).map blockRule ∧
      (∀ b ∈ nb, neutrinoBlock b) ∧
      (lb = [] ∨ lb = leptonBlocks cfg (assignIndices cfg s)) := by
  obtain ⟨nb, lb, he, hnb, hlb, -⟩ := catalogue_of_run h
  refine ⟨nb, lb, ?_, hnb, hlb⟩
  unfold registeredIn
  rw [he, List.map_drop, foldl_runPure_rules]
  have hlen : (s.derive_lst.map ruleOf).length = s.derive_lst.length := List.length_map _ _
  rw [← hlen, List.drop_left]

theorem filter_through {α β γ δ : Type} (f : α → γ) (g : β → γ) (p : γ → Bool) (q : γ → δ)
    {l1 : List α} {l2 : List β} (h : l1.map f = l2.map g) :
    (l1.filter (p ∘ f)).map (q ∘ f) = (l2.filter (p ∘ g)).map (q ∘ g) := by
  have e1 : (l1.filter (p ∘ f)).map (q ∘ f) = ((l1.map f).filter p).map q := by
    rw [List.filter_map, List.map_map]
  have e2 : (l2.filter (p ∘ g)).map (q ∘ g) = ((l2.map g).filter p).map q := by
    rw [List.filter_map, List.map_map]
  rw [e1, e2, h]

theorem find_through {α β γ : Type} (f : α → γ) (g : β → γ) (p : γ → Bool)
    {l1 : List α} {l2 : List β} (h : l1.map f = l2.map g) :
    (l1.find? (p ∘ f)).map f = (l2.find? (p ∘ g)).map g := by
  rw [← List.find?_map, ← List.find?_map, h]

theorem species_no_grow (cfg : Config) (s : Castro) :
    (speciesBlocks cfg s).filter growBlock = [] := by
  rw [List.filter_eq_nil_iff]
  intro b hb
  obtain ⟨i, -, rfl⟩ := List.mem_map.mp hb
  simp [growBlock]

theorem aux_no_grow (cfg : Config) (s : Castro) :
    (auxBlocks cfg s).filter growBlock = [] := by
  rw [List.filter_eq_nil_iff]
  intro b hb
  obtain ⟨i, -, rfl⟩ := List.mem_map.mp hb
  simp [growBlock]

theorem neutrino_no_grow {nb : List DeriveBlock} (h : ∀ b ∈ nb, neutrinoBlock b) :
    nb.filter growBlock = [] := by
  rw [List.filter_eq_nil_iff]
  intro b hb
  have := (h b hb).2.1
  simp [growBlock, this]

theorem lepton_no_grow {cfg : Config} {s : Castro} {lb : List DeriveBlock}
    (h : lb = [] ∨ lb = leptonBlocks cfg s) : lb.filter growBlock = [] := by
  rcases h with rfl | rfl
  · rfl
  · simp [leptonBlocks, leptonBlock, growBlock]

theorem before_grow (cfg : Config) (s : Castro) :
    ((derivesBeforeVorticity cfg s).filter growBlock).map blockName
      = if cfg.DIFFUSION && cfg.diffuse_temp then ["diff_term"] else [] := by
  unfold derivesBeforeVorticity
  split <;> split <;>
    simp [List.filter_cons, wholeState, densityMomentum, growBlock, blockName]

theorem after_grow (cfg : Config) (s : Castro) :
    ((derivesAfterVorticity cfg s).filter growBlock).map blockName = ["divu", "StateErr"] := by
  unfold derivesAfterVorticity
  simp only [List.filter_append, species_no_grow, List.append_nil, List.map_append]
  split <;> split <;> split <;> split <;>
    simp [List.filter_cons, wholeState, densityMomentum, growBlock, blockName]

/-- The blocks of `defineDerived` that register with `grow_box_by_one`, by name and in the
order of the source. -/
theorem allBlocks_grow {cfg : Config} {s : Castro} {nb lb : List DeriveBlock}
    (hnb : ∀ b ∈ nb, neutrinoBlock b) (hlb : lb = [] ∨ lb = leptonBlocks cfg s) :
    ((allBlocks cfg s (nb ++ lb)).filter growBlock).map blockName = growNames cfg := by
  unfold allBlocks growNames
  simp only [List.filter_append, List.map_append, before_grow, after_grow, aux_no_grow,
    neutrino_no_grow hnb, lepton_no_grow hlb, List.map_nil, List.append_nil]
  simp [magvortBlock, growBlock, blockName, List.filter_cons]

/-- The first block of `defineDerived` that carries one of the names of `growNames`
registers with `grow_box_by_one`. -/
theorem allBlocks_first (cfg : Config) (s : Castro) (nbs : List DeriveBlock) {n : String}
    (hn : n ∈ growNames cfg) :
    ∃ b, (allBlocks cfg s nbs).find? (fun b => b.name == n) = some b ∧
      b.bx_map = DeriveBoxMap.grow_box_by_one := by
  unfold growNames at hn
  unfold allBlocks derivesBeforeVorticity derivesAfterVorticity
  by_cases hd : (cfg.DIFFUSION && cfg.diffuse_temp) = true
  · simp only [hd, if_true, List.mem_append, List.mem_cons, List.mem_singleton,
      List.not_mem_nil, or_false] at hn ⊢
    rcases hn with rfl | rfl | rfl | rfl <;>
      by_cases h1 : cfg.BL_SPACEDIM = 1 <;>
      simp [h1, List.find?_append, List.find?_cons, wholeState, densityMomentum, magvortBlock]
  · simp only [hd, if_false, List.mem_append, List.mem_cons, List.mem_singleton,
      List.not_mem_nil, or_false, false_or, Bool.false_eq_true] at hn ⊢
    rcases hn with rfl | rfl | rfl <;>
      by_cases h1 : cfg.BL_SPACEDIM = 1 <;>
      simp [h1, List.find?_append, List.find?_cons, wholeState, densityMomentum, magvortBlock]

/-- C21: among the records that a completed run of `variableSetUp` appends to the derived
catalogue, those with the box map `grow_box_by_one` are, by name and in the order of
registration, exactly `magvort`, `divu` and `StateErr`, preceded by `diff_term` when
`DIFFUSION` is compiled in and `diffuse_temp` is set; a query for one of these names among
the appended records (the first record of the name) finds a record with `grow_box_by_one`;
every appended record with a name other than these, and every appended record that does not
carry `grow_box_by_one`, carries `the_same_box`. This holds for every configuration and every
catalogue before the run; when the catalogue was empty before the run the appended records
are the whole catalogue. A run without radiation completes. -/
theorem C21_grow_by_one_fields (cfg : Config) (s : Castro) :
    (∀ s', Castro.variableSetUp cfg s = Except.ok s' →
      derivedNames ((registeredIn s s').filter usesGrow) = growNames cfg ∧
      (∀ n ∈ growNames cfg, ∃ r,
        (registeredIn s s').find? (fun q => q.derive_name == n) = some r ∧
          r.bx_map = DeriveBoxMap.grow_box_by_one) ∧
      (∀ r ∈ registeredIn s s', r.derive_name ∉ growNames cfg →
        r.bx_map = DeriveBoxMap.the_same_box) ∧
      (∀ r ∈ registeredIn s s', usesGrow r = false → r.bx_map = DeriveBoxMap.the_same_box) ∧
      (s.derive_lst = [] → registeredIn s s' = s'.derive_lst)) ∧
    (cfg.ready s → cfg.RADIATION = false → cfg.NEUTRINO = false →
      (cfg.DEBUG = true → cfg.state_nghost ≥ 0) →
      (cfg.REACTIONS = true → 0 ≤ cfg.ca_get_num_spec) →
      ∃ s', Castro.variableSetUp cfg s = Except.ok s') := by
  refine ⟨fun s' h => ?_, fun hr hR hNu hdbg hspec => ⟨_, variableSetUp_eq hr hR hNu hdbg hspec⟩⟩
  obtain ⟨nb, lb, hk, hnb, hlb⟩ := registered_rules h
  have hnames : derivedNames ((registeredIn s s').filter usesGrow) = growNames cfg :=
    (filter_through ruleOf blockRule
      (fun k => decide (k.2 = DeriveBoxMap.grow_box_by_one)) Prod.fst hk).trans
      (allBlocks_grow hnb hlb)
  have hsame : ∀ r : DeriveRec, usesGrow r = false → r.bx_map = DeriveBoxMap.the_same_box := by
    intro r hu
    cases hb : r.bx_map with
    | the_same_box => rfl
    | grow_box_by_one => simp [usesGrow, hb] at hu
  refine ⟨hnames, ?_, ?_, fun r _ hu => hsame r hu, ?_⟩
  · intro n hn
    obtain ⟨b, hb, hg⟩ := allBlocks_first cfg (assignIndices cfg s) (nb ++ lb) hn
    have hf := find_through ruleOf blockRule (fun k => k.1 == n) hk
    have hf' : ((registeredIn s s').find? (fun q => q.derive_name == n)).map ruleOf
        = some (blockRule b) := by
      refine hf.trans ?_
      show Option.map blockRule
        ((allBlocks cfg (assignIndices cfg s) (nb ++ lb)).find? (fun b => b.name == n)) = _
      rw [hb]
      rfl
    cases hfind : (registeredIn s s').find? (fun q => q.derive_name == n) with
    | none => rw [hfind] at hf'; cases hf'
    | some r =>
      rw [hfind] at hf'
      have e : ruleOf r = blockRule b := Option.some.inj hf'
      have e2 : r.bx_map = b.bx_map := congrArg Prod.snd e
      exact ⟨r, rfl, e2.trans hg⟩
  · intro r hr hn
    apply hsame
    by_contra hu
    have hu' : usesGrow r = true := by simpa using hu
    have hmem : r.derive_name ∈ derivedNames ((registeredIn s s').filter usesGrow) :=
      List.mem_map.mpr ⟨r, List.mem_filter.mpr ⟨hr, hu'⟩, rfl⟩
    rw [hnames] at hmem
    exact hn hmem
  · intro hL
    unfold registeredIn
    rw [hL]
    rfl

/-- C21 at the configuration `auxDivuConfig`, with thermal diffusion and an auxiliary
quantity named `divu`: the run from the initial members completes, its catalogue holds two
records named `divu`, and the records with `grow_box_by_one` are `diff_term`, `magvort`,
`divu` and `StateErr`, one of each. -/
theorem C21_grow_by_one_fields_witness :
    ∃ s', Castro.variableSetUp auxDivuConfig (Castro.initial (-1)) = Except.ok s' ∧
      (derivedNames s'.derive_lst).count "divu" = 2 ∧
      derivedNames (s'.derive_lst.filter usesGrow)
        = ["diff_term", "magvort", "divu", "StateErr"] ∧
      (∃ r, s'.derive_lst.find? (fun q => q.derive_name == "divu") = some r ∧
        r.bx_map = DeriveBoxMap.grow_box_by_one) := by
  have hr : auxDivuConfig.ready (Castro.initial (-1)) :=
    ⟨⟨by decide, by decide⟩, plainConfig_valid, rfl, by decide⟩
  have hrun := variableSetUp_eq hr rfl rfl (fun h => by cases h) (fun h => by cases h)
  have hc := (C21_grow_by_one_fields auxDivuConfig (Castro.initial (-1))).1 _ hrun
  have hall := hc.2.2.2.2 rfl
  rw [hall] at hc
  exact ⟨_, hrun, by decide, hc.1, hc.2.1 "divu" (by decide)⟩

/-! ### The names of the neutrino groups -/

theorem radsName_data (j i : Nat) :
    (radsName j i).data
      = 'r' :: 'a' :: 'd' :: 's' :: ((toString j).data ++ 'g' :: (toString i).data) := by
  simp [radsName, String.data_append]

end CastroSetup
